import Mathlib

/-!
# Gateway: framed codec, registries, discovery and login flow

A shallow embedding of `gate/internal/util/packet.go` (Pack, Unpack), of the
drain loop of `gate/internal/handler/gameserver_handler.go`, of the fleet
registry in `gate/internal/model/gameserver.go`, of the reconciliation step
of `gate/internal/service/consul.go`, of the client registry in
`gate/internal/model/client.go`, of the login flow in
`gate/internal/handler/client_handler.go` and of the upstream dispatch in
`gate/internal/handler/gameserver_handler.go`, with the properties proved
about them.

Conventions of the embedding.
* A Go byte slice or string is a `List Byte`; a Go `uint32` is a `U32`.
* A run-time panic of the Go code (slice bounds out of range) is an explicit
  outcome: `none` for `Pack` and the handlers, `UnpackResult.panic` for `Unpack`.
* `int` is 64 bits wide, so `len` of a slice is a natural number that never
  wraps, whereas the conversions `uint32(...)` and `int32(...)` reduce modulo
  `2^32`.
* Objects reached through pointers live on a heap: a `GameServer` at a `Ptr`, a
  `Client` at a `ClientPtr`. Calls that leave the program (protobuf, Redis, TCP
  and WebSocket I/O) are parameters, gathered in `Env`, and the calls made on
  connections are recorded as a list of `Event`.
* Each method runs to completion before the next one starts: the mutexes of the
  registries make their methods atomic, and interleavings of the tasks of the
  gateway are sequences of such steps.
-/

namespace Gate

/-! ## Bytes and big-endian words -/

/-- Bytes of a Go byte slice or string. -/
abbrev Byte := Fin 256

/-- Values of the Go type uint32. -/
abbrev U32 := Fin 4294967296

/-- Header length constant: 4 bytes length, 4 bytes msgid, 32 bytes sessionid. -/
def HeaderLength : Nat := 40

/-- Conversion `byte(v)`: the low eight bits of `v`. -/
def toByte (v : Nat) : Byte := ⟨v % 256, Nat.mod_lt v (by decide)⟩

/-- Bytes written by `binary.BigEndian.PutUint32`: `byte(v>>24)`, `byte(v>>16)`,
`byte(v>>8)`, `byte(v)`. -/
def putUint32 (v : Nat) : List Byte :=
  [toByte (v / 16777216), toByte (v / 65536), toByte (v / 256), toByte v]

/-- Word read by `binary.BigEndian.Uint32`; `none` is the index panic on a slice
shorter than four bytes. -/
def bigEndianUint32 : List Byte → Option U32
  | b0 :: b1 :: b2 :: b3 :: _ =>
    some ⟨b0.val * 16777216 + b1.val * 65536 + b2.val * 256 + b3.val, by
      have h0 := b0.isLt; have h1 := b1.isLt; have h2 := b2.isLt; have h3 := b3.isLt
      omega⟩
  | _ => none

/-! ## Go slices -/

/-- Slice expression `s[lo:hi]` on a slice whose capacity equals its length;
`none` is the bounds panic. -/
def slice (s : List Byte) (lo hi : Nat) : Option (List Byte) :=
  if lo ≤ hi ∧ hi ≤ s.length then some ((s.take hi).drop lo) else none

/-- Builtin `copy(dst, src)`: the contents of `dst` afterwards. It copies
`min(len(dst), len(src))` bytes. -/
def goCopy (dst src : List Byte) : List Byte :=
  src.take dst.length ++ dst.drop src.length

/-- Writing through the window `s[lo:hi]`: `f` maps the old contents of the window
to the new ones; `none` is the bounds panic of the slice expression. -/
def writeSlice (s : List Byte) (lo hi : Nat) (f : List Byte → List Byte) :
    Option (List Byte) :=
  match slice s lo hi with
  | some w => some (s.take lo ++ f w ++ s.drop hi)
  | none => none

/-- Function `bytes.TrimRight(s, "\x00")`: drop the trailing NUL bytes. -/
def trimRightNul (s : List Byte) : List Byte :=
  s.rdropWhile (fun b => b == 0)

/-! ## Pack and Unpack -/

/-- Function `Pack` of packet.go. `none` is a panic. -/
def Pack (msgID : U32) (sessionID : List Byte) (data : List Byte) : Option (List Byte) :=
  let sessionIDBytes := goCopy (List.replicate 32 0) sessionID
  let totalLength := (HeaderLength + data.length) % 4294967296
  let result : List Byte := List.replicate totalLength 0
  (writeSlice result 0 4 (fun _ => putUint32 totalLength)).bind fun result =>
  (writeSlice result 4 8 (fun _ => putUint32 msgID.val)).bind fun result =>
  (writeSlice result 8 40 (fun w => goCopy w sessionIDBytes)).bind fun result =>
  writeSlice result 40 result.length (fun w => goCopy w data)

/-- Outcome of one call of `Unpack`: the returned triple with a nil error, a
non-nil error, or a run-time panic. -/
inductive UnpackResult where
  | ok (msgID : U32) (sessionID : List Byte) (data : List Byte)
  | err (msg : String)
  | panic
  deriving DecidableEq, Repr

/-- Function `Unpack` of packet.go on a buffer whose unread bytes are `buffer`:
the outcome and the unread bytes afterwards.

The slices of `buffer.Bytes()` are taken with capacity equal to length. The
outcome does not depend on spare capacity: past the two length checks a prefix
of at least 40 puts every slice inside the unread bytes, and a prefix below 40
panics at `[40:totalLength]` whatever the capacity. -/
def Unpack (buffer : List Byte) : UnpackResult × List Byte :=
  if buffer.length < 4 then (.err "buffer too short for length", buffer)
  else
    match bigEndianUint32 (buffer.take 4) with
    | none => (.panic, buffer)
    | some totalLength =>
      if buffer.length < totalLength.val then
        (.err "buffer too short for full message", buffer)
      else
        match (slice buffer 4 8).bind bigEndianUint32, slice buffer 8 40,
            slice buffer 40 totalLength.val with
        | some msgID, some sessionIDBytes, some data =>
          (.ok msgID (trimRightNul sessionIDBytes) data, buffer.drop totalLength.val)
        | _, _, _ => (.panic, buffer)

/-! ## The drain loop of HandleGameServerMessage -/

/-- One decoded message: the triple a successful `Unpack` returns. -/
structure Frame where
  msgID : U32
  sessionID : List Byte
  data : List Byte
  deriving DecidableEq, Repr

/-- Outcome of running a loop of the upstream reader: it stopped with the messages
decoded so far and the bytes left in the buffer, it panicked, or the step budget of
the model ran out. -/
inductive Drained where
  | done (frames : List Frame) (buffer : List Byte)
  | panic
  | fuel
  deriving DecidableEq, Repr

/-- Sequencing of two loop runs: the second starts from the buffer the first left. -/
def Drained.andThen (d : Drained) (k : List Byte → Drained) : Drained :=
  match d with
  | .done frames buffer =>
    match k buffer with
    | .done frames2 buffer2 => .done (frames ++ frames2) buffer2
    | .panic => .panic
    | .fuel => .fuel
  | .panic => .panic
  | .fuel => .fuel

/-- Inner loop `for`, which calls `util.Unpack(buffer)` and breaks on a non-nil error, with a
step budget. Every branch of the dispatch on msgID falls
through or continues to the next iteration, so the decoded messages are the
successful results of `Unpack`, in order. -/
def drainLoop : Nat → List Byte → Drained
  | 0, _ => .fuel
  | n + 1, buffer =>
    match Unpack buffer with
    | (.ok msgID sessionID data, rest) =>
      (Drained.done [⟨msgID, sessionID, data⟩] rest).andThen (drainLoop n)
    | (.err _, rest) => .done [] rest
    | (.panic, _) => .panic

/-- The inner loop with a budget of one step per 40 buffered bytes, plus one. -/
def drain (buffer : List Byte) : Drained :=
  drainLoop (buffer.length / 40 + 1) buffer

/-- Outer loop of `HandleGameServerMessage` over the successive results of
`gs.Conn.Read`: each chunk is appended to the buffer (`buffer.Write(tmpBuf[:n])`)
and the inner loop is run. -/
def readLoop : List (List Byte) → List Byte → Drained
  | [], buffer => .done [] buffer
  | chunk :: chunks, buffer => (drain (buffer ++ chunk)).andThen (readLoop chunks)

/-- Logical frame that comes back from the wire for a frame handed to `Pack`: the
sessionID is cut to the 32-byte slot and its trailing NUL bytes are dropped. -/
def Frame.normalize (f : Frame) : Frame :=
  ⟨f.msgID, trimRightNul (f.sessionID.take 32), f.data⟩

/-! ## Fleet registry -/

/-- Address of a `GameServer` object on the heap. -/
abbrev Ptr := Nat

/-- Identity of a `*net.TCPConn`. -/
abbrev ConnPtr := Nat

/-- Struct `GameServer`. `Load` is an int32; `Conn` is `none` for a nil pointer. -/
structure GameServer where
  ID : String
  IP : String
  Port : Int
  GameTypes : List String
  Load : Int
  Conn : Option ConnPtr
  UpdatedAt : Nat
  deriving DecidableEq, Repr

/-- Heap of `GameServer` objects: the object at each address and the next free
address. -/
structure Heap where
  obj : Ptr → GameServer
  next : Ptr

/-- Heap after a store to the object at `p`. -/
def Heap.set (h : Heap) (p : Ptr) (s : GameServer) : Heap :=
  { h with obj := fun q => if q = p then s else h.obj q }

/-- Allocation of a new object: its address and the heap afterwards. -/
def Heap.alloc (h : Heap) (s : GameServer) : Ptr × Heap :=
  (h.next, { obj := fun q => if q = h.next then s else h.obj q, next := h.next + 1 })

/-- A Go `map[string]*GameServer`: its entries in the order a `range` visits them.
The keys of a map are pairwise distinct. -/
abbrev ServerMap := List (String × Ptr)

/-- Map read `m[k]`: `none` is the zero value nil with `exists == false`. -/
def mapGet (m : ServerMap) (k : String) : Option Ptr :=
  (m.find? (fun e => e.1 == k)).map Prod.snd

/-- Map write `m[k] = v`. -/
def mapSet (m : ServerMap) (k : String) (v : Ptr) : ServerMap :=
  if m.any (fun e => e.1 == k) then m.map (fun e => if e.1 == k then (k, v) else e)
  else m ++ [(k, v)]

/-- Largest int32, `1<<31 - 1`. -/
def maxInt32 : Int := 2147483647

/-- Conversion `int32(v)` of an int. -/
def toInt32 (v : Int) : Int := (v + 2147483648) % 4294967296 - 2147483648

/-- Method `UpdateServers`: the new `gsm.servers` and the connections on which
`Close` was invoked, in order. -/
def UpdateServers (heap : Heap) (servers newServers : ServerMap) :
    ServerMap × List ConnPtr :=
  let closed := servers.filterMap fun e =>
    match mapGet newServers e.1 with
    | some _ => none
    | none => (heap.obj e.2).Conn
  (newServers.foldl (fun m e => mapSet m e.1 e.2) [], closed)

/-- Method `GetServersByGameType`. -/
def GetServersByGameType (heap : Heap) (servers : ServerMap) (gameType : String) :
    List Ptr :=
  servers.filterMap fun e =>
    if (heap.obj e.2).GameTypes.contains gameType then some e.2 else none

/-- Method `GetServerByID`. -/
def GetServerByID (servers : ServerMap) (id : String) : Option Ptr :=
  mapGet servers id

/-- Method `SelectServerByLoad`: `none` is the nil result. -/
def SelectServerByLoad (heap : Heap) (servers : ServerMap) (gameType : String) :
    Option Ptr :=
  let candidates := GetServersByGameType heap servers gameType
  if candidates.length = 0 then none
  else
    (candidates.foldl
      (fun (st : Option Ptr × Int) server =>
        if (heap.obj server).Load < st.2 then (some server, (heap.obj server).Load) else st)
      (none, maxInt32)).1

/-- Method `GetAllServers`: a fresh map with the same entries. -/
def GetAllServers (servers : ServerMap) : ServerMap :=
  servers.foldl (fun m e => mapSet m e.1 e.2) []

/-! ## Discovery reconciliation -/

/-- Fields of a Consul service entry that the discovery loop reads. -/
structure Entry where
  ID : String
  Address : String
  Port : Int
  Tags : List String
  Passing : Int
  deriving DecidableEq, Repr

/-- Loop over the discovery snapshot in `StartBlockingQuery` that builds
`newServers`. `dial p` is the outcome of `Connect` on the server object allocated
at `p`: the new connection, or `none` when dialing fails. The `hasChanges` flag
and `lastServers` only gate logging and are left out, and so is the spawn of the
reader task. -/
def buildNewServers (dial : Ptr → Option ConnPtr) (now : Nat) (oldServers : ServerMap) :
    List Entry → Heap → ServerMap → Heap × ServerMap
  | [], heap, newServers => (heap, newServers)
  | entry :: services, heap, newServers =>
    match mapGet oldServers entry.ID with
    | some oldServer =>
      let heap := heap.set oldServer
        { heap.obj oldServer with
          GameTypes := entry.Tags, Load := toInt32 entry.Passing, UpdatedAt := now }
      buildNewServers dial now oldServers services heap
        (mapSet newServers entry.ID oldServer)
    | none =>
      let (newServer, heap) := heap.alloc
        { ID := entry.ID, IP := entry.Address, Port := entry.Port, GameTypes := entry.Tags,
          Load := toInt32 entry.Passing, Conn := none, UpdatedAt := 0 }
      match dial newServer with
      | none => buildNewServers dial now oldServers services heap newServers
      | some conn =>
        let heap := heap.set newServer { heap.obj newServer with Conn := some conn }
        buildNewServers dial now oldServers services heap
          (mapSet newServers entry.ID newServer)

/-- State the reconciliation acts on: the heap, the registry map `gsm.servers` and
the log of `Close` invocations. -/
structure World where
  heap : Heap
  servers : ServerMap
  closed : List ConnPtr

/-- One iteration of `StartBlockingQuery` after a successful query: build
`newServers`, close the connections of the servers that went offline, then call
`UpdateServers`. -/
def reconcile (dial : Ptr → Option ConnPtr) (now : Nat) (services : List Entry)
    (w : World) : World :=
  let oldServers := GetAllServers w.servers
  let (heap, newServers) := buildNewServers dial now oldServers services w.heap []
  let closedHere := oldServers.filterMap fun e =>
    match mapGet newServers e.1 with
    | some _ => none
    | none => (heap.obj e.2).Conn
  let (servers, closedThere) := UpdateServers heap w.servers newServers
  { heap := heap, servers := servers, closed := w.closed ++ closedHere ++ closedThere }

/-! ## Example fleets -/

/-- Heap of the fleet `[(A, gt, 7), (B, gt, 3), (C, gt-prime, 1)]` of the selection
scenario: server A at address 0, B at 1, C at 2. -/
def exampleHeap : Heap where
  obj := fun p =>
    if p = 0 then ⟨"A", "10.0.0.1", 9000, ["gt"], 7, none, 0⟩
    else if p = 1 then ⟨"B", "10.0.0.2", 9000, ["gt"], 3, none, 0⟩
    else ⟨"C", "10.0.0.3", 9000, ["gt\x27"], 1, none, 0⟩
  next := 3

/-- Registry map of the fleet `[(A, gt, 7), (B, gt, 3), (C, gt-prime, 1)]`. -/
def exampleFleet : ServerMap := [("A", 0), ("B", 1), ("C", 2)]

/-- Heap with one server A that supports gt, has load `1<<31 - 1` and holds the open
connection 7. -/
def saturatedHeap : Heap where
  obj := fun _ => ⟨"A", "10.0.0.1", 9000, ["gt"], 2147483647, some 7, 0⟩
  next := 1

/-- Registry map holding the one server of `saturatedHeap`. -/
def saturatedFleet : ServerMap := [("A", 0)]

/-! ## Client registry -/

/-- Address of a `Client` object on the heap. -/
abbrev ClientPtr := Nat

/-- Identity of a `*websocket.Conn`. -/
abbrev WsPtr := Nat

/-- Struct `Client` of client.go. `GameServer` is `none` for a nil pointer. -/
structure Client where
  Conn : WsPtr
  SessionID : List Byte
  GameServer : Option Ptr
  deriving DecidableEq, Repr

/-- Struct `ClientManager`: the map `clients` from sessionID to client, as its
entries. -/
structure ClientManager where
  clients : List (List Byte × ClientPtr)
  deriving DecidableEq, Repr

/-- Function `NewClientManager`: an empty map. -/
def NewClientManager : ClientManager := ⟨[]⟩

/-- Method `AddClient`: the map write `cm.clients[sessionID] = client`. -/
def ClientManager.AddClient (cm : ClientManager) (sessionID : List Byte)
    (client : ClientPtr) : ClientManager :=
  if cm.clients.any (fun e => e.1 == sessionID) then
    ⟨cm.clients.map (fun e => if e.1 == sessionID then (sessionID, client) else e)⟩
  else ⟨cm.clients ++ [(sessionID, client)]⟩

/-- Method `RemoveClient`: `delete(cm.clients, sessionID)`. -/
def ClientManager.RemoveClient (cm : ClientManager) (sessionID : List Byte) :
    ClientManager :=
  ⟨cm.clients.filter (fun e => !(e.1 == sessionID))⟩

/-- Method `GetClient`: `some c` is the result `(c, true)`, `none` is `(nil, false)`. -/
def ClientManager.GetClient (cm : ClientManager) (sessionID : List Byte) :
    Option ClientPtr :=
  (cm.clients.find? (fun e => e.1 == sessionID)).map Prod.snd

/-- Method `Len`: `len(cm.clients)`. -/
def ClientManager.Len (cm : ClientManager) : Nat := cm.clients.length

/-- One call on the registry: `AddClient(sessionID, client)` or
`RemoveClient(sessionID)`. -/
inductive ClientOp where
  | add (sessionID : List Byte) (client : ClientPtr)
  | remove (sessionID : List Byte)
  deriving DecidableEq, Repr

/-- The sessionID a call names. -/
def ClientOp.sessionID : ClientOp → List Byte
  | .add s _ => s
  | .remove s => s

/-- Registry after one call. -/
def ClientManager.apply (cm : ClientManager) : ClientOp → ClientManager
  | .add s c => cm.AddClient s c
  | .remove s => cm.RemoveClient s

/-- Registry after a sequence of calls on a fresh `ClientManager`. -/
def runOps (ops : List ClientOp) : ClientManager :=
  ops.foldl ClientManager.apply NewClientManager

/-- The last call of a sequence that named the sessionID `s`, if any. -/
def lastCall (ops : List ClientOp) (s : List Byte) : Option ClientOp :=
  ops.reverse.find? (fun o => o.sessionID == s)

/-! ## Login flow of the client handler -/

/-- Modelled from the spec: the generated type `proto.LoginReq` is missing from the
sources; these are the fields the spec lists for it, `clientIp` being rewritten by
the gateway. -/
structure LoginReq where
  Loginname : String
  Token : String
  GameType : String
  Version : Int
  ClientIp : String
  deriving DecidableEq, Repr

/-- Modelled from the spec: the generated type `proto.LoginResp` is missing from the
sources; these are the fields the spec lists for it. `Code` is an int32 with 0 for
success; the optional player info, which the gateway never reads, is kept as opaque
bytes. -/
structure LoginResp where
  Loginname : String
  Code : Int
  Message : String
  Info : Option (List Byte)
  deriving DecidableEq, Repr

/-- Modelled from the spec: the generated type `proto.KickPlayerNotify` is missing from
the sources; these are the two fields the upstream reader reads from a kick notice. -/
structure KickPlayerNotify where
  SessionId : List Byte
  Reason : Int
  deriving DecidableEq, Repr

/-- Result of `rs.client.Get(ctx, key).Result()`: a value, the `redis.Nil` error of
a missing key, or another error. -/
inductive RedisReply where
  | value (val : String)
  | missing
  | failure
  deriving DecidableEq, Repr

/-- Method `GetPlayerGameServer` of redis.go on the reply for the player key: the
returned string, or `none` for a non-nil error. -/
def GetPlayerGameServer : RedisReply → Option String
  | .missing => some ""
  | .failure => none
  | .value val => some val

/-- Calls to the outside world that the handlers make, as parameters: the protobuf
library (`protobuf.Marshal`, `none` for an error), `Connect` on a game server object
(`none` when dialing fails), and the outcome of a write on a TCP connection or on a
WebSocket (`true` for a nil error). -/
structure Env where
  marshalLoginReq : LoginReq → Option (List Byte)
  marshalLoginResp : LoginResp → Option (List Byte)
  marshalKick : KickPlayerNotify → Option (List Byte)
  marshalConnClose : Option (List Byte)
  connect : Ptr → Option ConnPtr
  tcpWrite : ConnPtr → List Byte → Bool
  wsWrite : WsPtr → List Byte → Bool

/-- Effects of the handlers on connections, in order: a LoginResp frame handed to
`client.Conn.WriteMessage` (with the response it encodes), another frame handed to
`WriteMessage`, `Close` on a WebSocket, a `Connect` attempt on a game server, and a
frame handed to `Write` on the connection of a game server. -/
inductive Event where
  | wsLoginResp (conn : WsPtr) (resp : LoginResp) (frame : List Byte)
  | wsWrite (conn : WsPtr) (frame : List Byte)
  | wsClose (conn : WsPtr)
  | connect (server : Ptr)
  | tcpWrite (server : Ptr) (conn : ConnPtr) (frame : List Byte)
  deriving DecidableEq, Repr

/-- Method `sendLoginResponse`: the events it produces; `none` is a panic of `Pack`.
A marshal error is logged and nothing is sent; an error of `WriteMessage` is only
logged. -/
def sendLoginResponse (env : Env) (client : Client) (loginname : String) (code : Int)
    (message : String) : Option (List Event) :=
  match env.marshalLoginResp ⟨loginname, code, message, none⟩ with
  | none => some []
  | some data =>
    match Pack 0x11002 client.SessionID data with
    | none => none
    | some msgData =>
      some [Event.wsLoginResp client.Conn ⟨loginname, code, message, none⟩ msgData]

/-- State after `handleLoginRequest` returns: the game server heap (`Connect` stores
the new connection in the target), the client object, the request object (its
`ClientIp` is overwritten) and the events produced. -/
structure LoginResult where
  heap : Heap
  client : Client
  loginReq : LoginReq
  events : List Event

/-- Lines 155 to 180 of `handleLoginRequest`: the choice of `targetGameServer` from
the server id the KV returned. `Except.error` carries the code and message of the
LoginResp with which the handler returns instead; `Except.ok none` is a nil target. -/
def loginTarget (heap : Heap) (servers : ServerMap) (gameServerID : String)
    (gameType : String) : Except (Int × String) (Option Ptr) :=
  let targetGameServer : Option Ptr :=
    if gameServerID ≠ "" then GetServerByID servers gameServerID else none
  let gameServerID : String :=
    if gameServerID ≠ "" ∧ targetGameServer = none then "" else gameServerID
  if gameServerID = "" then
    if gameType = "" then .error (2, "GameType is empty")
    else
      match SelectServerByLoad heap servers gameType with
      | none => .error (3, "No game server available")
      | some server => .ok (some server)
  else .ok targetGameServer

/-- Lines 191 to 228 of `handleLoginRequest`, with `conn` the connection of the
target: stamp the client IP, marshal, pack and write the request, then bind the
client. `events` are the events produced so far; `none` is a panic of `Pack`. -/
def writeLogin (env : Env) (heap : Heap) (client : Client) (loginReq : LoginReq)
    (clientIP : String) (target : Ptr) (conn : ConnPtr) (events : List Event) :
    Option LoginResult :=
  let loginReq := { loginReq with ClientIp := clientIP }
  match env.marshalLoginReq loginReq with
  | none =>
    (sendLoginResponse env client loginReq.Loginname 5 "Internal server error").map
      fun sent => ⟨heap, client, loginReq, events ++ sent⟩
  | some data =>
    match Pack 0x11001 client.SessionID data with
    | none => none
    | some tcpData =>
      if env.tcpWrite conn tcpData then
        some ⟨heap, { client with GameServer := some target }, loginReq,
          events ++ [Event.tcpWrite target conn tcpData]⟩
      else
        (sendLoginResponse env client loginReq.Loginname 6
          "Failed to communicate with game server").map
          fun sent => ⟨heap, client, loginReq,
            events ++ Event.tcpWrite target conn tcpData :: sent⟩

/-- Lines 182 to 228 of `handleLoginRequest`: connect to the target when it has no
connection, then forward the request. -/
def forwardLogin (env : Env) (heap : Heap) (client : Client) (loginReq : LoginReq)
    (clientIP : String) (target : Ptr) : Option LoginResult :=
  match (heap.obj target).Conn with
  | none =>
    match env.connect target with
    | none =>
      (sendLoginResponse env client loginReq.Loginname 4
        "Failed to connect to game server").map
        fun sent => ⟨heap, client, loginReq, Event.connect target :: sent⟩
    | some conn =>
      writeLogin env (heap.set target { heap.obj target with Conn := some conn }) client
        loginReq clientIP target conn [Event.connect target]
  | some conn => writeLogin env heap client loginReq clientIP target conn []

/-- Method `handleLoginRequest`. `reply` is the reply of the KV for the key of
`loginReq.Loginname`; `none` is a panic. -/
def handleLoginRequest (env : Env) (reply : RedisReply) (heap : Heap) (servers : ServerMap)
    (client : Client) (loginReq : LoginReq) (clientIP : String) : Option LoginResult :=
  match GetPlayerGameServer reply with
  | none =>
    (sendLoginResponse env client loginReq.Loginname 1 "Internal server error").map
      fun sent => ⟨heap, client, loginReq, sent⟩
  | some gameServerID =>
    match loginTarget heap servers gameServerID loginReq.GameType with
    | .error (code, message) =>
      (sendLoginResponse env client loginReq.Loginname code message).map
        fun sent => ⟨heap, client, loginReq, sent⟩
    | .ok none => none
    | .ok (some target) => forwardLogin env heap client loginReq clientIP target

/-! ## Example environment of the login flow -/

/-- An environment in which every call succeeds: requests marshal to one byte,
responses to the byte of their code, dialing returns connection 7. -/
def exampleEnv : Env where
  marshalLoginReq := fun _ => some [10]
  marshalLoginResp := fun resp => some [toByte resp.Code.toNat]
  marshalKick := fun _ => some [11]
  marshalConnClose := some []
  connect := fun _ => some 7
  tcpWrite := fun _ _ => true
  wsWrite := fun _ _ => true

/-- A client on WebSocket 100 with sessionID "AB", not bound to a server. -/
def exampleClient : Client := ⟨100, [65, 66], none⟩

/-- A login request of user u1 for game type gt that carries a client IP of its own. -/
def exampleLoginReq : LoginReq := ⟨"u1", "tok", "gt", 1, "6.6.6.6"⟩

/-! ## Upstream dispatch, disconnect and the gateway as a transition system -/

/-- State the upstream dispatch and the disconnect act on: the client objects, the
client registry and the events produced. -/
structure ClientsResult where
  clientObj : ClientPtr → Client
  registry : ClientManager
  events : List Event

/-- Method `handleLoginResponse` of gameserver_handler.go for a LoginResp received
from the game server `gs` in a frame with the given sessionID; `none` is a panic of
`Pack`. -/
def handleLoginResponse (env : Env) (clientObj : ClientPtr → Client)
    (registry : ClientManager) (gs : Ptr) (loginResp : LoginResp) (sessionID : List Byte) :
    Option ClientsResult :=
  match registry.GetClient sessionID with
  | none => some ⟨clientObj, registry, []⟩
  | some c =>
    match env.marshalLoginResp loginResp with
    | none => some ⟨clientObj, registry, []⟩
    | some data =>
      match Pack 0x11002 sessionID data with
      | none => none
      | some msgData =>
        if env.wsWrite (clientObj c).Conn msgData then
          if loginResp.Code = 0 then
            some ⟨fun q => if q = c then { clientObj c with GameServer := some gs }
                else clientObj q,
              registry, [Event.wsLoginResp (clientObj c).Conn loginResp msgData]⟩
          else
            some ⟨clientObj, registry.RemoveClient sessionID,
              [Event.wsLoginResp (clientObj c).Conn loginResp msgData,
                Event.wsClose (clientObj c).Conn]⟩
        else
          some ⟨clientObj, registry,
            [Event.wsLoginResp (clientObj c).Conn loginResp msgData]⟩

/-- Method `handleKickPlayerNotify` of gameserver_handler.go; `none` is a panic of
`Pack`. The notice is packed with the decimal msgID 10001 of the source. -/
def handleKickPlayerNotify (env : Env) (clientObj : ClientPtr → Client)
    (registry : ClientManager) (kickNotify : KickPlayerNotify) : Option ClientsResult :=
  match registry.GetClient kickNotify.SessionId with
  | none => some ⟨clientObj, registry, []⟩
  | some c =>
    match env.marshalKick kickNotify with
    | none =>
      some ⟨clientObj, registry.RemoveClient kickNotify.SessionId,
        [Event.wsClose (clientObj c).Conn]⟩
    | some data =>
      match Pack 10001 kickNotify.SessionId data with
      | none => none
      | some msgData =>
        some ⟨clientObj, registry.RemoveClient kickNotify.SessionId,
          [Event.wsWrite (clientObj c).Conn msgData, Event.wsClose (clientObj c).Conn]⟩

/-- Method `sendConnCloseToGameServer`: the events it produces; `none` is a panic of
`Pack`. -/
def sendConnCloseToGameServer (env : Env) (heap : Heap) (client : Client) :
    Option (List Event) :=
  match client.GameServer with
  | none => some []
  | some gs =>
    match (heap.obj gs).Conn with
    | none => some []
    | some conn =>
      match env.marshalConnClose with
      | none => some []
      | some data =>
        match Pack 0x10001 client.SessionID data with
        | none => none
        | some tcpData => some [Event.tcpWrite gs conn tcpData]

/-- Deferred function of `handleClientMessages`, run when the client handler loop
ends: close the WebSocket, remove the client from the registry and, when the client
is bound, notify the game server. -/
def disconnect (env : Env) (heap : Heap) (clientObj : ClientPtr → Client)
    (registry : ClientManager) (c : ClientPtr) : Option ClientsResult :=
  match (clientObj c).GameServer with
  | none =>
    some ⟨clientObj, registry.RemoveClient (clientObj c).SessionID,
      [Event.wsClose (clientObj c).Conn]⟩
  | some _ =>
    (sendConnCloseToGameServer env heap (clientObj c)).map fun sent =>
      ⟨clientObj, registry.RemoveClient (clientObj c).SessionID,
        Event.wsClose (clientObj c).Conn :: sent⟩

/-- State of the gateway: the game server objects and the fleet registry, the
client objects with the next free address, the client registry, the events produced
so far, and the LoginResp messages received so far, each with the game server that
sent it and the sessionID of its frame, latest first. -/
structure Gateway where
  heap : Heap
  servers : ServerMap
  clientObj : ClientPtr → Client
  nextClient : ClientPtr
  registry : ClientManager
  events : List Event
  received : List (Ptr × List Byte × LoginResp)

/-- A gateway that has not served any client yet, over a given fleet. -/
def Gateway.initial (heap : Heap) (servers : ServerMap) : Gateway :=
  ⟨heap, servers, fun _ => ⟨0, [], none⟩, 0, NewClientManager, [], []⟩

/-- One step of the gateway: a WebSocket upgrade handled by `ServeWS` (the new client
is registered), a login request of a client handled, a LoginResp from a game server
handled, a kick notice handled, a client disconnect, or one discovery
reconciliation. Each step comes with the environment it runs in. -/
inductive Input where
  | connect (conn : WsPtr) (sessionID : List Byte)
  | loginRequest (env : Env) (reply : RedisReply) (c : ClientPtr) (loginReq : LoginReq)
      (clientIP : String)
  | loginResp (env : Env) (gs : Ptr) (sessionID : List Byte) (resp : LoginResp)
  | kick (env : Env) (kickNotify : KickPlayerNotify)
  | disconnect (env : Env) (c : ClientPtr)
  | discovery (dial : Ptr → Option ConnPtr) (now : Nat) (services : List Entry)

/-- State after one step; `none` is a panic. -/
def Gateway.step (g : Gateway) : Input → Option Gateway
  | .connect conn sessionID =>
    some { g with
      clientObj := fun q => if q = g.nextClient then ⟨conn, sessionID, none⟩ else g.clientObj q
      nextClient := g.nextClient + 1
      registry := g.registry.AddClient sessionID g.nextClient }
  | .loginRequest env reply c loginReq clientIP =>
    (handleLoginRequest env reply g.heap g.servers (g.clientObj c) loginReq clientIP).map
      fun r => { g with
        heap := r.heap
        clientObj := fun q => if q = c then r.client else g.clientObj q
        events := g.events ++ r.events }
  | .loginResp env gs sessionID resp =>
    (handleLoginResponse env g.clientObj g.registry gs resp sessionID).map
      fun r => { g with
        clientObj := r.clientObj
        registry := r.registry
        events := g.events ++ r.events
        received := (gs, sessionID, resp) :: g.received }
  | .kick env kickNotify =>
    (handleKickPlayerNotify env g.clientObj g.registry kickNotify).map
      fun r => { g with
        clientObj := r.clientObj
        registry := r.registry
        events := g.events ++ r.events }
  | .disconnect env c =>
    (disconnect env g.heap g.clientObj g.registry c).map
      fun r => { g with
        clientObj := r.clientObj
        registry := r.registry
        events := g.events ++ r.events }
  | .discovery dial now services =>
    some { g with
      heap := (reconcile dial now services ⟨g.heap, g.servers, []⟩).heap
      servers := (reconcile dial now services ⟨g.heap, g.servers, []⟩).servers }

/-- State after a sequence of steps; `none` when a step panics. -/
def Gateway.run : List Input → Gateway → Option Gateway
  | [], g => some g
  | i :: rest, g => (g.step i).bind (Gateway.run rest)

/-! ## Upstream relay and client relay -/

/-- The protobuf library as a parameter, decoding side: `protobuf.Unmarshal` into
each message type, `none` for an error. -/
structure Decoder where
  unmarshalLoginReq : List Byte → Option LoginReq
  unmarshalLoginResp : List Byte → Option LoginResp
  unmarshalKick : List Byte → Option KickPlayerNotify

/-- Method `forwardToClient` of gameserver_handler.go: the events it produces; `none`
is a panic of `Pack`, which runs before the client is looked up. An error of
`WriteMessage` is only logged. -/
def forwardToClient (clientObj : ClientPtr → Client) (registry : ClientManager)
    (msgID : U32) (sessionID : List Byte) (data : List Byte) : Option (List Event) :=
  match Pack msgID sessionID data with
  | none => none
  | some msgData =>
    match registry.GetClient sessionID with
    | some c => some [Event.wsWrite (clientObj c).Conn msgData]
    | none => some []

/-- Body of the inner loop of `HandleGameServerMessage` for one decoded message from
the game server `gs`: the dispatch on msgID. A payload that does not unmarshal is
logged and skipped. -/
def dispatchUpstream (env : Env) (dec : Decoder) (clientObj : ClientPtr → Client)
    (registry : ClientManager) (gs : Ptr) (frame : Frame) : Option ClientsResult :=
  if frame.msgID = 0x11002 then
    match dec.unmarshalLoginResp frame.data with
    | none => some ⟨clientObj, registry, []⟩
    | some loginResp =>
      handleLoginResponse env clientObj registry gs loginResp frame.sessionID
  else if frame.msgID = 0x10001 then
    match dec.unmarshalKick frame.data with
    | none => some ⟨clientObj, registry, []⟩
    | some kickNotify => handleKickPlayerNotify env clientObj registry kickNotify
  else
    (forwardToClient clientObj registry frame.msgID frame.sessionID frame.data).map
      fun sent => ⟨clientObj, registry, sent⟩

/-- State after the client handler has processed one WebSocket message: the game
server heap, the client object and the events produced. -/
structure ClientStep where
  heap : Heap
  client : Client
  events : List Event

/-- Body of the loop of `handleClientMessages` for one WebSocket message `data`:
unpack it, run the login flow for msgID 0x11001 and relay every other message to the
bound game server. `none` is a panic: of `Unpack`, of `Pack`, or of the write through
a nil `Conn` of the bound server. An error of `Unpack`, of `Unmarshal` or of the
upstream write is logged and the loop continues. -/
def handleClientMessage (env : Env) (dec : Decoder) (reply : RedisReply) (heap : Heap)
    (servers : ServerMap) (client : Client) (clientIP : String) (data : List Byte) :
    Option ClientStep :=
  match Unpack data with
  | (.err _, _) => some ⟨heap, client, []⟩
  | (.panic, _) => none
  | (.ok msgID _ msgData, _) =>
    if msgID = 0x11001 then
      match dec.unmarshalLoginReq msgData with
      | none => some ⟨heap, client, []⟩
      | some loginReq =>
        (handleLoginRequest env reply heap servers client loginReq clientIP).map
          fun r => ⟨r.heap, r.client, r.events⟩
    else
      match client.GameServer with
      | none => some ⟨heap, client, []⟩
      | some gs =>
        match Pack msgID client.SessionID msgData with
        | none => none
        | some tcpData =>
          match (heap.obj gs).Conn with
          | none => none
          | some conn => some ⟨heap, client, [Event.tcpWrite gs conn tcpData]⟩

/-! ## Framing loop of the game server stub -/

/-- Inner loop of `handleConnection` in cmd/gameserver_stub, with a step budget: while
at least `HeaderLength` bytes are buffered it reads `length`, breaks when fewer than
`int(length)+4` bytes are buffered, and otherwise takes msgID, sessionID and
`dataBuffer[40 : 4+length]` and drops `4+length` bytes, the sum being a uint32. The
decoded messages are collected in order; `Drained.panic` is a slice bounds panic. -/
def stubLoop : Nat → List Byte → Drained
  | 0, _ => .fuel
  | n + 1, dataBuffer =>
    if dataBuffer.length < HeaderLength then .done [] dataBuffer
    else
      match bigEndianUint32 (dataBuffer.take 4) with
      | none => .panic
      | some length =>
        if dataBuffer.length < length.val + 4 then .done [] dataBuffer
        else
          match (slice dataBuffer 4 8).bind bigEndianUint32, slice dataBuffer 8 40,
              slice dataBuffer 40 ((4 + length.val) % 4294967296) with
          | some msgID, some sessionIDBytes, some msgData =>
            (Drained.done [⟨msgID, trimRightNul sessionIDBytes, msgData⟩]
              (dataBuffer.drop ((4 + length.val) % 4294967296))).andThen (stubLoop n)
          | _, _, _ => .panic

/-- The framing loop of the stub with a budget of one step per 40 buffered bytes,
plus one. -/
def stubDrain (dataBuffer : List Byte) : Drained :=
  stubLoop (dataBuffer.length / 40 + 1) dataBuffer

/-! ## Session ids and client IP -/

/-- Alphabet of `base64.RawURLEncoding`: A to Z, a to z, 0 to 9, minus and
underscore. -/
def encodeURL : List Byte :=
  "ABCDEFGHIJKLMNOPQRSTUVWXYZabcdefghijklmnopqrstuvwxyz0123456789-_".toList.map
    fun c => toByte c.toNat

/-- Character of the alphabet for a six-bit value. -/
def base64Char (v : Nat) : Byte := encodeURL.getD (v % 64) 0

/-- Function `base64.RawURLEncoding.EncodeToString`: three bytes become four
characters, a remainder of one or two bytes becomes two or three characters, and no
padding is added. -/
def rawURLEncode : List Byte → List Byte
  | b0 :: b1 :: b2 :: rest =>
    base64Char (b0.val / 4) :: base64Char (b0.val % 4 * 16 + b1.val / 16) ::
      base64Char (b1.val % 16 * 4 + b2.val / 64) :: base64Char (b2.val % 64) ::
      rawURLEncode rest
  | [b0, b1] =>
    [base64Char (b0.val / 4), base64Char (b0.val % 4 * 16 + b1.val / 16),
      base64Char (b1.val % 16 * 4)]
  | [b0] => [base64Char (b0.val / 4), base64Char (b0.val % 4 * 16)]
  | [] => []

/-- Bytes written by `binary.BigEndian.PutUint64`. -/
def putUint64 (v : Nat) : List Byte :=
  [toByte (v / 72057594037927936), toByte (v / 281474976710656), toByte (v / 1099511627776),
    toByte (v / 4294967296), toByte (v / 16777216), toByte (v / 65536), toByte (v / 256),
    toByte v]

/-- Conversion `uint64(v)` of an int64. -/
def toUint64 (v : Int) : Nat := (v % 18446744073709551616).toNat

/-- Function `generateSessionID`, with the clock and the random source as
parameters: `unixNano` is `time.Now().UnixNano()` and `random` are the bytes that
`rand.Read` stores in `buf[8:]`. -/
def generateSessionID (unixNano : Int) (random : List Byte) : List Byte :=
  rawURLEncode (putUint64 (toUint64 unixNano) ++ goCopy (List.replicate 16 0) random)

/-- Characters of the URL-safe Base64 alphabet: A to Z, a to z, 0 to 9, minus (45)
and underscore (95). -/
def isURLSafe (c : Byte) : Bool :=
  (65 ≤ c.val && c.val ≤ 90) || (97 ≤ c.val && c.val ≤ 122) || (48 ≤ c.val && c.val ≤ 57) ||
    c.val == 45 || c.val == 95

/-- Expression `strings.Split(ip, ",")[0]`: the text before the first comma, the
whole string when it has none. -/
def firstField (ip : String) : String :=
  String.mk (ip.data.takeWhile fun c => c != ',')

/-- Function `getClientIP`. `headerGet` is `r.Header.Get`, and `splitHost` gives the
host that `net.SplitHostPort` returns for the peer address, empty on an error. -/
def getClientIP (headerGet : String → String) (splitHost : String → String)
    (remoteAddr : String) : String :=
  if headerGet "X-Forwarded-For" ≠ "" then firstField (headerGet "X-Forwarded-For")
  else if headerGet "X-Real-IP" ≠ "" then headerGet "X-Real-IP"
  else splitHost remoteAddr

/-! ## Examples for the relays -/

/-- Client objects in which every address holds the example client. -/
def exampleClientObj : ClientPtr → Client := fun _ => exampleClient

/-- Registry holding the example client, at address 0, under its sessionID "AB". -/
def exampleRegistry : ClientManager := ⟨[([65, 66], 0)]⟩

/-- A decoder that reads every kick notice as a notice for sessionID "AB" and every
LoginResp payload as a response whose code is the first payload byte. -/
def exampleDecoder : Decoder where
  unmarshalLoginReq := fun _ => some exampleLoginReq
  unmarshalLoginResp := fun data => some ⟨"u1", (data.headD 0).val, "msg", none⟩
  unmarshalKick := fun _ => some ⟨[65, 66], 1⟩

/-- An environment like `exampleEnv` in which every WebSocket write fails. -/
def brokenWsEnv : Env := { exampleEnv with wsWrite := fun _ _ => false }

/-- Client objects that are all the client of `exampleClient` bound to the game
server at address 0. -/
def boundClientObj : ClientPtr → Client := fun _ => ⟨100, [65, 66], some 0⟩

/-! ## Lemmas on slices and words -/

theorem goCopy_length (dst src : List Byte) : (goCopy dst src).length = dst.length := by
  simp [goCopy]; omega

theorem goCopy_same_length (dst src : List Byte) (h : dst.length = src.length) :
    goCopy dst src = src := by
  simp [goCopy, h]

theorem goCopy_zeros (sessionID : List Byte) :
    goCopy (List.replicate 32 0) sessionID =
      sessionID.take 32 ++ List.replicate (32 - sessionID.length) 0 := by
  simp only [goCopy, List.length_replicate, List.drop_replicate]

theorem putUint32_length (v : Nat) : (putUint32 v).length = 4 := rfl

theorem slice_window (a w c : List Byte) (lo hi : Nat) (hlo : a.length = lo)
    (hhi : lo + w.length = hi) : slice (a ++ (w ++ c)) lo hi = some w := by
  subst hlo hhi
  simp [slice, List.take_append_eq_append_take, List.drop_append_eq_append_drop]

theorem writeSlice_window (a w c : List Byte) (lo hi : Nat) (f : List Byte → List Byte)
    (hlo : a.length = lo) (hhi : lo + w.length = hi) :
    writeSlice (a ++ (w ++ c)) lo hi f = some (a ++ (f w ++ c)) := by
  rw [writeSlice, slice_window a w c lo hi hlo hhi]
  subst hlo hhi
  simp [List.take_append_eq_append_take, List.drop_append_eq_append_drop]

theorem writeSlice_tail (a w : List Byte) (lo : Nat) (f : List Byte → List Byte)
    (hlo : a.length = lo) :
    writeSlice (a ++ w) lo (a ++ w).length f = some (a ++ f w) := by
  have := writeSlice_window a w [] lo (a ++ w).length f hlo (by simp [hlo])
  simpa using this

theorem bigEndianUint32_putUint32 (v : U32) (rest : List Byte) :
    bigEndianUint32 (putUint32 v.val ++ rest) = some v := by
  have hv := v.isLt
  simp only [putUint32, toByte, List.cons_append, List.nil_append, bigEndianUint32,
    Option.some.injEq]
  apply Fin.ext
  simp only
  omega

theorem bigEndianUint32_putUint32_nat (v : Nat) (hv : v < 4294967296) (rest : List Byte) :
    bigEndianUint32 (putUint32 v ++ rest) = some ⟨v, hv⟩ :=
  bigEndianUint32_putUint32 ⟨v, hv⟩ rest

theorem take_four_putUint32 (v : Nat) (rest : List Byte) :
    (putUint32 v ++ rest).take 4 = putUint32 v ++ [] := by
  simp [putUint32]

theorem Unpack_frame (msgID : U32) (sid data rest : List Byte) (hs : sid.length = 32)
    (hlt : 40 + data.length < 4294967296) :
    Unpack (putUint32 (40 + data.length) ++ (putUint32 msgID.val ++ (sid ++ (data ++ rest)))) =
      (.ok msgID (trimRightNul sid) data, rest) := by
  have hlen : (putUint32 (40 + data.length) ++
      (putUint32 msgID.val ++ (sid ++ (data ++ rest)))).length =
      40 + data.length + rest.length := by
    simp [putUint32_length, hs]; omega
  have h1 : slice (putUint32 (40 + data.length) ++
      (putUint32 msgID.val ++ (sid ++ (data ++ rest)))) 4 8 = some (putUint32 msgID.val) :=
    slice_window _ _ _ 4 8 rfl rfl
  have h2 : slice (putUint32 (40 + data.length) ++
      (putUint32 msgID.val ++ (sid ++ (data ++ rest)))) 8 40 = some sid := by
    have := slice_window (putUint32 (40 + data.length) ++ putUint32 msgID.val) sid
      (data ++ rest) 8 40 rfl (by rw [hs])
    simpa only [List.append_assoc] using this
  have h3 : slice (putUint32 (40 + data.length) ++
      (putUint32 msgID.val ++ (sid ++ (data ++ rest)))) 40 (40 + data.length) = some data := by
    have := slice_window (putUint32 (40 + data.length) ++ putUint32 msgID.val ++ sid) data
      rest 40 (40 + data.length) (by simp [putUint32_length, hs]) rfl
    simpa only [List.append_assoc] using this
  have h4 : (putUint32 (40 + data.length) ++
      (putUint32 msgID.val ++ (sid ++ (data ++ rest)))).drop (40 + data.length) = rest := by
    have : (putUint32 (40 + data.length) ++ (putUint32 msgID.val ++ (sid ++ (data ++ rest)))) =
        (putUint32 (40 + data.length) ++ putUint32 msgID.val ++ sid ++ data) ++ rest := by
      simp only [List.append_assoc]
    rw [this, List.drop_left' (by simp [putUint32_length, hs]; omega)]
  have h5 := bigEndianUint32_putUint32 msgID []
  rw [List.append_nil] at h5
  unfold Unpack
  rw [if_neg (by rw [hlen]; omega), take_four_putUint32,
    bigEndianUint32_putUint32_nat _ hlt]
  simp only
  rw [if_neg (by rw [hlen]; omega), h1, h2, h3, h4]
  simp only [Option.some_bind, h5]

theorem bigEndianUint32_of_length (l : List Byte) (h : 4 ≤ l.length) :
    ∃ v, bigEndianUint32 l = some v := by
  match l, h with
  | b0 :: b1 :: b2 :: b3 :: _, _ => exact ⟨_, rfl⟩

theorem bigEndianUint32_eq_none (l : List Byte) (h : l.length < 4) :
    bigEndianUint32 l = none := by
  match l, h with
  | [], _ => rfl
  | [_], _ => rfl
  | [_, _], _ => rfl
  | [_, _, _], _ => rfl

theorem trimRightNul_append_zeros (s : List Byte) (n : Nat) :
    trimRightNul (s ++ List.replicate n 0) = trimRightNul s := by
  induction n with
  | zero => simp
  | succ n ih =>
    rw [List.replicate_succ', ← List.append_assoc]
    unfold trimRightNul at ih ⊢
    rw [List.rdropWhile_concat_pos _ _ _ (by simp), ih]

theorem trimRightNul_length_le (s : List Byte) : (trimRightNul s).length ≤ s.length :=
  List.IsPrefix.length_le ( List.rdropWhile_prefix _ s)

theorem trimRightNul_getLast (s : List Byte) : (trimRightNul s).getLast? ≠ some 0 := by
  intro h
  have hne : trimRightNul s ≠ [] := by
    intro he; rw [he] at h; simp at h
  have := List.rdropWhile_last_not (fun b : Byte => b == 0) s hne
  rw [List.getLast?_eq_getLast _ hne] at h
  unfold trimRightNul at h
  simp only [Option.some.injEq] at h
  rw [h] at this
  simp at this

theorem Unpack_of_lt_four (buffer : List Byte) (h : buffer.length < 4) :
    Unpack buffer = (.err "buffer too short for length", buffer) := by
  unfold Unpack
  rw [if_pos h]

theorem Unpack_of_incomplete (buffer : List Byte) (L : U32)
    (hL : bigEndianUint32 (buffer.take 4) = some L) (h : buffer.length < L.val) :
    Unpack buffer = (.err "buffer too short for full message", buffer) := by
  have h4 : ¬ buffer.length < 4 := by
    intro h4
    rw [bigEndianUint32_eq_none _ (by simp; omega)] at hL
    cases hL
  unfold Unpack
  rw [if_neg h4, hL]
  simp only
  rw [if_pos h]

theorem Unpack_of_prefix_lt_forty (buffer : List Byte) (L : U32)
    (hL : bigEndianUint32 (buffer.take 4) = some L) (hlen : L.val ≤ buffer.length)
    (h : L.val < 40) : Unpack buffer = (.panic, buffer) := by
  have h4 : ¬ buffer.length < 4 := by
    intro h4
    rw [bigEndianUint32_eq_none _ (by simp; omega)] at hL
    cases hL
  have h3 : slice buffer 40 L.val = none := by
    unfold slice
    rw [if_neg (by omega)]
  unfold Unpack
  rw [if_neg h4, hL]
  simp only
  rw [if_neg (by omega), h3]
  split
  · rename_i heq; cases heq
  · rfl

theorem Unpack_of_complete (buffer : List Byte) (L : U32)
    (hL : bigEndianUint32 (buffer.take 4) = some L) (hlen : L.val ≤ buffer.length)
    (h : 40 ≤ L.val) :
    ∃ msgID, bigEndianUint32 ((buffer.take 8).drop 4) = some msgID ∧
      Unpack buffer =
        (.ok msgID (trimRightNul ((buffer.take 40).drop 8)) ((buffer.take L.val).drop 40),
          buffer.drop L.val) := by
  obtain ⟨msgID, hm⟩ := bigEndianUint32_of_length ((buffer.take 8).drop 4)
    (by simp; omega)
  refine ⟨msgID, hm, ?_⟩
  have h1 : slice buffer 4 8 = some ((buffer.take 8).drop 4) := by
    unfold slice; rw [if_pos ⟨by omega, by omega⟩]
  have h2 : slice buffer 8 40 = some ((buffer.take 40).drop 8) := by
    unfold slice; rw [if_pos ⟨by omega, by omega⟩]
  have h3 : slice buffer 40 L.val = some ((buffer.take L.val).drop 40) := by
    unfold slice; rw [if_pos ⟨by omega, by omega⟩]
  unfold Unpack
  rw [if_neg (by omega), hL]
  simp only
  rw [if_neg (by omega), h1, h2, h3]
  simp only [Option.some_bind, hm]

/-- Result of `Pack` when the 32-bit length wraps: with `n` the wrapped length and
`40 ≤ n`, the frame carries only the first `n - 40` payload bytes. -/
theorem Pack_wrapped (msgID : U32) (sessionID data : List Byte)
    (h : 40 ≤ (HeaderLength + data.length) % 4294967296) :
    Pack msgID sessionID data =
      some (putUint32 ((HeaderLength + data.length) % 4294967296) ++ (putUint32 msgID.val ++
        ((sessionID.take 32 ++ List.replicate (32 - sessionID.length) 0) ++
          data.take ((HeaderLength + data.length) % 4294967296 - 40)))) := by
  have hle : (HeaderLength + data.length) % 4294967296 ≤ HeaderLength + data.length :=
    Nat.mod_le _ _
  simp only [Pack]
  generalize (HeaderLength + data.length) % 4294967296 = n at h hle
  obtain ⟨k, rfl⟩ : ∃ k, n = 4 + (4 + (32 + k)) := ⟨n - 40, by omega⟩
  have hk : k ≤ data.length := by simp [HeaderLength] at hle; omega
  have hr : List.replicate (4 + (4 + (32 + k))) (0 : Byte) =
      [] ++ (List.replicate 4 0 ++ (List.replicate 4 0 ++
        (List.replicate 32 0 ++ List.replicate k 0))) := by
    simp only [List.nil_append, List.replicate_add]
  have hg : goCopy (List.replicate k 0) data = data.take k := by
    simp [goCopy, List.drop_replicate, hk]
  rw [hr, writeSlice_window [] (List.replicate 4 0) _ 0 4 _ rfl rfl, List.nil_append,
    Option.some_bind]
  rw [writeSlice_window (putUint32 _) (List.replicate 4 0) _ 4 8 _ rfl rfl, Option.some_bind]
  rw [← List.append_assoc,
    writeSlice_window (putUint32 _ ++ putUint32 _) (List.replicate 32 0) _ 8 40 _ rfl rfl,
    Option.some_bind]
  rw [goCopy_same_length _ _ (by simp only [goCopy_length]), goCopy_zeros]
  rw [← List.append_assoc, writeSlice_tail _ _ 40 _ (by simp [putUint32_length]; omega), hg]
  have hk2 : 4 + (4 + (32 + k)) - 40 = k := by omega
  simp only [List.append_assoc, hk2]

/-- Result of `Pack` when the length fits in 32 bits. -/
theorem pack_eq (msgID : U32) (sessionID data : List Byte)
    (h : HeaderLength + data.length < 4294967296) :
    Pack msgID sessionID data =
      some (putUint32 (HeaderLength + data.length) ++ (putUint32 msgID.val ++
        ((sessionID.take 32 ++ List.replicate (32 - sessionID.length) 0) ++ data))) := by
  have hm : (HeaderLength + data.length) % 4294967296 = HeaderLength + data.length :=
    Nat.mod_eq_of_lt h
  have hp := Pack_wrapped msgID sessionID data (by rw [hm]; simp [HeaderLength])
  rw [hm] at hp
  have ht : data.take (HeaderLength + data.length - 40) = data := by
    apply List.take_of_length_le
    simp [HeaderLength]
  rw [ht] at hp
  exact hp

/-- Panic of `Pack` when the wrapped 32-bit length is zero. -/
theorem Pack_wrapped_zero (msgID : U32) (sessionID data : List Byte)
    (h : (HeaderLength + data.length) % 4294967296 = 0) :
    Pack msgID sessionID data = none := by
  simp [Pack, h, writeSlice, slice]

/-- C1 (amended): for every msgID, every sessionID of at most 32 bytes and every
payload with 40 + |payload| below 2^32, Pack returns a frame and Unpack on a buffer
holding exactly that frame succeeds, returns msgID, the sessionID without its
trailing NUL bytes and the payload, and leaves the buffer empty. -/
theorem Pack_Unpack_roundtrip (msgID : U32) (sessionID data : List Byte)
    (hs : sessionID.length ≤ 32) (hd : HeaderLength + data.length < 4294967296) :
    ∃ frame, Pack msgID sessionID data = some frame ∧
      Unpack frame = (.ok msgID (trimRightNul sessionID) data, []) := by
  refine ⟨_, pack_eq msgID sessionID data hd, ?_⟩
  have h := Unpack_frame msgID (sessionID.take 32 ++ List.replicate (32 - sessionID.length) 0)
    data [] (by simp; omega) (by simpa [HeaderLength] using hd)
  rw [trimRightNul_append_zeros] at h
  simpa [HeaderLength, List.take_of_length_le hs] using h

/-- Instance of the round trip at msgID 5, sessionID "AB" followed by a NUL, and a
three-byte payload. -/
theorem Pack_Unpack_roundtrip_witness :
    ([65, 66, 0] : List Byte).length ≤ 32 ∧
    HeaderLength + ([1, 2, 3] : List Byte).length < 4294967296 ∧
    ∃ frame, Pack 5 [65, 66, 0] [1, 2, 3] = some frame ∧
      Unpack frame = (.ok 5 (trimRightNul [65, 66, 0]) [1, 2, 3], []) :=
  ⟨by decide, by decide, Pack_Unpack_roundtrip 5 [65, 66, 0] [1, 2, 3] (by decide) (by decide)⟩

/-- C1 as stated fails: for a payload of 2^32 bytes the length field wraps to 40, Pack
returns a bare 40-byte header and Unpack returns the empty payload. -/
theorem Pack_Unpack_roundtrip_wraps :
    ∃ frame, Pack 0 [] (List.replicate 4294967296 0) = some frame ∧
      Unpack frame = (.ok 0 (trimRightNul []) [], []) ∧
      ([] : List Byte) ≠ List.replicate 4294967296 0 := by
  have key : ∀ data : List Byte, data.length = 4294967296 →
      ∃ frame, Pack 0 [] data = some frame ∧
        Unpack frame = (.ok 0 (trimRightNul []) [], []) ∧ [] ≠ data := by
    intro data hlen
    have hm : (HeaderLength + data.length) % 4294967296 = 40 := by
      rw [hlen]; rfl
    refine ⟨_, Pack_wrapped 0 [] data (by rw [hm]), ?_, ?_⟩
    · rw [hm]
      have h := Unpack_frame 0 ([] ++ List.replicate 32 0) [] [] (by simp) (by simp)
      rw [trimRightNul_append_zeros] at h
      simpa using h
    · intro h
      rw [← h] at hlen
      simp at hlen
  exact key _ (List.length_replicate _ _)

/-- C3 (amended): for every msgID, sessionID and payload with 40 + |payload| below
2^32, Pack returns 40 + |payload| bytes: bytes 0..3 are 40 + |payload| big-endian,
bytes 4..7 are msgID big-endian, bytes 8..39 are the first 32 bytes of sessionID
right-padded with NUL, and bytes 40.. are the payload. -/
theorem Pack_layout (msgID : U32) (sessionID data : List Byte)
    (hd : HeaderLength + data.length < 4294967296) :
    ∃ frame, Pack msgID sessionID data = some frame ∧
      frame.length = 40 + data.length ∧
      frame.take 4 = putUint32 (40 + data.length) ∧
      (bigEndianUint32 (frame.take 4)).map Fin.val = some (40 + data.length) ∧
      (frame.take 8).drop 4 = putUint32 msgID.val ∧
      bigEndianUint32 ((frame.take 8).drop 4) = some msgID ∧
      (frame.take 40).drop 8 =
        sessionID.take 32 ++ List.replicate (32 - sessionID.length) 0 ∧
      frame.drop 40 = data := by
  have hd2 : 40 + data.length < 4294967296 := by simpa [HeaderLength] using hd
  have hs : (sessionID.take 32 ++ List.replicate (32 - sessionID.length) (0 : Byte)).length
      = 32 := by
    simp; omega
  refine ⟨_, pack_eq msgID sessionID data hd, ?_, ?_, ?_, ?_, ?_, ?_, ?_⟩
  · simp [putUint32_length, HeaderLength]; omega
  · simp [putUint32, HeaderLength]
  · rw [take_four_putUint32, List.append_nil]
    have := bigEndianUint32_putUint32_nat _ hd2 []
    rw [List.append_nil] at this
    simp [HeaderLength, this]
  · simp [putUint32]
  · have h1 : List.drop 4 (List.take 8 (putUint32 (HeaderLength + data.length) ++
        (putUint32 msgID.val ++ (sessionID.take 32 ++
          List.replicate (32 - sessionID.length) 0 ++ data)))) = putUint32 msgID.val := by
      simp [putUint32]
    rw [h1]
    have := bigEndianUint32_putUint32 msgID []
    rwa [List.append_nil] at this
  · have := slice_window (putUint32 (HeaderLength + data.length) ++ putUint32 msgID.val)
      (sessionID.take 32 ++ List.replicate (32 - sessionID.length) 0) data 8 40 rfl
      (by rw [hs])
    simp only [slice, List.append_assoc] at this
    split at this
    · simpa using this
    · cases this
  · have hl : (putUint32 (HeaderLength + data.length) ++ putUint32 msgID.val ++
        (sessionID.take 32 ++ List.replicate (32 - sessionID.length) 0)).length = 40 := by
      simp only [List.length_append, putUint32_length, hs]
    have := @List.drop_left' _ _ data _ hl
    simpa only [List.append_assoc] using this

/-- Instance of the layout at msgID 5, sessionID "AB" and a three-byte payload. -/
theorem Pack_layout_witness :
    HeaderLength + ([1, 2, 3] : List Byte).length < 4294967296 ∧
    ∃ frame, Pack 5 [65, 66] [1, 2, 3] = some frame ∧
      frame.length = 40 + ([1, 2, 3] : List Byte).length ∧
      frame.take 4 = putUint32 (40 + ([1, 2, 3] : List Byte).length) ∧
      (bigEndianUint32 (frame.take 4)).map Fin.val =
        some (40 + ([1, 2, 3] : List Byte).length) ∧
      (frame.take 8).drop 4 = putUint32 (5 : U32).val ∧
      bigEndianUint32 ((frame.take 8).drop 4) = some 5 ∧
      (frame.take 40).drop 8 =
        ([65, 66] : List Byte).take 32 ++
          List.replicate (32 - ([65, 66] : List Byte).length) 0 ∧
      frame.drop 40 = [1, 2, 3] :=
  ⟨by decide, Pack_layout 5 [65, 66] [1, 2, 3] (by decide)⟩

/-- C3 as stated fails: for a payload of 2^32 - 40 bytes the length field wraps to 0
and Pack panics on `result[0:4]` instead of returning 40 + |payload| bytes. -/
theorem Pack_layout_wraps : Pack 0 [] (List.replicate 4294967256 0) = none :=
  Pack_wrapped_zero 0 [] _ (by rw [List.length_replicate]; rfl)

/-- C4: on a 40-byte buffer whose length prefix is 10, Unpack does not return an
error: it panics at the slice `[40:10]`. -/
theorem Unpack_short_prefix_panics :
    Unpack ([0, 0, 0, 10] ++ List.replicate 36 0) =
      (.panic, [0, 0, 0, 10] ++ List.replicate 36 0) := by
  decide

/-- Behaviour of Unpack on a buffer of at least 4 bytes whose length prefix is below
40: need-more when fewer bytes than the prefix are buffered, a panic otherwise, and
a frame never. -/
theorem Unpack_prefix_lt_forty (buffer : List Byte) (L : U32)
    (hL : bigEndianUint32 (buffer.take 4) = some L) (h : L.val < 40) :
    Unpack buffer = (if buffer.length < L.val
      then (.err "buffer too short for full message", buffer) else (.panic, buffer)) := by
  split
  · next hlt => exact Unpack_of_incomplete buffer L hL hlt
  · next hge => exact Unpack_of_prefix_lt_forty buffer L hL (by omega) h

/-- C5: whenever the buffer holds fewer than 4 bytes, or fewer bytes than its length
prefix announces, Unpack returns one of its two need-more errors and the buffer
afterwards is the buffer before the call. -/
theorem Unpack_need_more (buffer : List Byte)
    (h : buffer.length < 4 ∨
      ∃ L, bigEndianUint32 (buffer.take 4) = some L ∧ buffer.length < L.val) :
    Unpack buffer = (.err "buffer too short for length", buffer) ∨
      Unpack buffer = (.err "buffer too short for full message", buffer) := by
  rcases h with h | ⟨L, hL, h⟩
  · exact Or.inl (Unpack_of_lt_four buffer h)
  · exact Or.inr (Unpack_of_incomplete buffer L hL h)

/-- Instance of need-more on a five-byte buffer whose prefix announces 43 bytes. -/
theorem Unpack_need_more_witness :
    (([0, 0, 0, 43, 7] : List Byte).length < 4 ∨
      ∃ L, bigEndianUint32 (([0, 0, 0, 43, 7] : List Byte).take 4) = some L ∧
        ([0, 0, 0, 43, 7] : List Byte).length < L.val) ∧
    (Unpack [0, 0, 0, 43, 7] = (.err "buffer too short for length", [0, 0, 0, 43, 7]) ∨
      Unpack [0, 0, 0, 43, 7] =
        (.err "buffer too short for full message", [0, 0, 0, 43, 7])) :=
  ⟨Or.inr ⟨43, by decide, by decide⟩,
    Unpack_need_more [0, 0, 0, 43, 7] (Or.inr ⟨43, by decide, by decide⟩)⟩

/-- Facts about a successful Unpack: the prefix is between 40 and the buffered
length, and the results are the slices of the buffer. -/
theorem Unpack_ok_inv (buffer : List Byte) (msgID : U32) (sessionID data rest : List Byte)
    (h : Unpack buffer = (.ok msgID sessionID data, rest)) :
    ∃ L : U32, bigEndianUint32 (buffer.take 4) = some L ∧ 40 ≤ L.val ∧
      L.val ≤ buffer.length ∧
      bigEndianUint32 ((buffer.take 8).drop 4) = some msgID ∧
      sessionID = trimRightNul ((buffer.take 40).drop 8) ∧
      data = (buffer.take L.val).drop 40 ∧ rest = buffer.drop L.val := by
  by_cases h4 : buffer.length < 4
  · rw [Unpack_of_lt_four buffer h4] at h
    cases h
  · obtain ⟨L, hL⟩ := bigEndianUint32_of_length (buffer.take 4) (by simp; omega)
    by_cases hlen : buffer.length < L.val
    · rw [Unpack_of_incomplete buffer L hL hlen] at h
      cases h
    · by_cases h40 : L.val < 40
      · rw [Unpack_of_prefix_lt_forty buffer L hL (by omega) h40] at h
        cases h
      · obtain ⟨m, hm, hu⟩ := Unpack_of_complete buffer L hL (by omega) (by omega)
        rw [hu] at h
        simp only [Prod.mk.injEq, UnpackResult.ok.injEq] at h
        obtain ⟨⟨rfl, rfl, rfl⟩, rfl⟩ := h
        exact ⟨L, hL, by omega, by omega, hm, rfl, rfl, rfl⟩

/-- C6: when Unpack succeeds on a buffer whose length prefix is L, the payload has
L - 40 bytes, the sessionID has at most 32 bytes and no trailing NUL, and the buffer
afterwards holds exactly the bytes after the first L bytes. -/
theorem Unpack_consumes_one_frame (buffer : List Byte) (L msgID : U32)
    (sessionID data rest : List Byte)
    (hL : bigEndianUint32 (buffer.take 4) = some L)
    (h : Unpack buffer = (.ok msgID sessionID data, rest)) :
    data.length = L.val - 40 ∧ sessionID.length ≤ 32 ∧ sessionID.getLast? ≠ some 0 ∧
      rest = buffer.drop L.val ∧ rest.length + L.val = buffer.length := by
  obtain ⟨L2, hL2, h40, hlen, -, hs, hd, hr⟩ := Unpack_ok_inv buffer msgID sessionID data rest h
  rw [hL] at hL2
  cases hL2
  refine ⟨?_, ?_, ?_, hr, ?_⟩
  · rw [hd]; simp; omega
  · rw [hs]
    refine (trimRightNul_length_le _).trans ?_
    simp
  · rw [hs]; exact trimRightNul_getLast _
  · rw [hr]; simp; omega

/-- Instance on a 43-byte frame followed by two more bytes. -/
theorem Unpack_consumes_one_frame_witness :
    bigEndianUint32 (([0, 0, 0, 43, 0, 0, 0, 5, 65, 66] ++ List.replicate 30 0 ++
      [1, 2, 3, 9, 9] : List Byte).take 4) = some 43 ∧
    Unpack ([0, 0, 0, 43, 0, 0, 0, 5, 65, 66] ++ List.replicate 30 0 ++ [1, 2, 3, 9, 9]) =
      (.ok 5 [65, 66] [1, 2, 3], [9, 9]) ∧
    (([1, 2, 3] : List Byte).length = (43 : U32).val - 40 ∧
      ([65, 66] : List Byte).length ≤ 32 ∧ ([65, 66] : List Byte).getLast? ≠ some 0 ∧
      ([9, 9] : List Byte) =
        ([0, 0, 0, 43, 0, 0, 0, 5, 65, 66] ++ List.replicate 30 0 ++
          [1, 2, 3, 9, 9]).drop (43 : U32).val ∧
      ([9, 9] : List Byte).length + (43 : U32).val =
        ([0, 0, 0, 43, 0, 0, 0, 5, 65, 66] ++ List.replicate 30 0 ++
          [1, 2, 3, 9, 9] : List Byte).length) :=
  ⟨by decide, by decide,
    Unpack_consumes_one_frame _ 43 5 [65, 66] [1, 2, 3] [9, 9] (by decide) (by decide)⟩

theorem Drained.done_nil_andThen (buffer : List Byte) (k : List Byte → Drained) :
    (Drained.done [] buffer).andThen k = k buffer := by
  simp only [Drained.andThen]
  cases k buffer <;> simp

theorem Drained.andThen_assoc (d : Drained) (k1 k2 : List Byte → Drained) :
    (d.andThen k1).andThen k2 = d.andThen (fun r => (k1 r).andThen k2) := by
  cases d with
  | done fs b =>
    simp only [Drained.andThen]
    cases k1 b with
    | done fs1 b1 =>
      simp only
      cases k2 b1 <;> simp
    | panic => simp
    | fuel => simp
  | panic => rfl
  | fuel => rfl

/-- Cases of Unpack: the two need-more errors, the panic, or a frame. -/
theorem Unpack_cases (buffer : List Byte) :
    (buffer.length < 4 ∧ Unpack buffer = (.err "buffer too short for length", buffer)) ∨
    (∃ L : U32, bigEndianUint32 (buffer.take 4) = some L ∧ buffer.length < L.val ∧
      Unpack buffer = (.err "buffer too short for full message", buffer)) ∨
    (∃ L : U32, bigEndianUint32 (buffer.take 4) = some L ∧ L.val ≤ buffer.length ∧
      L.val < 40 ∧ Unpack buffer = (.panic, buffer)) ∨
    (∃ L msgID : U32, bigEndianUint32 (buffer.take 4) = some L ∧ L.val ≤ buffer.length ∧
      40 ≤ L.val ∧ bigEndianUint32 ((buffer.take 8).drop 4) = some msgID ∧
      Unpack buffer =
        (.ok msgID (trimRightNul ((buffer.take 40).drop 8)) ((buffer.take L.val).drop 40),
          buffer.drop L.val)) := by
  by_cases h4 : buffer.length < 4
  · exact Or.inl ⟨h4, Unpack_of_lt_four buffer h4⟩
  · obtain ⟨L, hL⟩ := bigEndianUint32_of_length (buffer.take 4) (by simp; omega)
    by_cases hlen : buffer.length < L.val
    · exact Or.inr (Or.inl ⟨L, hL, hlen, Unpack_of_incomplete buffer L hL hlen⟩)
    · by_cases h40 : L.val < 40
      · exact Or.inr (Or.inr (Or.inl
          ⟨L, hL, by omega, h40, Unpack_of_prefix_lt_forty buffer L hL (by omega) h40⟩))
      · obtain ⟨m, hm, hu⟩ := Unpack_of_complete buffer L hL (by omega) (by omega)
        exact Or.inr (Or.inr (Or.inr ⟨L, m, hL, by omega, by omega, hm, hu⟩))

theorem Unpack_append_ok (b c : List Byte) (msgID : U32) (sessionID data rest : List Byte)
    (h : Unpack b = (.ok msgID sessionID data, rest)) :
    Unpack (b ++ c) = (.ok msgID sessionID data, rest ++ c) := by
  obtain ⟨L, hL, h40, hlen, hm, hs, hd, hr⟩ := Unpack_ok_inv b msgID sessionID data rest h
  have hL2 : bigEndianUint32 ((b ++ c).take 4) = some L := by
    rw [List.take_append_of_le_length (by omega)]; exact hL
  obtain ⟨m, hm2, hu⟩ := Unpack_of_complete (b ++ c) L hL2 (by simp; omega) h40
  rw [List.take_append_of_le_length (by omega), hm] at hm2
  cases hm2
  rw [hu, hs, hd, hr, List.take_append_of_le_length (by omega),
    List.take_append_of_le_length hlen, List.drop_append_of_le_length hlen]

theorem Unpack_append_panic (b c r : List Byte) (h : Unpack b = (.panic, r)) :
    Unpack (b ++ c) = (.panic, b ++ c) := by
  rcases Unpack_cases b with ⟨-, hu⟩ | ⟨L, -, -, hu⟩ | ⟨L, hL, hlen, h40, -⟩ | ⟨L, m, -, -, -, -, hu⟩
  · rw [hu] at h; cases h
  · rw [hu] at h; cases h
  · have h4 : 4 ≤ b.length := by
      by_contra h4
      rw [bigEndianUint32_eq_none _ (by simp; omega)] at hL
      cases hL
    exact Unpack_of_prefix_lt_forty (b ++ c) L
      (by rw [List.take_append_of_le_length h4]; exact hL) (by simp; omega) h40
  · rw [hu] at h; cases h

theorem drainLoop_succ (n : Nat) (buffer : List Byte) :
    drainLoop (n + 1) buffer =
      match Unpack buffer with
      | (.ok msgID sessionID data, rest) =>
        (Drained.done [⟨msgID, sessionID, data⟩] rest).andThen (drainLoop n)
      | (.err _, rest) => .done [] rest
      | (.panic, _) => .panic := rfl

/-- Any budget above one step per 40 buffered bytes gives the result of `drain`. -/
theorem drainLoop_eq_drain (n : Nat) : ∀ buffer : List Byte, buffer.length / 40 < n →
    drainLoop n buffer = drain buffer := by
  induction n using Nat.strong_induction_on with
  | _ n ih =>
    intro buffer hn
    obtain ⟨k, rfl⟩ : ∃ k, n = k + 1 := ⟨n - 1, by omega⟩
    unfold drain
    rw [drainLoop_succ, drainLoop_succ]
    rcases Unpack_cases buffer with ⟨-, hu⟩ | ⟨L, -, -, hu⟩ | ⟨L, -, -, -, hu⟩ |
      ⟨L, m, -, hlen, h40, -, hu⟩
    · rw [hu]
    · rw [hu]
    · rw [hu]
    · rw [hu]
      simp only
      have hr : (buffer.drop L.val).length / 40 < buffer.length / 40 := by
        simp only [List.length_drop]
        omega
      have h1 := ih k (by omega) (buffer.drop L.val) (by omega)
      have h2 := ih (buffer.length / 40) (by omega) (buffer.drop L.val) hr
      simp only [Drained.andThen, h1, h2]

theorem drain_ok (buffer : List Byte) (msgID : U32) (sessionID data rest : List Byte)
    (h : Unpack buffer = (.ok msgID sessionID data, rest)) :
    drain buffer = (Drained.done [⟨msgID, sessionID, data⟩] rest).andThen drain := by
  obtain ⟨L, -, h40, hlen, -, -, -, hr⟩ := Unpack_ok_inv buffer msgID sessionID data rest h
  have hfuel : rest.length / 40 < buffer.length / 40 := by
    rw [hr]; simp only [List.length_drop]; omega
  have := drainLoop_eq_drain (buffer.length / 40) rest hfuel
  unfold drain at this ⊢
  rw [drainLoop_succ, h]
  simp only [Drained.andThen, this]

theorem drain_err (buffer rest : List Byte) (msg : String)
    (h : Unpack buffer = (.err msg, rest)) : drain buffer = .done [] rest := by
  unfold drain
  rw [drainLoop_succ, h]

theorem drain_panic (buffer rest : List Byte) (h : Unpack buffer = (.panic, rest)) :
    drain buffer = .panic := by
  unfold drain
  rw [drainLoop_succ, h]

/-- Draining a buffer extended by `c` is draining the buffer, then draining what it
left extended by `c`. -/
theorem drain_append (c : List Byte) (n : Nat) : ∀ b : List Byte, b.length = n →
    drain (b ++ c) = (drain b).andThen (fun r => drain (r ++ c)) := by
  induction n using Nat.strong_induction_on with
  | _ n ih =>
    intro b hn
    rcases Unpack_cases b with ⟨-, hu⟩ | ⟨L, -, -, hu⟩ | ⟨L, -, -, -, hu⟩ |
      ⟨L, m, -, hlen, h40, -, hu⟩
    · rw [drain_err b b _ hu, Drained.done_nil_andThen]
    · rw [drain_err b b _ hu, Drained.done_nil_andThen]
    · rw [drain_panic b b hu, drain_panic (b ++ c) (b ++ c) (Unpack_append_panic b c b hu)]
      rfl
    · rw [drain_ok b _ _ _ _ hu, drain_ok (b ++ c) _ _ _ _ (Unpack_append_ok b c _ _ _ _ hu),
        Drained.andThen_assoc]
      have := ih (b.drop L.val).length (by simp only [List.length_drop]; omega)
        (b.drop L.val) rfl
      simp only [Drained.andThen, this]

/-- What `drain` leaves in the buffer cannot be unpacked further. -/
theorem drain_done_drained (n : Nat) : ∀ (b : List Byte) (fs : List Frame) (r : List Byte),
    b.length = n → drain b = .done fs r → drain r = .done [] r := by
  induction n using Nat.strong_induction_on with
  | _ n ih =>
    intro b fs r hn hd
    rcases Unpack_cases b with ⟨-, hu⟩ | ⟨L, -, -, hu⟩ | ⟨L, -, -, -, hu⟩ |
      ⟨L, m, -, hlen, h40, -, hu⟩
    · have h := drain_err b b _ hu
      rw [hd] at h
      cases h
      exact drain_err b b _ hu
    · have h := drain_err b b _ hu
      rw [hd] at h
      cases h
      exact drain_err b b _ hu
    · rw [drain_panic b b hu] at hd
      cases hd
    · rw [drain_ok b _ _ _ _ hu] at hd
      simp only [Drained.andThen] at hd
      cases hr : drain (b.drop L.val) with
      | done fs2 r2 =>
        rw [hr] at hd
        simp only [Drained.done.injEq] at hd
        obtain ⟨-, rfl⟩ := hd
        exact ih (b.drop L.val).length (by simp only [List.length_drop]; omega)
          (b.drop L.val) fs2 r2 rfl hr
      | panic => rw [hr] at hd; cases hd
      | fuel => rw [hr] at hd; cases hd

/-- Feeding chunks to a drained buffer decodes what one drain of the whole
stream decodes. -/
theorem readLoop_eq_drain (chunks : List (List Byte)) : ∀ b : List Byte,
    drain b = .done [] b → readLoop chunks b = drain (b ++ chunks.flatten) := by
  induction chunks with
  | nil =>
    intro b hb
    simp only [readLoop, List.flatten_nil, List.append_nil, hb]
  | cons c cs ih =>
    intro b _
    rw [readLoop, List.flatten_cons, ← List.append_assoc, drain_append cs.flatten _ (b ++ c) rfl]
    cases hd : drain (b ++ c) with
    | done fs r =>
      have hr := drain_done_drained _ (b ++ c) fs r rfl hd
      simp only [Drained.andThen, ih r hr]
    | panic => rfl
    | fuel => rfl

theorem drain_nil : drain [] = .done [] [] := by decide

/-- One drain of the concatenated encodings of frames decodes all of them. -/
theorem drain_packed (frames : List Frame) (packed : List (List Byte))
    (hp : List.Forall₂ (fun f p => Pack f.msgID f.sessionID f.data = some p) frames packed)
    (hd : ∀ f ∈ frames, HeaderLength + f.data.length < 4294967296) :
    drain packed.flatten = .done (frames.map Frame.normalize) [] := by
  induction hp with
  | nil => exact drain_nil
  | @cons f p fs ps hfp _ ih =>
    have hf := hd f (List.mem_cons_self _ _)
    rw [pack_eq f.msgID f.sessionID f.data hf] at hfp
    cases hfp
    have hu := Unpack_frame f.msgID
      (f.sessionID.take 32 ++ List.replicate (32 - f.sessionID.length) 0)
      f.data ps.flatten (by simp; omega) (by simpa [HeaderLength] using hf)
    rw [trimRightNul_append_zeros] at hu
    have hu2 : Unpack ((putUint32 (HeaderLength + f.data.length) ++ (putUint32 f.msgID.val ++
        (f.sessionID.take 32 ++ List.replicate (32 - f.sessionID.length) 0 ++ f.data))) ++
          ps.flatten) =
        (.ok f.msgID (trimRightNul (f.sessionID.take 32)) f.data, ps.flatten) := by
      simpa [HeaderLength] using hu
    rw [List.flatten_cons, drain_ok _ _ _ _ _ hu2]
    simp only [Drained.andThen, ih (fun g hg => hd g (List.mem_cons_of_mem _ hg)),
      List.map_cons, Frame.normalize, List.singleton_append]

/-- C2 (amended): for frames whose payload satisfies 40 + |payload| below 2^32 and
every cut of the concatenated Pack encodings into chunks, appending the chunks one
at a time to an empty buffer and draining after each append yields the frames in
order, each with its sessionID cut to 32 bytes and NUL-trimmed, and leaves the
buffer empty. -/
theorem streaming_decode (frames : List Frame) (packed chunks : List (List Byte))
    (hd : ∀ f ∈ frames, HeaderLength + f.data.length < 4294967296)
    (hp : List.Forall₂ (fun f p => Pack f.msgID f.sessionID f.data = some p) frames packed)
    (hc : chunks.flatten = packed.flatten) :
    readLoop chunks [] = .done (frames.map Frame.normalize) [] := by
  rw [readLoop_eq_drain chunks [] drain_nil, List.nil_append, hc]
  exact drain_packed frames packed hp hd

/-- Instance of streaming decode: two frames, cut into four chunks that split the
first header, straddle the frame boundary and include an empty read. -/
theorem streaming_decode_witness :
    (∀ f ∈ ([⟨5, [65, 66], [1, 2, 3]⟩, ⟨6, [67, 0], []⟩] : List Frame),
      HeaderLength + f.data.length < 4294967296) ∧
    List.Forall₂ (fun f p => Pack f.msgID f.sessionID f.data = some p)
      ([⟨5, [65, 66], [1, 2, 3]⟩, ⟨6, [67, 0], []⟩] : List Frame)
      [[0, 0, 0, 43, 0, 0, 0, 5, 65, 66] ++ List.replicate 30 0 ++ [1, 2, 3],
        [0, 0, 0, 40, 0, 0, 0, 6, 67] ++ List.replicate 31 0] ∧
    List.flatten ([[0, 0, 0], [43, 0, 0, 0, 5, 65, 66] ++ List.replicate 30 0 ++ [1, 2, 3, 0, 0],
        [], [0, 40, 0, 0, 0, 6, 67] ++ List.replicate 31 0] : List (List Byte)) =
      List.flatten [[0, 0, 0, 43, 0, 0, 0, 5, 65, 66] ++ List.replicate 30 0 ++ [1, 2, 3],
        [0, 0, 0, 40, 0, 0, 0, 6, 67] ++ List.replicate 31 0] ∧
    readLoop ([[0, 0, 0], [43, 0, 0, 0, 5, 65, 66] ++ List.replicate 30 0 ++ [1, 2, 3, 0, 0],
        [], [0, 40, 0, 0, 0, 6, 67] ++ List.replicate 31 0] : List (List Byte)) [] =
      .done (([⟨5, [65, 66], [1, 2, 3]⟩, ⟨6, [67, 0], []⟩] : List Frame).map Frame.normalize)
        [] :=
  ⟨by decide, List.Forall₂.cons (by decide) (List.Forall₂.cons (by decide) List.Forall₂.nil),
    by decide,
    streaming_decode _
      [[0, 0, 0, 43, 0, 0, 0, 5, 65, 66] ++ List.replicate 30 0 ++ [1, 2, 3],
        [0, 0, 0, 40, 0, 0, 0, 6, 67] ++ List.replicate 31 0] _ (by decide)
      (List.Forall₂.cons (by decide) (List.Forall₂.cons (by decide) List.Forall₂.nil))
      (by decide)⟩

/-- C2 as stated fails: a frame with a payload of 2^32 bytes is encoded as a bare
40-byte header, and feeding that encoding to the read loop yields a frame with an
empty payload instead of the frame that was packed. -/
theorem streaming_decode_wraps :
    ∃ p, Pack 1 [] (List.replicate 4294967296 0) = some p ∧
      readLoop [p] [] = .done [⟨1, [], []⟩] [] ∧
      ([⟨1, [], []⟩] : List Frame) ≠
        [Frame.normalize ⟨1, [], List.replicate 4294967296 0⟩] := by
  have key : ∀ data : List Byte, data.length = 4294967296 →
      ∃ p, Pack 1 [] data = some p ∧ readLoop [p] [] = .done [⟨1, [], []⟩] [] ∧
        ([⟨1, [], []⟩] : List Frame) ≠ [Frame.normalize ⟨1, [], data⟩] := by
    intro data hlen
    have hm : (HeaderLength + data.length) % 4294967296 = 40 := by
      rw [hlen]; rfl
    have hp := Pack_wrapped 1 [] data (by rw [hm])
    rw [hm] at hp
    simp only [Nat.sub_self, List.take_zero, List.append_nil] at hp
    refine ⟨_, hp, by decide, ?_⟩
    intro h
    simp only [Frame.normalize, List.cons.injEq, Frame.mk.injEq, and_true] at h
    have := congrArg List.length h.2.2
    rw [hlen] at this
    simp at this
  exact key _ (List.length_replicate _ _)

/-- Step of the minimum scan in `SelectServerByLoad`. -/
theorem select_fold_spec (heap : Heap) (cs : List Ptr) : ∀ st : Option Ptr × Int,
    let r := cs.foldl (fun (st : Option Ptr × Int) server =>
      if (heap.obj server).Load < st.2 then (some server, (heap.obj server).Load) else st) st
    r.2 ≤ st.2 ∧ (∀ c ∈ cs, r.2 ≤ (heap.obj c).Load) ∧
      (r = st ∨ ∃ p ∈ cs, r = (some p, (heap.obj p).Load) ∧ (heap.obj p).Load < st.2) := by
  induction cs with
  | nil => intro st; simp
  | cons c cs ih =>
    intro st
    simp only [List.foldl_cons]
    by_cases hlt : (heap.obj c).Load < st.2
    · rw [if_pos hlt]
      obtain ⟨h1, h2, h3⟩ := ih (some c, (heap.obj c).Load)
      refine ⟨le_trans h1 (le_of_lt hlt), ?_, ?_⟩
      · intro d hd
        rcases List.mem_cons.mp hd with rfl | hd
        · exact h1
        · exact h2 d hd
      · right
        rcases h3 with h3 | ⟨p, hp, h3, h4⟩
        · exact ⟨c, List.mem_cons_self _ _, h3, hlt⟩
        · exact ⟨p, List.mem_cons_of_mem _ hp, h3, lt_trans h4 hlt⟩
    · rw [if_neg hlt]
      obtain ⟨h1, h2, h3⟩ := ih st
      refine ⟨h1, ?_, ?_⟩
      · intro d hd
        rcases List.mem_cons.mp hd with rfl | hd
        · exact le_trans h1 (not_lt.mp hlt)
        · exact h2 d hd
      · rcases h3 with h3 | ⟨p, hp, h3, h4⟩
        · exact Or.inl h3
        · exact Or.inr ⟨p, List.mem_cons_of_mem _ hp, h3, h4⟩

theorem mem_GetServersByGameType (heap : Heap) (servers : ServerMap) (gameType : String)
    (p : Ptr) : p ∈ GetServersByGameType heap servers gameType ↔
      (∃ id, (id, p) ∈ servers) ∧ gameType ∈ (heap.obj p).GameTypes := by
  simp only [GetServersByGameType, List.mem_filterMap, Prod.exists]
  constructor
  · rintro ⟨id, q, hmem, h⟩
    split at h
    · next hc =>
      cases h
      exact ⟨⟨id, hmem⟩, by simpa using hc⟩
    · cases h
  · rintro ⟨⟨id, hmem⟩, hg⟩
    exact ⟨id, p, hmem, by simp [hg]⟩

/-- A server returned by `SelectServerByLoad` is a candidate of least load. -/
theorem SelectServerByLoad_some (heap : Heap) (servers : ServerMap) (gameType : String)
    (p : Ptr) (h : SelectServerByLoad heap servers gameType = some p) :
    (∃ id, (id, p) ∈ servers) ∧ gameType ∈ (heap.obj p).GameTypes ∧
      ∀ e ∈ servers, gameType ∈ (heap.obj e.2).GameTypes →
        (heap.obj p).Load ≤ (heap.obj e.2).Load := by
  unfold SelectServerByLoad at h
  dsimp only at h
  split at h
  · cases h
  · obtain ⟨-, h2, h3⟩ := select_fold_spec heap (GetServersByGameType heap servers gameType)
      (none, maxInt32)
    rcases h3 with h3 | ⟨q, hq, h3, -⟩
    · rw [h3] at h; cases h
    · rw [h3] at h h2
      simp only [Option.some.injEq] at h
      subst h
      obtain ⟨hid, hg⟩ := (mem_GetServersByGameType heap servers gameType q).mp hq
      refine ⟨hid, hg, ?_⟩
      intro e he hge
      exact h2 e.2 ((mem_GetServersByGameType heap servers gameType e.2).mpr ⟨⟨e.1, he⟩, hge⟩)

/-- The nil result of `SelectServerByLoad`: no candidate has a load below the
largest int32. -/
theorem SelectServerByLoad_eq_none_iff (heap : Heap) (servers : ServerMap)
    (gameType : String) :
    SelectServerByLoad heap servers gameType = none ↔
      ∀ e ∈ servers, gameType ∈ (heap.obj e.2).GameTypes →
        maxInt32 ≤ (heap.obj e.2).Load := by
  obtain ⟨-, h2, h3⟩ := select_fold_spec heap (GetServersByGameType heap servers gameType)
    (none, maxInt32)
  unfold SelectServerByLoad
  dsimp only
  constructor
  · intro h e he hg
    have hc := (mem_GetServersByGameType heap servers gameType e.2).mpr ⟨⟨e.1, he⟩, hg⟩
    split at h
    · next hl =>
      rw [List.length_eq_zero.mp hl] at hc
      cases hc
    · rcases h3 with h3 | ⟨q, -, h3, -⟩
      · have := h2 e.2 hc
        rw [h3] at this
        exact this
      · rw [h3] at h
        cases h
  · intro h
    split
    · rfl
    · rcases h3 with h3 | ⟨q, hq, -, h4⟩
      · rw [h3]
      · obtain ⟨⟨id, hid⟩, hg⟩ := (mem_GetServersByGameType heap servers gameType q).mp hq
        have := h (id, q) hid hg
        exact absurd h4 (not_lt.mpr this)

/-- C7: a server returned by SelectServerByLoad is in the fleet, supports gameType
and has a load at most that of every fleet server supporting gameType; and for the
fleet of A (gt, 7), B (gt, 3), C (gt-prime, 1), in every iteration order of the map, it
returns B for gt, C for gt-prime and none for zz. -/
theorem SelectServerByLoad_minimal :
    (∀ (heap : Heap) (servers : ServerMap) (gameType : String) (p : Ptr),
      SelectServerByLoad heap servers gameType = some p →
        (∃ id, (id, p) ∈ servers) ∧ gameType ∈ (heap.obj p).GameTypes ∧
          ∀ e ∈ servers, gameType ∈ (heap.obj e.2).GameTypes →
            (heap.obj p).Load ≤ (heap.obj e.2).Load) ∧
    (∀ order : ServerMap, order.Perm exampleFleet →
      SelectServerByLoad exampleHeap order "gt" = some 1 ∧
      SelectServerByLoad exampleHeap order "gt\x27" = some 2 ∧
      SelectServerByLoad exampleHeap order "zz" = none) := by
  refine ⟨SelectServerByLoad_some, ?_⟩
  intro order hperm
  have hall : ∀ o ∈ exampleFleet.permutations',
      SelectServerByLoad exampleHeap o "gt" = some 1 ∧
      SelectServerByLoad exampleHeap o "gt\x27" = some 2 ∧
      SelectServerByLoad exampleHeap o "zz" = none := by
    decide
  exact hall order (List.mem_permutations'.mpr hperm)

/-- Instance of the selection on the example fleet in the order C, A, B. -/
theorem SelectServerByLoad_minimal_witness :
    SelectServerByLoad exampleHeap [("C", 2), ("A", 0), ("B", 1)] "gt" = some 1 ∧
    ((∃ id, (id, 1) ∈ ([("C", 2), ("A", 0), ("B", 1)] : ServerMap)) ∧
      "gt" ∈ (exampleHeap.obj 1).GameTypes ∧
      ∀ e ∈ ([("C", 2), ("A", 0), ("B", 1)] : ServerMap),
        "gt" ∈ (exampleHeap.obj e.2).GameTypes →
          (exampleHeap.obj 1).Load ≤ (exampleHeap.obj e.2).Load) :=
  ⟨by decide, SelectServerByLoad_minimal.1 exampleHeap _ "gt" 1 (by decide)⟩

/-- C8: with one fleet server that supports gt and has load 2147483647, the
candidate list is not empty and SelectServerByLoad returns nil. -/
theorem SelectServerByLoad_saturated :
    GetServersByGameType saturatedHeap saturatedFleet "gt" = [0] ∧
    (saturatedHeap.obj 0).Load = maxInt32 ∧
    SelectServerByLoad saturatedHeap saturatedFleet "gt" = none := by
  decide

theorem mapSet_of_not_mem (m : ServerMap) (k : String) (v : Ptr)
    (h : k ∉ m.map Prod.fst) : mapSet m k v = m ++ [(k, v)] := by
  unfold mapSet
  rw [if_neg]
  intro hany
  obtain ⟨e, he, hek⟩ := List.any_eq_true.mp hany
  exact h (List.mem_map.mpr ⟨e, he, by simpa using hek⟩)

/-- Copying a map with distinct keys entry by entry rebuilds its entries. -/
theorem foldl_mapSet_of_nodup (m : ServerMap) : ∀ acc : ServerMap,
    ((acc ++ m).map Prod.fst).Nodup →
      m.foldl (fun m e => mapSet m e.1 e.2) acc = acc ++ m := by
  induction m with
  | nil => intro acc _; simp
  | cons e m ih =>
    intro acc hnd
    have hk : e.1 ∉ acc.map Prod.fst := by
      simp only [List.map_append, List.map_cons] at hnd
      have := (List.nodup_append.mp hnd).2.2
      intro hmem
      exact this hmem (List.mem_cons_self _ _)
    rw [List.foldl_cons, mapSet_of_not_mem acc e.1 e.2 hk, ih]
    · simp
    · simpa using hnd

theorem GetAllServers_of_nodup (m : ServerMap) (h : (m.map Prod.fst).Nodup) :
    GetAllServers m = m := by
  have := foldl_mapSet_of_nodup m [] (by simpa using h)
  simpa [GetAllServers] using this

theorem mapGet_of_mem (m : ServerMap) (h : (m.map Prod.fst).Nodup) (k : String) (p : Ptr)
    (hm : (k, p) ∈ m) : mapGet m k = some p := by
  induction m with
  | nil => cases hm
  | cons e m ih =>
    simp only [List.map_cons, List.nodup_cons] at h
    rcases List.mem_cons.mp hm with rfl | hm
    · simp [mapGet]
    · have hne : e.1 ≠ k := by
        intro he
        exact h.1 (List.mem_map.mpr ⟨(k, p), hm, he.symm⟩)
      have := ih h.2 hm
      simpa [mapGet, List.find?_cons, hne] using this

theorem mapGet_of_not_mem (m : ServerMap) (k : String) (h : k ∉ m.map Prod.fst) :
    mapGet m k = none := by
  induction m with
  | nil => rfl
  | cons e m ih =>
    simp only [List.map_cons, List.mem_cons, not_or] at h
    have := ih h.2
    simpa [mapGet, List.find?_cons, Ne.symm h.1] using this

theorem mapGet_mem (m : ServerMap) (k : String) (p : Ptr) (h : mapGet m k = some p) :
    (k, p) ∈ m := by
  simp only [mapGet, Option.map_eq_some', Prod.exists, exists_eq_right] at h
  obtain ⟨k2, hf⟩ := h
  have h1 := List.find?_some hf
  have h2 := List.mem_of_find?_eq_some hf
  simp only [beq_iff_eq] at h1
  subst h1
  exact h2

/-- C9: after UpdateServers(newServers), whatever the previous fleet, GetServerByID
returns newServers[id] for a key id of newServers and nil for every other id, and
GetAllServers returns a map with the entries of newServers. -/
theorem UpdateServers_installs (heap : Heap) (servers newServers : ServerMap)
    (hk : (newServers.map Prod.fst).Nodup) (id : String) :
    (∀ p, (id, p) ∈ newServers →
      GetServerByID (UpdateServers heap servers newServers).1 id = some p) ∧
    (id ∉ newServers.map Prod.fst →
      GetServerByID (UpdateServers heap servers newServers).1 id = none) ∧
    (∀ k, mapGet (GetAllServers (UpdateServers heap servers newServers).1) k =
      mapGet newServers k) ∧
    (GetAllServers (UpdateServers heap servers newServers).1).Perm newServers := by
  have h1 : (UpdateServers heap servers newServers).1 = newServers :=
    GetAllServers_of_nodup newServers hk
  rw [h1, GetAllServers_of_nodup newServers hk]
  exact ⟨fun p hp => mapGet_of_mem newServers hk id p hp,
    fun hn => mapGet_of_not_mem newServers id hn, fun _ => rfl, List.Perm.refl _⟩

/-- Instance of the swap: the fleet of X is replaced by the fleet of A and B. -/
theorem UpdateServers_installs_witness :
    ((([("A", 0), ("B", 1)] : ServerMap).map Prod.fst).Nodup) ∧
    ((∀ p, ("X", p) ∈ ([("A", 0), ("B", 1)] : ServerMap) →
      GetServerByID (UpdateServers exampleHeap [("X", 2)] [("A", 0), ("B", 1)]).1 "X" =
        some p) ∧
    ("X" ∉ ([("A", 0), ("B", 1)] : ServerMap).map Prod.fst →
      GetServerByID (UpdateServers exampleHeap [("X", 2)] [("A", 0), ("B", 1)]).1 "X" =
        none) ∧
    (∀ k, mapGet (GetAllServers (UpdateServers exampleHeap [("X", 2)]
        [("A", 0), ("B", 1)]).1) k = mapGet [("A", 0), ("B", 1)] k) ∧
    (GetAllServers (UpdateServers exampleHeap [("X", 2)] [("A", 0), ("B", 1)]).1).Perm
      [("A", 0), ("B", 1)]) :=
  ⟨by decide, UpdateServers_installs exampleHeap [("X", 2)] [("A", 0), ("B", 1)] (by decide) "X"⟩

/-- C10: when server A, holding the open connection 7, is absent from the discovery
snapshot, one reconciliation invokes Close on connection 7 twice: once in the loop
of StartBlockingQuery and once more in UpdateServers. -/
theorem reconcile_closes_twice :
    (reconcile (fun _ => none) 0 [] ⟨saturatedHeap, saturatedFleet, []⟩).closed = [7, 7] ∧
    (reconcile (fun _ => none) 0 [] ⟨saturatedHeap, saturatedFleet, []⟩).servers = [] := by
  decide

theorem mapGet_cons (e : String × Ptr) (m : ServerMap) (k : String) :
    mapGet (e :: m) k = if e.1 = k then some e.2 else mapGet m k := by
  unfold mapGet
  rw [List.find?_cons]
  by_cases h : e.1 = k
  · have hb : (e.1 == k) = true := by simpa using h
    simp only [hb, Option.map_some', if_pos h]
  · have hb : (e.1 == k) = false := by simpa using h
    simp only [hb, if_neg h]

theorem mapGet_append_single (m : ServerMap) (k : String) (v : Ptr) (k2 : String)
    (h : k ∉ m.map Prod.fst) :
    mapGet (m ++ [(k, v)]) k2 = if k2 = k then some v else mapGet m k2 := by
  induction m with
  | nil =>
    rw [List.nil_append, mapGet_cons]
    by_cases hk : k = k2
    · simp [hk]
    · simp [hk, Ne.symm hk, mapGet]
  | cons e m ih =>
    simp only [List.map_cons, List.mem_cons, not_or] at h
    rw [List.cons_append, mapGet_cons, mapGet_cons, ih h.2]
    by_cases he : e.1 = k2
    · have : k2 ≠ k := by rw [← he]; exact Ne.symm h.1
      simp [he, this]
    · simp [he]

theorem mapGet_replace (m : ServerMap) (k : String) (v : Ptr) (k2 : String)
    (h : k ∈ m.map Prod.fst) :
    mapGet (m.map (fun e => if e.1 == k then (k, v) else e)) k2 =
      if k2 = k then some v else mapGet m k2 := by
  induction m with
  | nil => simp at h
  | cons e m ih =>
    rw [List.map_cons, mapGet_cons, mapGet_cons]
    by_cases hek : e.1 = k
    · by_cases hk2 : k2 = k
      · simp [hek, hk2]
      · have hne : ¬ k = k2 := fun h => hk2 h.symm
        have hne2 : ¬ e.1 = k2 := fun h => hk2 (h ▸ hek)
        simp only [hek, beq_self_eq_true, if_true, hne, if_false, hk2, hne2]
        by_cases hm : k ∈ m.map Prod.fst
        · rw [ih hm, if_neg hk2]
        · have hid : m.map (fun e => if e.1 == k then (k, v) else e) = m := by
            conv_rhs => rw [← List.map_id m]
            apply List.map_congr_left
            intro x hx
            have : x.1 ≠ k := fun hxk => hm (List.mem_map.mpr ⟨x, hx, hxk⟩)
            simp [this]
          rw [hid]
    · have hm : k ∈ m.map Prod.fst := by
        simp only [List.map_cons, List.mem_cons] at h
        rcases h with h | h
        · exact absurd h.symm hek
        · exact h
      have hb : (e.1 == k) = false := by simpa using hek
      simp only [hb, Bool.false_eq_true, if_false, ih hm]
      by_cases he2 : e.1 = k2
      · have : k2 ≠ k := by rw [← he2]; exact hek
        simp [he2, this]
      · simp [he2]

theorem mapGet_mapSet (m : ServerMap) (k : String) (v : Ptr) (k2 : String) :
    mapGet (mapSet m k v) k2 = if k2 = k then some v else mapGet m k2 := by
  by_cases hk : k ∈ m.map Prod.fst
  · have hany : m.any (fun e => e.1 == k) = true := by
      obtain ⟨e, he, hek⟩ := List.mem_map.mp hk
      exact List.any_eq_true.mpr ⟨e, he, by simpa using hek⟩
    unfold mapSet
    rw [if_pos hany]
    exact mapGet_replace m k v k2 hk
  · rw [mapSet_of_not_mem m k v hk]
    exact mapGet_append_single m k v k2 hk

theorem mapSet_keys (m : ServerMap) (k : String) (v : Ptr) :
    (mapSet m k v).map Prod.fst =
      if k ∈ m.map Prod.fst then m.map Prod.fst else m.map Prod.fst ++ [k] := by
  by_cases hk : k ∈ m.map Prod.fst
  · have hany : m.any (fun e => e.1 == k) = true := by
      obtain ⟨e, he, hek⟩ := List.mem_map.mp hk
      exact List.any_eq_true.mpr ⟨e, he, by simpa using hek⟩
    unfold mapSet
    rw [if_pos hany, if_pos hk, List.map_map]
    apply List.map_congr_left
    intro x _
    by_cases hx : x.1 = k
    · simp [hx]
    · simp [hx]
  · rw [mapSet_of_not_mem m k v hk, if_neg hk]
    simp

theorem mapSet_keys_nodup (m : ServerMap) (k : String) (v : Ptr)
    (h : (m.map Prod.fst).Nodup) : ((mapSet m k v).map Prod.fst).Nodup := by
  rw [mapSet_keys]
  split
  · exact h
  · next hk =>
    rw [List.nodup_append]
    refine ⟨h, List.nodup_singleton k, ?_⟩
    intro a ha hb
    rw [List.mem_singleton] at hb
    exact hk (hb ▸ ha)

theorem Heap.set_obj (h : Heap) (q : Ptr) (s : GameServer) (p : Ptr) :
    (h.set q s).obj p = if p = q then s else h.obj p := rfl

theorem Heap.set_next (h : Heap) (q : Ptr) (s : GameServer) : (h.set q s).next = h.next := rfl

theorem buildNewServers_cons_hit (dial : Ptr → Option ConnPtr) (now : Nat)
    (oldServers : ServerMap) (entry : Entry) (services : List Entry) (heap : Heap)
    (newServers : ServerMap) (q : Ptr) (h : mapGet oldServers entry.ID = some q) :
    buildNewServers dial now oldServers (entry :: services) heap newServers =
      buildNewServers dial now oldServers services
        (heap.set q { heap.obj q with
          GameTypes := entry.Tags, Load := toInt32 entry.Passing, UpdatedAt := now })
        (mapSet newServers entry.ID q) := by
  rw [buildNewServers, h]

theorem buildNewServers_cons_miss (dial : Ptr → Option ConnPtr) (now : Nat)
    (oldServers : ServerMap) (entry : Entry) (services : List Entry) (heap : Heap)
    (newServers : ServerMap) (h : mapGet oldServers entry.ID = none) :
    buildNewServers dial now oldServers (entry :: services) heap newServers =
      match dial heap.next with
      | none => buildNewServers dial now oldServers services
          (heap.alloc ⟨entry.ID, entry.Address, entry.Port, entry.Tags,
            toInt32 entry.Passing, none, 0⟩).2 newServers
      | some conn => buildNewServers dial now oldServers services
          ((heap.alloc ⟨entry.ID, entry.Address, entry.Port, entry.Tags,
            toInt32 entry.Passing, none, 0⟩).2.set heap.next
            ⟨entry.ID, entry.Address, entry.Port, entry.Tags,
              toInt32 entry.Passing, some conn, 0⟩)
          (mapSet newServers entry.ID heap.next) := by
  rw [buildNewServers, h]
  simp only [Heap.alloc]
  cases dial heap.next with
  | none => rfl
  | some conn =>
    simp only [Heap.set]
    simp

theorem Heap.alloc_obj (h : Heap) (s : GameServer) (p : Ptr) :
    (h.alloc s).2.obj p = if p = h.next then s else h.obj p := rfl

theorem Heap.alloc_next (h : Heap) (s : GameServer) : (h.alloc s).2.next = h.next + 1 := rfl

/-- Effect of the snapshot loop on the object `p` that the current fleet holds under
`id`: its identity fields are kept; without an entry for `id` the object and the
binding of `id` are untouched; with one, the fields come from the last such entry
and `id` is bound to `p`. -/
theorem buildNewServers_spec (dial : Ptr → Option ConnPtr) (now : Nat)
    (oldServers : ServerMap) (id : String) (p : Ptr)
    (hget : mapGet oldServers id = some p)
    (hinj : ∀ k q, mapGet oldServers k = some q → q = p → k = id) :
    ∀ (services : List Entry) (heap : Heap) (newServers : ServerMap), p < heap.next →
      ((buildNewServers dial now oldServers services heap newServers).1.obj p).ID =
          (heap.obj p).ID ∧
      ((buildNewServers dial now oldServers services heap newServers).1.obj p).IP =
          (heap.obj p).IP ∧
      ((buildNewServers dial now oldServers services heap newServers).1.obj p).Port =
          (heap.obj p).Port ∧
      ((buildNewServers dial now oldServers services heap newServers).1.obj p).Conn =
          (heap.obj p).Conn ∧
      ((∀ x ∈ services, x.ID ≠ id) →
        (buildNewServers dial now oldServers services heap newServers).1.obj p = heap.obj p ∧
        mapGet (buildNewServers dial now oldServers services heap newServers).2 id =
          mapGet newServers id) ∧
      (∀ pre e post, services = pre ++ e :: post → e.ID = id → (∀ x ∈ post, x.ID ≠ id) →
        ((buildNewServers dial now oldServers services heap newServers).1.obj p).GameTypes =
          e.Tags ∧
        ((buildNewServers dial now oldServers services heap newServers).1.obj p).Load =
          toInt32 e.Passing ∧
        mapGet (buildNewServers dial now oldServers services heap newServers).2 id =
          some p) := by
  intro services
  induction services with
  | nil =>
    intro heap newServers _
    refine ⟨rfl, rfl, rfl, rfl, fun _ => ⟨rfl, rfl⟩, ?_⟩
    intro pre e post h
    cases pre <;> cases h
  | cons x rest ih =>
    intro heap newServers hp
    have key : ∃ heap1 new1,
        buildNewServers dial now oldServers (x :: rest) heap newServers =
          buildNewServers dial now oldServers rest heap1 new1 ∧
        p < heap1.next ∧
        (heap1.obj p).ID = (heap.obj p).ID ∧ (heap1.obj p).IP = (heap.obj p).IP ∧
        (heap1.obj p).Port = (heap.obj p).Port ∧ (heap1.obj p).Conn = (heap.obj p).Conn ∧
        (x.ID ≠ id → heap1.obj p = heap.obj p ∧ mapGet new1 id = mapGet newServers id) ∧
        (x.ID = id → (heap1.obj p).GameTypes = x.Tags ∧
          (heap1.obj p).Load = toInt32 x.Passing ∧ mapGet new1 id = some p) := by
      cases hx : mapGet oldServers x.ID with
      | some q =>
        refine ⟨_, _, buildNewServers_cons_hit dial now oldServers x rest heap newServers q hx,
          hp, ?_, ?_, ?_, ?_, ?_, ?_⟩
        · rw [Heap.set_obj]; split
          · next h => rw [h]
          · rfl
        · rw [Heap.set_obj]; split
          · next h => rw [h]
          · rfl
        · rw [Heap.set_obj]; split
          · next h => rw [h]
          · rfl
        · rw [Heap.set_obj]; split
          · next h => rw [h]
          · rfl
        · intro hne
          have hqp : p ≠ q := fun h => hne (hinj x.ID q hx h.symm)
          rw [Heap.set_obj, if_neg hqp, mapGet_mapSet, if_neg (Ne.symm hne)]
          exact ⟨rfl, rfl⟩
        · intro heq
          have hqp : q = p := by
            rw [heq, hget] at hx
            exact (Option.some.inj hx).symm
          rw [Heap.set_obj, if_pos hqp.symm, mapGet_mapSet, if_pos heq.symm, hqp]
          exact ⟨rfl, rfl, rfl⟩
      | none =>
        have hne : x.ID ≠ id := by
          intro h
          rw [h, hget] at hx
          cases hx
        have hpn : p ≠ heap.next := Nat.ne_of_lt hp
        have hb := buildNewServers_cons_miss dial now oldServers x rest heap newServers hx
        cases hd : dial heap.next with
        | none =>
          rw [hd] at hb
          refine ⟨_, _, hb, ?_, ?_, ?_, ?_, ?_, ?_, ?_⟩
          · rw [Heap.alloc_next]; exact Nat.lt_succ_of_lt hp
          · rw [Heap.alloc_obj, if_neg hpn]
          · rw [Heap.alloc_obj, if_neg hpn]
          · rw [Heap.alloc_obj, if_neg hpn]
          · rw [Heap.alloc_obj, if_neg hpn]
          · intro _
            rw [Heap.alloc_obj, if_neg hpn]
            exact ⟨rfl, rfl⟩
          · intro h; exact absurd h hne
        | some conn =>
          rw [hd] at hb
          refine ⟨_, _, hb, ?_, ?_, ?_, ?_, ?_, ?_, ?_⟩
          · rw [Heap.set_next, Heap.alloc_next]; exact Nat.lt_succ_of_lt hp
          · rw [Heap.set_obj, if_neg hpn, Heap.alloc_obj, if_neg hpn]
          · rw [Heap.set_obj, if_neg hpn, Heap.alloc_obj, if_neg hpn]
          · rw [Heap.set_obj, if_neg hpn, Heap.alloc_obj, if_neg hpn]
          · rw [Heap.set_obj, if_neg hpn, Heap.alloc_obj, if_neg hpn]
          · intro _
            rw [Heap.set_obj, if_neg hpn, Heap.alloc_obj, if_neg hpn, mapGet_mapSet,
              if_neg (Ne.symm hne)]
            exact ⟨rfl, rfl⟩
          · intro h; exact absurd h hne
    obtain ⟨heap1, new1, hb, hp1, h1, h2, h3, h4, hmiss, hhit⟩ := key
    obtain ⟨i1, i2, i3, i4, iframe, imain⟩ := ih heap1 new1 hp1
    rw [hb]
    refine ⟨i1.trans h1, i2.trans h2, i3.trans h3, i4.trans h4, ?_, ?_⟩
    · intro hall
      have hx := hall x (List.mem_cons_self _ _)
      obtain ⟨f1, f2⟩ := iframe (fun y hy => hall y (List.mem_cons_of_mem _ hy))
      obtain ⟨m1, m2⟩ := hmiss hx
      exact ⟨f1.trans m1, f2.trans m2⟩
    · intro pre e post hsplit heid hpost
      cases pre with
      | nil =>
        simp only [List.nil_append, List.cons.injEq] at hsplit
        obtain ⟨rfl, rfl⟩ := hsplit
        obtain ⟨f1, f2⟩ := iframe hpost
        obtain ⟨g1, g2, g3⟩ := hhit heid
        rw [f1, f2]
        exact ⟨g1, g2, g3⟩
      | cons y pre2 =>
        simp only [List.cons_append, List.cons.injEq] at hsplit
        obtain ⟨-, rfl⟩ := hsplit
        exact imain pre2 e post rfl heid hpost

theorem buildNewServers_keys_nodup (dial : Ptr → Option ConnPtr) (now : Nat)
    (oldServers : ServerMap) : ∀ (services : List Entry) (heap : Heap)
    (newServers : ServerMap), (newServers.map Prod.fst).Nodup →
      ((buildNewServers dial now oldServers services heap newServers).2.map Prod.fst).Nodup := by
  intro services
  induction services with
  | nil => intro heap newServers h; exact h
  | cons x rest ih =>
    intro heap newServers h
    cases hx : mapGet oldServers x.ID with
    | some q =>
      rw [buildNewServers_cons_hit dial now oldServers x rest heap newServers q hx]
      exact ih _ _ (mapSet_keys_nodup _ _ _ h)
    | none =>
      rw [buildNewServers_cons_miss dial now oldServers x rest heap newServers hx]
      cases dial heap.next with
      | none => exact ih _ _ h
      | some conn => exact ih _ _ (mapSet_keys_nodup _ _ _ h)

theorem reconcile_heap (dial : Ptr → Option ConnPtr) (now : Nat) (services : List Entry)
    (w : World) : (reconcile dial now services w).heap =
      (buildNewServers dial now (GetAllServers w.servers) services w.heap []).1 := rfl

theorem reconcile_servers (dial : Ptr → Option ConnPtr) (now : Nat) (services : List Entry)
    (w : World) : (reconcile dial now services w).servers =
      GetAllServers (buildNewServers dial now (GetAllServers w.servers) services w.heap []).2 :=
  rfl

theorem toInt32_of_range (v : Int) (h1 : -2147483648 ≤ v) (h2 : v ≤ 2147483647) :
    toInt32 v = v := by
  unfold toInt32
  omega

/-- C11 (amended): for an id of the current fleet that the discovery snapshot lists,
the new fleet maps the id to the same GameServer object, with ID, IP, Port and Conn
unchanged, GameTypes equal to the tags of the last snapshot entry with that id and
Load equal to int32 of that entry's passing weight, which is the weight itself when
it fits in an int32. -/
theorem reconcile_reuses (dial : Ptr → Option ConnPtr) (now : Nat) (pre post : List Entry)
    (entry : Entry) (w : World) (id : String) (p : Ptr)
    (hkeys : (w.servers.map Prod.fst).Nodup) (hptrs : (w.servers.map Prod.snd).Nodup)
    (hfresh : ∀ e ∈ w.servers, e.2 < w.heap.next)
    (hcur : GetServerByID w.servers id = some p)
    (hid : entry.ID = id) (hlast : ∀ x ∈ post, x.ID ≠ id) :
    GetServerByID (reconcile dial now (pre ++ entry :: post) w).servers id = some p ∧
    ((reconcile dial now (pre ++ entry :: post) w).heap.obj p).ID = (w.heap.obj p).ID ∧
    ((reconcile dial now (pre ++ entry :: post) w).heap.obj p).IP = (w.heap.obj p).IP ∧
    ((reconcile dial now (pre ++ entry :: post) w).heap.obj p).Port = (w.heap.obj p).Port ∧
    ((reconcile dial now (pre ++ entry :: post) w).heap.obj p).Conn = (w.heap.obj p).Conn ∧
    ((reconcile dial now (pre ++ entry :: post) w).heap.obj p).GameTypes = entry.Tags ∧
    ((reconcile dial now (pre ++ entry :: post) w).heap.obj p).Load =
      toInt32 entry.Passing ∧
    (-2147483648 ≤ entry.Passing → entry.Passing ≤ 2147483647 →
      ((reconcile dial now (pre ++ entry :: post) w).heap.obj p).Load = entry.Passing) := by
  have hold : GetAllServers w.servers = w.servers := GetAllServers_of_nodup _ hkeys
  have hmem : (id, p) ∈ w.servers := mapGet_mem _ _ _ hcur
  have hinj : ∀ k q, mapGet w.servers k = some q → q = p → k = id := by
    intro k q hk hq
    have hkm := mapGet_mem _ _ _ hk
    have := List.inj_on_of_nodup_map hptrs hkm hmem hq
    exact congrArg Prod.fst this
  obtain ⟨i1, i2, i3, i4, -, imain⟩ := buildNewServers_spec dial now w.servers id p hcur hinj
    (pre ++ entry :: post) w.heap [] (hfresh _ hmem)
  obtain ⟨m1, m2, m3⟩ := imain pre entry post rfl hid hlast
  have hnd := buildNewServers_keys_nodup dial now w.servers (pre ++ entry :: post) w.heap []
    List.nodup_nil
  rw [reconcile_heap, reconcile_servers, hold, GetAllServers_of_nodup _ hnd]
  exact ⟨m3, i1, i2, i3, i4, m1, m2, fun h1 h2 => m2.trans (toInt32_of_range _ h1 h2)⟩

/-- Instance of the refresh: the example fleet, with a snapshot that lists B with new
tags and weight 9 and a server D that cannot be dialed. -/
theorem reconcile_reuses_witness :
    ((exampleFleet.map Prod.fst).Nodup) ∧ ((exampleFleet.map Prod.snd).Nodup) ∧
    (∀ e ∈ exampleFleet, e.2 < exampleHeap.next) ∧
    GetServerByID exampleFleet "B" = some 1 ∧
    (⟨"B", "10.0.0.9", 9001, ["gt", "zz"], 9⟩ : Entry).ID = "B" ∧
    (∀ x ∈ ([] : List Entry), x.ID ≠ "B") ∧
    (GetServerByID (reconcile (fun _ => none) 5
      ([⟨"D", "10.0.0.4", 9000, ["gt"], 1⟩] ++ ⟨"B", "10.0.0.9", 9001, ["gt", "zz"], 9⟩ :: [])
      ⟨exampleHeap, exampleFleet, []⟩).servers "B" = some 1 ∧
    ((reconcile (fun _ => none) 5
      ([⟨"D", "10.0.0.4", 9000, ["gt"], 1⟩] ++ ⟨"B", "10.0.0.9", 9001, ["gt", "zz"], 9⟩ :: [])
      ⟨exampleHeap, exampleFleet, []⟩).heap.obj 1).ID = (exampleHeap.obj 1).ID ∧
    ((reconcile (fun _ => none) 5
      ([⟨"D", "10.0.0.4", 9000, ["gt"], 1⟩] ++ ⟨"B", "10.0.0.9", 9001, ["gt", "zz"], 9⟩ :: [])
      ⟨exampleHeap, exampleFleet, []⟩).heap.obj 1).IP = (exampleHeap.obj 1).IP ∧
    ((reconcile (fun _ => none) 5
      ([⟨"D", "10.0.0.4", 9000, ["gt"], 1⟩] ++ ⟨"B", "10.0.0.9", 9001, ["gt", "zz"], 9⟩ :: [])
      ⟨exampleHeap, exampleFleet, []⟩).heap.obj 1).Port = (exampleHeap.obj 1).Port ∧
    ((reconcile (fun _ => none) 5
      ([⟨"D", "10.0.0.4", 9000, ["gt"], 1⟩] ++ ⟨"B", "10.0.0.9", 9001, ["gt", "zz"], 9⟩ :: [])
      ⟨exampleHeap, exampleFleet, []⟩).heap.obj 1).Conn = (exampleHeap.obj 1).Conn ∧
    ((reconcile (fun _ => none) 5
      ([⟨"D", "10.0.0.4", 9000, ["gt"], 1⟩] ++ ⟨"B", "10.0.0.9", 9001, ["gt", "zz"], 9⟩ :: [])
      ⟨exampleHeap, exampleFleet, []⟩).heap.obj 1).GameTypes =
        (⟨"B", "10.0.0.9", 9001, ["gt", "zz"], 9⟩ : Entry).Tags ∧
    ((reconcile (fun _ => none) 5
      ([⟨"D", "10.0.0.4", 9000, ["gt"], 1⟩] ++ ⟨"B", "10.0.0.9", 9001, ["gt", "zz"], 9⟩ :: [])
      ⟨exampleHeap, exampleFleet, []⟩).heap.obj 1).Load =
        toInt32 (⟨"B", "10.0.0.9", 9001, ["gt", "zz"], 9⟩ : Entry).Passing ∧
    (-2147483648 ≤ (⟨"B", "10.0.0.9", 9001, ["gt", "zz"], 9⟩ : Entry).Passing →
      (⟨"B", "10.0.0.9", 9001, ["gt", "zz"], 9⟩ : Entry).Passing ≤ 2147483647 →
      ((reconcile (fun _ => none) 5
        ([⟨"D", "10.0.0.4", 9000, ["gt"], 1⟩] ++
          ⟨"B", "10.0.0.9", 9001, ["gt", "zz"], 9⟩ :: [])
        ⟨exampleHeap, exampleFleet, []⟩).heap.obj 1).Load =
        (⟨"B", "10.0.0.9", 9001, ["gt", "zz"], 9⟩ : Entry).Passing)) :=
  ⟨by decide, by decide, by decide, by decide, rfl, by decide,
    reconcile_reuses (fun _ => none) 5 [⟨"D", "10.0.0.4", 9000, ["gt"], 1⟩] []
      ⟨"B", "10.0.0.9", 9001, ["gt", "zz"], 9⟩ ⟨exampleHeap, exampleFleet, []⟩ "B" 1
      (by decide) (by decide) (by decide) (by decide) rfl (by decide)⟩

/-- C11 as stated fails: for a snapshot entry of A with passing weight 2^31 the
conversion to int32 wraps and the refreshed Load is -2^31, not the weight. -/
theorem reconcile_load_wraps :
    GetServerByID exampleFleet "A" = some 0 ∧
    ((reconcile (fun _ => none) 5 [⟨"A", "10.0.0.1", 9000, ["gt"], 2147483648⟩]
      ⟨exampleHeap, exampleFleet, []⟩).heap.obj 0).Load = -2147483648 ∧
    ((reconcile (fun _ => none) 5 [⟨"A", "10.0.0.1", 9000, ["gt"], 2147483648⟩]
      ⟨exampleHeap, exampleFleet, []⟩).heap.obj 0).Load ≠
      (⟨"A", "10.0.0.1", 9000, ["gt"], 2147483648⟩ : Entry).Passing := by
  decide

/-! ## Client registry -/

theorem GetClient_cons (e : List Byte × ClientPtr) (m : List (List Byte × ClientPtr))
    (k : List Byte) :
    ClientManager.GetClient ⟨e :: m⟩ k =
      if e.1 = k then some e.2 else ClientManager.GetClient ⟨m⟩ k := by
  unfold ClientManager.GetClient
  simp only [List.find?_cons]
  by_cases h : e.1 = k
  · have hb : (e.1 == k) = true := by simpa using h
    simp only [hb, Option.map_some', if_pos h]
  · have hb : (e.1 == k) = false := by simpa using h
    simp only [hb, if_neg h]

theorem GetClient_eq_none (m : List (List Byte × ClientPtr)) (k : List Byte)
    (h : k ∉ m.map Prod.fst) : ClientManager.GetClient ⟨m⟩ k = none := by
  induction m with
  | nil => rfl
  | cons e m ih =>
    simp only [List.map_cons, List.mem_cons, not_or] at h
    rw [GetClient_cons, if_neg (Ne.symm h.1), ih h.2]

theorem GetClient_isSome (m : List (List Byte × ClientPtr)) (k : List Byte) :
    (ClientManager.GetClient ⟨m⟩ k).isSome = true ↔ k ∈ m.map Prod.fst := by
  induction m with
  | nil => simp [ClientManager.GetClient]
  | cons e m ih =>
    rw [GetClient_cons]
    by_cases h : e.1 = k
    · simp [h]
    · rw [if_neg h, ih]
      simp [Ne.symm h]

theorem GetClient_AddClient (cm : ClientManager) (s : List Byte) (c : ClientPtr)
    (k : List Byte) :
    (cm.AddClient s c).GetClient k = if k = s then some c else cm.GetClient k := by
  obtain ⟨m⟩ := cm
  unfold ClientManager.AddClient
  induction m with
  | nil =>
    simp only [List.any_nil, Bool.false_eq_true, if_false, List.nil_append]
    rw [GetClient_cons]
    by_cases h : s = k
    · simp [h]
    · simp [h, Ne.symm h, ClientManager.GetClient]
  | cons e m ih =>
    by_cases hes : e.1 = s
    · have hany : (e :: m).any (fun e => e.1 == s) = true := by simp [hes]
      rw [if_pos hany]
      simp only [List.map_cons, hes, beq_self_eq_true, if_true]
      rw [GetClient_cons, GetClient_cons]
      by_cases hk : k = s
      · simp [hk]
      · have h1 : ¬ s = k := fun h => hk h.symm
        have h2 : ¬ e.1 = k := fun h => hk (h ▸ hes)
        simp only [h1, if_false, hk, h2]
        by_cases hm : m.any (fun e => e.1 == s) = true
        · rw [if_pos hm] at ih
          rw [ih, if_neg hk]
        · have hid : m.map (fun e => if e.1 == s then (s, c) else e) = m := by
            conv_rhs => rw [← List.map_id m]
            apply List.map_congr_left
            intro x hx
            have : ¬ x.1 = s := by
              intro hxs
              exact hm (List.any_eq_true.mpr ⟨x, hx, by simpa using hxs⟩)
            simp [this]
          rw [hid]
    · have hb : (e.1 == s) = false := by simpa using hes
      by_cases hm : m.any (fun e => e.1 == s) = true
      · have hany : (e :: m).any (fun e => e.1 == s) = true := by
          simp only [List.any_cons, hm, Bool.or_true]
        rw [if_pos hany]
        rw [if_pos hm] at ih
        simp only [List.map_cons, hb, Bool.false_eq_true, if_false]
        rw [GetClient_cons, GetClient_cons, ih]
        by_cases hek : e.1 = k
        · have : k ≠ s := by rw [← hek]; exact hes
          simp [hek, this]
        · simp [hek]
      · have hany : ¬ (e :: m).any (fun e => e.1 == s) = true := by
          simp only [List.any_cons, hb, Bool.false_or]
          exact hm
        rw [if_neg hany]
        rw [if_neg hm] at ih
        simp only [List.cons_append]
        rw [GetClient_cons, GetClient_cons, ih]
        by_cases hek : e.1 = k
        · have : k ≠ s := by rw [← hek]; exact hes
          simp [hek, this]
        · simp [hek]

theorem GetClient_RemoveClient (cm : ClientManager) (s k : List Byte) :
    (cm.RemoveClient s).GetClient k = if k = s then none else cm.GetClient k := by
  obtain ⟨m⟩ := cm
  unfold ClientManager.RemoveClient
  induction m with
  | nil => simp [ClientManager.GetClient]
  | cons e m ih =>
    simp only [List.filter_cons]
    by_cases hes : e.1 = s
    · have hb : (!(e.1 == s)) = false := by simp [hes]
      simp only [hb, Bool.false_eq_true, if_false]
      rw [ih, GetClient_cons]
      by_cases hk : k = s
      · simp [hk]
      · have : ¬ e.1 = k := fun h => hk (h ▸ hes)
        simp [hk, this]
    · have hb : (!(e.1 == s)) = true := by simp [hes]
      simp only [hb, if_true]
      rw [GetClient_cons, GetClient_cons, ih]
      by_cases hek : e.1 = k
      · have : k ≠ s := by rw [← hek]; exact hes
        simp [hek, this]
      · simp [hek]

theorem AddClient_keys_nodup (cm : ClientManager) (s : List Byte) (c : ClientPtr)
    (h : (cm.clients.map Prod.fst).Nodup) :
    ((cm.AddClient s c).clients.map Prod.fst).Nodup := by
  unfold ClientManager.AddClient
  split
  · simp only [List.map_map]
    have : cm.clients.map (Prod.fst ∘ fun e => if e.1 == s then (s, c) else e) =
        cm.clients.map Prod.fst := by
      apply List.map_congr_left
      intro x _
      by_cases hx : x.1 = s
      · simp [hx]
      · simp [hx]
    rw [this]
    exact h
  · next hany =>
    simp only [List.map_append, List.map_cons, List.map_nil]
    rw [List.nodup_append]
    refine ⟨h, List.nodup_singleton s, ?_⟩
    intro a ha hb
    rw [List.mem_singleton] at hb
    subst hb
    apply hany
    obtain ⟨e, he, hek⟩ := List.mem_map.mp ha
    exact List.any_eq_true.mpr ⟨e, he, by simpa using hek⟩

theorem RemoveClient_keys_nodup (cm : ClientManager) (s : List Byte)
    (h : (cm.clients.map Prod.fst).Nodup) :
    ((cm.RemoveClient s).clients.map Prod.fst).Nodup := by
  unfold ClientManager.RemoveClient
  exact (List.filter_sublist _).map Prod.fst |>.nodup h

theorem apply_keys_nodup (cm : ClientManager) (o : ClientOp)
    (h : (cm.clients.map Prod.fst).Nodup) : ((cm.apply o).clients.map Prod.fst).Nodup := by
  cases o with
  | add s c => exact AddClient_keys_nodup cm s c h
  | remove s => exact RemoveClient_keys_nodup cm s h

theorem foldl_apply_keys_nodup (ops : List ClientOp) : ∀ cm : ClientManager,
    (cm.clients.map Prod.fst).Nodup →
      ((ops.foldl ClientManager.apply cm).clients.map Prod.fst).Nodup := by
  induction ops with
  | nil => intro cm h; exact h
  | cons o ops ih => intro cm h; exact ih _ (apply_keys_nodup cm o h)

theorem lastCall_cons (o : ClientOp) (ops : List ClientOp) (s : List Byte) :
    lastCall (o :: ops) s =
      (lastCall ops s).or (if o.sessionID = s then some o else none) := by
  unfold lastCall
  rw [List.reverse_cons, List.find?_append]
  congr 1
  by_cases h : o.sessionID = s
  · simp [h]
  · simp [h]

/-- Lookup after a sequence of calls: decided by the last call that named the
sessionID, or by the starting registry when no call named it. -/
theorem GetClient_foldl (ops : List ClientOp) (s : List Byte) : ∀ cm : ClientManager,
    (ops.foldl ClientManager.apply cm).GetClient s =
      match lastCall ops s with
      | some (.add _ c) => some c
      | some (.remove _) => none
      | none => cm.GetClient s := by
  induction ops with
  | nil => intro cm; rfl
  | cons o ops ih =>
    intro cm
    rw [List.foldl_cons, ih, lastCall_cons]
    cases hl : lastCall ops s with
    | some x =>
      simp only [Option.or_some]
      cases x <;> rfl
    | none =>
      simp only [Option.none_or]
      cases o with
      | add s2 c =>
        simp only [ClientManager.apply, ClientOp.sessionID, GetClient_AddClient]
        by_cases h : s2 = s
        · simp [h]
        · simp [h, Ne.symm h]
      | remove s2 =>
        simp only [ClientManager.apply, ClientOp.sessionID, GetClient_RemoveClient]
        by_cases h : s2 = s
        · simp [h]
        · simp [h, Ne.symm h]

theorem lastCall_sessionID (ops : List ClientOp) (s : List Byte) (o : ClientOp)
    (h : lastCall ops s = some o) : o.sessionID = s := by
  unfold lastCall at h
  have := List.find?_some h
  simpa using this

/-- C12: after every sequence of AddClient and RemoveClient calls on a fresh
ClientManager, GetClient(s) returns (c, true) exactly when the last call that named
s was AddClient(s, c), and (nil, false) when no call named s or the last one was
RemoveClient(s); Len is the number of sessionIDs for which GetClient reports true,
and the keys of the map are pairwise distinct. -/
theorem registry_reflects_last_write (ops : List ClientOp) (s : List Byte) :
    (∀ c, (runOps ops).GetClient s = some c ↔ lastCall ops s = some (.add s c)) ∧
    ((lastCall ops s = none ∨ lastCall ops s = some (.remove s)) →
      (runOps ops).GetClient s = none) ∧
    Set.ncard {k | ((runOps ops).GetClient k).isSome = true} = (runOps ops).Len ∧
    ((runOps ops).clients.map Prod.fst).Nodup := by
  have hget := GetClient_foldl ops s NewClientManager
  have hnd : ((runOps ops).clients.map Prod.fst).Nodup :=
    foldl_apply_keys_nodup ops NewClientManager List.nodup_nil
  refine ⟨?_, ?_, ?_, hnd⟩
  · intro c
    unfold runOps
    rw [hget]
    cases hl : lastCall ops s with
    | none => simp [NewClientManager, ClientManager.GetClient]
    | some o =>
      have hs := lastCall_sessionID ops s o hl
      cases o with
      | add s2 c2 =>
        simp only [ClientOp.sessionID] at hs
        subst hs
        simp
      | remove s2 => simp
  · intro h
    unfold runOps
    rw [hget]
    rcases h with h | h
    · rw [h]; rfl
    · rw [h]
  · have hset : {k | ((runOps ops).GetClient k).isSome = true} =
        ((((runOps ops).clients.map Prod.fst).toFinset : Finset (List Byte)) :
          Set (List Byte)) := by
      ext k
      simp only [Set.mem_setOf_eq, Finset.mem_coe, List.mem_toFinset]
      exact GetClient_isSome (runOps ops).clients k
    rw [hset, Set.ncard_coe_Finset, List.toFinset_card_of_nodup hnd]
    simp [ClientManager.Len]

/-- Instance of the registry theorem: add s1, add s2, remove s1, add s2 again. -/
theorem registry_reflects_last_write_witness :
    (runOps [.add [1] 10, .add [2] 20, .remove [1], .add [2] 21]).GetClient [2] = some 21 ∧
    (runOps [.add [1] 10, .add [2] 20, .remove [1], .add [2] 21]).GetClient [1] = none ∧
    (runOps [.add [1] 10, .add [2] 20, .remove [1], .add [2] 21]).Len = 1 ∧
    Set.ncard {k | ((runOps [.add [1] 10, .add [2] 20, .remove [1],
      .add [2] 21]).GetClient k).isSome = true} =
      (runOps [.add [1] 10, .add [2] 20, .remove [1], .add [2] 21]).Len :=
  ⟨by decide, by decide, by decide,
    (registry_reflects_last_write [.add [1] 10, .add [2] 20, .remove [1], .add [2] 21]
      [2]).2.2.1⟩

/-! ## Login flow -/

theorem Pack_isSome (msgID : U32) (sessionID data : List Byte)
    (h : HeaderLength + data.length < 4294967296) :
    ∃ frame, Pack msgID sessionID data = some frame :=
  ⟨_, pack_eq msgID sessionID data h⟩

/-- When the response marshals and fits a frame, `sendLoginResponse` hands exactly
one frame to the WebSocket: `Pack(0x11002, client.SessionID, data)`. -/
theorem sendLoginResponse_sent (env : Env) (client : Client) (loginname : String)
    (code : Int) (message : String) (data : List Byte)
    (hm : env.marshalLoginResp ⟨loginname, code, message, none⟩ = some data)
    (hfit : HeaderLength + data.length < 4294967296) :
    ∃ frame, Pack 0x11002 client.SessionID data = some frame ∧
      sendLoginResponse env client loginname code message =
        some [Event.wsLoginResp client.Conn ⟨loginname, code, message, none⟩ frame] := by
  obtain ⟨frame, hf⟩ := Pack_isSome 0x11002 client.SessionID data hfit
  refine ⟨frame, hf, ?_⟩
  unfold sendLoginResponse
  rw [hm]
  simp only
  rw [hf]

/-- Events of `sendLoginResponse`: at most one, a LoginResp frame with the given
code and message for the connection of the client. -/
theorem sendLoginResponse_events (env : Env) (client : Client) (loginname : String)
    (code : Int) (message : String) (sent : List Event)
    (h : sendLoginResponse env client loginname code message = some sent) :
    sent = [] ∨ ∃ frame, sent =
      [Event.wsLoginResp client.Conn ⟨loginname, code, message, none⟩ frame] := by
  unfold sendLoginResponse at h
  split at h
  · left
    exact (Option.some.inj h).symm
  · split at h
    · cases h
    · right
      exact ⟨_, (Option.some.inj h).symm⟩

theorem loginTarget_affinity (heap : Heap) (servers : ServerMap) (id gameType : String)
    (p : Ptr) (hne : id ≠ "") (hp : GetServerByID servers id = some p) :
    loginTarget heap servers id gameType = .ok (some p) := by
  unfold loginTarget
  simp [hne, hp]

theorem loginTarget_no_affinity (heap : Heap) (servers : ServerMap) (id gameType : String)
    (h : id = "" ∨ GetServerByID servers id = none) :
    loginTarget heap servers id gameType =
      if gameType = "" then .error (2, "GameType is empty")
      else
        match SelectServerByLoad heap servers gameType with
        | none => .error (3, "No game server available")
        | some server => .ok (some server) := by
  unfold loginTarget
  rcases h with h | h
  · simp [h]
  · by_cases hid : id = ""
    · simp [hid]
    · simp [hid, h]

/-- The target chosen by lines 155 to 180 is never nil. -/
theorem loginTarget_ne_nil (heap : Heap) (servers : ServerMap) (id gameType : String) :
    loginTarget heap servers id gameType ≠ .ok none := by
  cases hp : GetServerByID servers id with
  | some p =>
    by_cases hid : id = ""
    · rw [loginTarget_no_affinity heap servers id gameType (Or.inl hid)]
      split
      · simp
      · split <;> simp
    · rw [loginTarget_affinity heap servers id gameType p hid hp]
      simp
  | none =>
    rw [loginTarget_no_affinity heap servers id gameType (Or.inr hp)]
    split
    · simp
    · split <;> simp

/-- The three ways `writeLogin` returns: the request was written and the client is
bound; the write failed and code 6 is answered; the request did not marshal and code
5 is answered. -/
theorem writeLogin_cases (env : Env) (heap : Heap) (client : Client) (loginReq : LoginReq)
    (clientIP : String) (target : Ptr) (conn : ConnPtr) (events : List Event)
    (r : LoginResult)
    (h : writeLogin env heap client loginReq clientIP target conn events = some r) :
    r.heap = heap ∧ r.loginReq = { loginReq with ClientIp := clientIP } ∧
    ((∃ data frame, env.marshalLoginReq { loginReq with ClientIp := clientIP } = some data ∧
        Pack 0x11001 client.SessionID data = some frame ∧ env.tcpWrite conn frame = true ∧
        r.client = { client with GameServer := some target } ∧
        r.events = events ++ [Event.tcpWrite target conn frame]) ∨
     (∃ data frame sent,
        env.marshalLoginReq { loginReq with ClientIp := clientIP } = some data ∧
        Pack 0x11001 client.SessionID data = some frame ∧ env.tcpWrite conn frame = false ∧
        r.client = client ∧
        sendLoginResponse env client loginReq.Loginname 6
          "Failed to communicate with game server" = some sent ∧
        r.events = events ++ Event.tcpWrite target conn frame :: sent) ∨
     (∃ sent, env.marshalLoginReq { loginReq with ClientIp := clientIP } = none ∧
        r.client = client ∧
        sendLoginResponse env client loginReq.Loginname 5 "Internal server error" =
          some sent ∧
        r.events = events ++ sent)) := by
  unfold writeLogin at h
  simp only at h
  cases hm : env.marshalLoginReq { loginReq with ClientIp := clientIP } with
  | none =>
    rw [hm] at h
    simp only [Option.map_eq_some'] at h
    obtain ⟨sent, hs, rfl⟩ := h
    exact ⟨rfl, rfl, Or.inr (Or.inr ⟨sent, rfl, rfl, hs, rfl⟩)⟩
  | some data =>
    rw [hm] at h
    simp only at h
    cases hp : Pack 0x11001 client.SessionID data with
    | none => rw [hp] at h; cases h
    | some frame =>
      rw [hp] at h
      simp only at h
      cases hw : env.tcpWrite conn frame with
      | true =>
        rw [hw] at h
        simp only [if_true, Option.some.injEq] at h
        subst h
        exact ⟨rfl, rfl, Or.inl ⟨data, frame, rfl, hp, hw, rfl, rfl⟩⟩
      | false =>
        rw [hw] at h
        simp only [Bool.false_eq_true, if_false, Option.map_eq_some'] at h
        obtain ⟨sent, hs, rfl⟩ := h
        exact ⟨rfl, rfl, Or.inr (Or.inl ⟨data, frame, sent, rfl, hp, hw, rfl, hs, rfl⟩)⟩

/-- The ways `forwardLogin` returns: dialing failed and code 4 is answered, or the
request went through `writeLogin` on the connection of the target. -/
theorem forwardLogin_cases (env : Env) (heap : Heap) (client : Client) (loginReq : LoginReq)
    (clientIP : String) (target : Ptr) (r : LoginResult)
    (h : forwardLogin env heap client loginReq clientIP target = some r) :
    (∃ sent, (heap.obj target).Conn = none ∧ env.connect target = none ∧
      sendLoginResponse env client loginReq.Loginname 4
        "Failed to connect to game server" = some sent ∧
      r.heap = heap ∧ r.client = client ∧ r.loginReq = loginReq ∧
      r.events = Event.connect target :: sent) ∨
    (∃ conn, (heap.obj target).Conn = none ∧ env.connect target = some conn ∧
      writeLogin env (heap.set target { heap.obj target with Conn := some conn }) client
        loginReq clientIP target conn [Event.connect target] = some r) ∨
    (∃ conn, (heap.obj target).Conn = some conn ∧
      writeLogin env heap client loginReq clientIP target conn [] = some r) := by
  unfold forwardLogin at h
  cases hc : (heap.obj target).Conn with
  | none =>
    rw [hc] at h
    simp only at h
    cases hd : env.connect target with
    | none =>
      rw [hd] at h
      simp only [Option.map_eq_some'] at h
      obtain ⟨sent, hs, rfl⟩ := h
      exact Or.inl ⟨sent, rfl, rfl, hs, rfl, rfl, rfl, rfl⟩
    | some conn =>
      rw [hd] at h
      exact Or.inr (Or.inl ⟨conn, rfl, rfl, h⟩)
  | some conn =>
    rw [hc] at h
    exact Or.inr (Or.inr ⟨conn, rfl, h⟩)

theorem writeLogin_events (env : Env) (heap : Heap) (client : Client) (loginReq : LoginReq)
    (clientIP : String) (target : Ptr) (conn : ConnPtr) (events : List Event)
    (r : LoginResult)
    (h : writeLogin env heap client loginReq clientIP target conn events = some r) :
    ∀ e ∈ r.events, e ∈ events ∨
      (∃ data frame, env.marshalLoginReq { loginReq with ClientIp := clientIP } = some data ∧
        Pack 0x11001 client.SessionID data = some frame ∧
        e = Event.tcpWrite target conn frame) ∨
      (∃ code message frame, (code = 5 ∨ code = 6) ∧
        e = Event.wsLoginResp client.Conn ⟨loginReq.Loginname, code, message, none⟩ frame) := by
  obtain ⟨-, -, hc⟩ := writeLogin_cases env heap client loginReq clientIP target conn events r h
  intro e he
  rcases hc with ⟨data, frame, hm, hp, -, -, hev⟩ | ⟨data, frame, sent, hm, hp, -, -, hs, hev⟩ |
    ⟨sent, -, -, hs, hev⟩
  · rw [hev, List.mem_append, List.mem_singleton] at he
    rcases he with he | he
    · exact Or.inl he
    · exact Or.inr (Or.inl ⟨data, frame, hm, hp, he⟩)
  · rw [hev, List.mem_append, List.mem_cons] at he
    rcases he with he | he | he
    · exact Or.inl he
    · exact Or.inr (Or.inl ⟨data, frame, hm, hp, he⟩)
    · rcases sendLoginResponse_events _ _ _ _ _ _ hs with rfl | ⟨f, rfl⟩
      · cases he
      · rw [List.mem_singleton] at he
        exact Or.inr (Or.inr ⟨6, _, f, Or.inr rfl, he⟩)
  · rw [hev, List.mem_append] at he
    rcases he with he | he
    · exact Or.inl he
    · rcases sendLoginResponse_events _ _ _ _ _ _ hs with rfl | ⟨f, rfl⟩
      · cases he
      · rw [List.mem_singleton] at he
        exact Or.inr (Or.inr ⟨5, _, f, Or.inl rfl, he⟩)

/-- Events of `forwardLogin`: a Connect attempt on the target, the LoginReq frame
written to the target, and LoginResp frames with code 4, 5 or 6 for the client. -/
theorem forwardLogin_events (env : Env) (heap : Heap) (client : Client)
    (loginReq : LoginReq) (clientIP : String) (target : Ptr) (r : LoginResult)
    (h : forwardLogin env heap client loginReq clientIP target = some r) :
    ∀ e ∈ r.events, e = Event.connect target ∨
      (∃ conn data frame,
        env.marshalLoginReq { loginReq with ClientIp := clientIP } = some data ∧
        Pack 0x11001 client.SessionID data = some frame ∧
        e = Event.tcpWrite target conn frame) ∨
      (∃ code message frame, (code = 4 ∨ code = 5 ∨ code = 6) ∧
        e = Event.wsLoginResp client.Conn ⟨loginReq.Loginname, code, message, none⟩ frame) := by
  intro e he
  rcases forwardLogin_cases env heap client loginReq clientIP target r h with
    ⟨sent, -, -, hs, -, -, -, hev⟩ | ⟨conn, -, -, hw⟩ | ⟨conn, -, hw⟩
  · rw [hev, List.mem_cons] at he
    rcases he with he | he
    · exact Or.inl he
    · rcases sendLoginResponse_events _ _ _ _ _ _ hs with rfl | ⟨f, rfl⟩
      · cases he
      · rw [List.mem_singleton] at he
        exact Or.inr (Or.inr ⟨4, _, f, Or.inl rfl, he⟩)
  · rcases writeLogin_events _ _ _ _ _ _ _ _ _ hw e he with h1 | ⟨d, f, hm, hp, h2⟩ |
      ⟨c, m, f, hc, h3⟩
    · rw [List.mem_singleton] at h1
      exact Or.inl h1
    · exact Or.inr (Or.inl ⟨conn, d, f, hm, hp, h2⟩)
    · exact Or.inr (Or.inr ⟨c, m, f, by omega, h3⟩)
  · rcases writeLogin_events _ _ _ _ _ _ _ _ _ hw e he with h1 | ⟨d, f, hm, hp, h2⟩ |
      ⟨c, m, f, hc, h3⟩
    · cases h1
    · exact Or.inr (Or.inl ⟨conn, d, f, hm, hp, h2⟩)
    · exact Or.inr (Or.inr ⟨c, m, f, by omega, h3⟩)

/-- Client after `forwardLogin`: unchanged, or bound to the target on a path where
the LoginReq frame was written to the target without error. -/
theorem forwardLogin_client (env : Env) (heap : Heap) (client : Client)
    (loginReq : LoginReq) (clientIP : String) (target : Ptr) (r : LoginResult)
    (h : forwardLogin env heap client loginReq clientIP target = some r) :
    r.client = client ∨
      (r.client = { client with GameServer := some target } ∧
        ∃ conn data frame,
          env.marshalLoginReq { loginReq with ClientIp := clientIP } = some data ∧
          Pack 0x11001 client.SessionID data = some frame ∧
          Event.tcpWrite target conn frame ∈ r.events ∧ env.tcpWrite conn frame = true) := by
  rcases forwardLogin_cases env heap client loginReq clientIP target r h with
    ⟨sent, -, -, -, -, hc, -, -⟩ | ⟨conn, -, -, hw⟩ | ⟨conn, -, hw⟩
  · exact Or.inl hc
  · obtain ⟨-, -, hcs⟩ := writeLogin_cases _ _ _ _ _ _ _ _ _ hw
    rcases hcs with ⟨d, f, hm, hp, hwr, hcl, hev⟩ | ⟨d, f, s, -, -, -, hcl, -, -⟩ |
      ⟨s, -, hcl, -, -⟩
    · exact Or.inr ⟨hcl, conn, d, f, hm, hp, by rw [hev]; simp, hwr⟩
    · exact Or.inl hcl
    · exact Or.inl hcl
  · obtain ⟨-, -, hcs⟩ := writeLogin_cases _ _ _ _ _ _ _ _ _ hw
    rcases hcs with ⟨d, f, hm, hp, hwr, hcl, hev⟩ | ⟨d, f, s, -, -, -, hcl, -, -⟩ |
      ⟨s, -, hcl, -, -⟩
    · exact Or.inr ⟨hcl, conn, d, f, hm, hp, by rw [hev]; simp, hwr⟩
    · exact Or.inl hcl
    · exact Or.inl hcl

theorem handleLoginRequest_target (env : Env) (reply : RedisReply) (heap : Heap)
    (servers : ServerMap) (client : Client) (loginReq : LoginReq) (clientIP : String)
    (id : String) (target : Ptr) (hkv : GetPlayerGameServer reply = some id)
    (ht : loginTarget heap servers id loginReq.GameType = .ok (some target)) :
    handleLoginRequest env reply heap servers client loginReq clientIP =
      forwardLogin env heap client loginReq clientIP target := by
  unfold handleLoginRequest
  rw [hkv]
  simp only
  rw [ht]

theorem handleLoginRequest_rejected (env : Env) (reply : RedisReply) (heap : Heap)
    (servers : ServerMap) (client : Client) (loginReq : LoginReq) (clientIP : String)
    (id : String) (code : Int) (message : String)
    (hkv : GetPlayerGameServer reply = some id)
    (ht : loginTarget heap servers id loginReq.GameType = .error (code, message)) :
    handleLoginRequest env reply heap servers client loginReq clientIP =
      (sendLoginResponse env client loginReq.Loginname code message).map
        fun sent => ⟨heap, client, loginReq, sent⟩ := by
  unfold handleLoginRequest
  rw [hkv]
  simp only
  rw [ht]

/-- C13: when the affinity lookup returns an error, handleLoginRequest hands the
client exactly one frame, Pack(0x11002, client.SessionID, data) with data the
marshalled LoginResp of code 1 and message "Internal server error", produces no
other event (no write to a game server, no dial) and leaves the client and the game
servers unchanged. The response is assumed to marshal and to fit a frame. -/
theorem login_kv_error (env : Env) (reply : RedisReply) (heap : Heap) (servers : ServerMap)
    (client : Client) (loginReq : LoginReq) (clientIP : String) (data : List Byte)
    (hkv : GetPlayerGameServer reply = none)
    (hm : env.marshalLoginResp ⟨loginReq.Loginname, 1, "Internal server error", none⟩ =
      some data)
    (hfit : HeaderLength + data.length < 4294967296) :
    ∃ frame, Pack 0x11002 client.SessionID data = some frame ∧
      handleLoginRequest env reply heap servers client loginReq clientIP =
        some ⟨heap, client, loginReq,
          [Event.wsLoginResp client.Conn
            ⟨loginReq.Loginname, 1, "Internal server error", none⟩ frame]⟩ := by
  obtain ⟨frame, hp, hs⟩ := sendLoginResponse_sent env client loginReq.Loginname 1
    "Internal server error" data hm hfit
  refine ⟨frame, hp, ?_⟩
  unfold handleLoginRequest
  rw [hkv]
  simp only
  rw [hs]
  rfl

/-- Instance of the KV error path in the example environment. -/
theorem login_kv_error_witness :
    GetPlayerGameServer .failure = none ∧
    exampleEnv.marshalLoginResp ⟨exampleLoginReq.Loginname, 1, "Internal server error", none⟩ =
      some [1] ∧
    HeaderLength + ([1] : List Byte).length < 4294967296 ∧
    ∃ frame, Pack 0x11002 exampleClient.SessionID [1] = some frame ∧
      handleLoginRequest exampleEnv .failure exampleHeap exampleFleet exampleClient
          exampleLoginReq "1.2.3.4" =
        some ⟨exampleHeap, exampleClient, exampleLoginReq,
          [Event.wsLoginResp exampleClient.Conn
            ⟨exampleLoginReq.Loginname, 1, "Internal server error", none⟩ frame]⟩ :=
  ⟨rfl, by decide, by decide,
    login_kv_error exampleEnv .failure exampleHeap exampleFleet exampleClient exampleLoginReq
      "1.2.3.4" [1] rfl (by decide) (by decide)⟩

/-- C14: when the KV returns a non-empty serverID that is a key of the fleet
registry, the login target is GetServerByID(serverID) for every gameType of the
request and every load: the handler continues with that server, and no LoginResp
with code 2 or 3 is among its events. -/
theorem login_affinity_hit (env : Env) (reply : RedisReply) (heap : Heap)
    (servers : ServerMap) (client : Client) (loginReq : LoginReq) (clientIP : String)
    (id : String) (p : Ptr) (hkv : GetPlayerGameServer reply = some id) (hne : id ≠ "")
    (hp : GetServerByID servers id = some p) :
    loginTarget heap servers id loginReq.GameType = .ok (GetServerByID servers id) ∧
    handleLoginRequest env reply heap servers client loginReq clientIP =
      forwardLogin env heap client loginReq clientIP p ∧
    ∀ r, handleLoginRequest env reply heap servers client loginReq clientIP = some r →
      ∀ conn resp frame, Event.wsLoginResp conn resp frame ∈ r.events →
        resp.Code ≠ 2 ∧ resp.Code ≠ 3 := by
  have ht := loginTarget_affinity heap servers id loginReq.GameType p hne hp
  have hh := handleLoginRequest_target env reply heap servers client loginReq clientIP id p
    hkv ht
  refine ⟨by rw [ht, hp], hh, ?_⟩
  intro r hr conn resp frame hmem
  rw [hh] at hr
  rcases forwardLogin_events env heap client loginReq clientIP p r hr _ hmem with h | h | h
  · cases h
  · obtain ⟨_, _, _, _, _, h⟩ := h
    cases h
  · obtain ⟨code, message, f, hc, h⟩ := h
    simp only [Event.wsLoginResp.injEq] at h
    obtain ⟨-, rfl, -⟩ := h
    simp only
    omega

/-- Instance of the affinity hit: the KV names server C, which supports neither the
requested game type gt and is not the choice of the load-based selection. -/
theorem login_affinity_hit_witness :
    GetPlayerGameServer (.value "C") = some "C" ∧ "C" ≠ "" ∧
    GetServerByID exampleFleet "C" = some 2 ∧
    (loginTarget exampleHeap exampleFleet "C" exampleLoginReq.GameType =
      .ok (GetServerByID exampleFleet "C") ∧
    handleLoginRequest exampleEnv (.value "C") exampleHeap exampleFleet exampleClient
        exampleLoginReq "1.2.3.4" =
      forwardLogin exampleEnv exampleHeap exampleClient exampleLoginReq "1.2.3.4" 2 ∧
    ∀ r, handleLoginRequest exampleEnv (.value "C") exampleHeap exampleFleet exampleClient
        exampleLoginReq "1.2.3.4" = some r →
      ∀ conn resp frame, Event.wsLoginResp conn resp frame ∈ r.events →
        resp.Code ≠ 2 ∧ resp.Code ≠ 3) :=
  ⟨rfl, by decide, by decide,
    login_affinity_hit exampleEnv (.value "C") exampleHeap exampleFleet exampleClient
      exampleLoginReq "1.2.3.4" "C" 2 rfl (by decide) (by decide)⟩

/-- C15: when the KV returns a serverID that is not a key of the fleet registry, the
handler behaves as when the KV has no record: the login target is chosen the same
way, and for a non-empty gameType it is SelectServerByLoad(gameType), with code 3
when that returns nil. -/
theorem login_stale_affinity (env : Env) (heap : Heap) (servers : ServerMap)
    (client : Client) (loginReq : LoginReq) (clientIP : String) (id : String)
    (hstale : GetServerByID servers id = none) :
    loginTarget heap servers id loginReq.GameType =
      loginTarget heap servers "" loginReq.GameType ∧
    handleLoginRequest env (.value id) heap servers client loginReq clientIP =
      handleLoginRequest env .missing heap servers client loginReq clientIP ∧
    (loginReq.GameType ≠ "" →
      loginTarget heap servers id loginReq.GameType =
        match SelectServerByLoad heap servers loginReq.GameType with
        | none => .error (3, "No game server available")
        | some server => .ok (some server)) := by
  have h1 := loginTarget_no_affinity heap servers id loginReq.GameType (Or.inr hstale)
  have h2 := loginTarget_no_affinity heap servers "" loginReq.GameType (Or.inl rfl)
  refine ⟨h1.trans h2.symm, ?_, ?_⟩
  · unfold handleLoginRequest
    simp only [GetPlayerGameServer]
    rw [h1, h2]
  · intro hgt
    rw [h1, if_neg hgt]

/-- Instance of the stale affinity: the KV names S9, which is not in the example
fleet. -/
theorem login_stale_affinity_witness :
    GetServerByID exampleFleet "S9" = none ∧
    (loginTarget exampleHeap exampleFleet "S9" exampleLoginReq.GameType =
      loginTarget exampleHeap exampleFleet "" exampleLoginReq.GameType ∧
    handleLoginRequest exampleEnv (.value "S9") exampleHeap exampleFleet exampleClient
        exampleLoginReq "1.2.3.4" =
      handleLoginRequest exampleEnv .missing exampleHeap exampleFleet exampleClient
        exampleLoginReq "1.2.3.4" ∧
    (exampleLoginReq.GameType ≠ "" →
      loginTarget exampleHeap exampleFleet "S9" exampleLoginReq.GameType =
        match SelectServerByLoad exampleHeap exampleFleet exampleLoginReq.GameType with
        | none => .error (3, "No game server available")
        | some server => .ok (some server))) :=
  ⟨by decide,
    login_stale_affinity exampleEnv exampleHeap exampleFleet exampleClient exampleLoginReq
      "1.2.3.4" "S9" (by decide)⟩

/-- C16: without usable affinity (no record, or a serverID not in the fleet) and
with an empty gameType, handleLoginRequest hands the client exactly one frame, the
LoginResp of code 2 and message "GameType is empty", produces no other event and
leaves the client and the game servers unchanged. The response is assumed to
marshal and to fit a frame. -/
theorem login_empty_game_type (env : Env) (reply : RedisReply) (heap : Heap)
    (servers : ServerMap) (client : Client) (loginReq : LoginReq) (clientIP : String)
    (id : String) (data : List Byte)
    (hkv : GetPlayerGameServer reply = some id)
    (hno : id = "" ∨ GetServerByID servers id = none)
    (hgt : loginReq.GameType = "")
    (hm : env.marshalLoginResp ⟨loginReq.Loginname, 2, "GameType is empty", none⟩ = some data)
    (hfit : HeaderLength + data.length < 4294967296) :
    ∃ frame, Pack 0x11002 client.SessionID data = some frame ∧
      handleLoginRequest env reply heap servers client loginReq clientIP =
        some ⟨heap, client, loginReq,
          [Event.wsLoginResp client.Conn
            ⟨loginReq.Loginname, 2, "GameType is empty", none⟩ frame]⟩ := by
  obtain ⟨frame, hp, hs⟩ := sendLoginResponse_sent env client loginReq.Loginname 2
    "GameType is empty" data hm hfit
  refine ⟨frame, hp, ?_⟩
  have ht := loginTarget_no_affinity heap servers id loginReq.GameType hno
  rw [if_pos hgt] at ht
  rw [handleLoginRequest_rejected env reply heap servers client loginReq clientIP id 2
    "GameType is empty" hkv ht, hs]
  rfl

/-- Instance of the empty game type: no KV record and a request without game type. -/
theorem login_empty_game_type_witness :
    GetPlayerGameServer .missing = some "" ∧
    (("" : String) = "" ∨ GetServerByID exampleFleet "" = none) ∧
    ({ exampleLoginReq with GameType := "" } : LoginReq).GameType = "" ∧
    exampleEnv.marshalLoginResp
      ⟨({ exampleLoginReq with GameType := "" } : LoginReq).Loginname, 2,
        "GameType is empty", none⟩ = some [2] ∧
    HeaderLength + ([2] : List Byte).length < 4294967296 ∧
    ∃ frame, Pack 0x11002 exampleClient.SessionID [2] = some frame ∧
      handleLoginRequest exampleEnv .missing exampleHeap exampleFleet exampleClient
          { exampleLoginReq with GameType := "" } "1.2.3.4" =
        some ⟨exampleHeap, exampleClient, { exampleLoginReq with GameType := "" },
          [Event.wsLoginResp exampleClient.Conn
            ⟨({ exampleLoginReq with GameType := "" } : LoginReq).Loginname, 2,
              "GameType is empty", none⟩ frame]⟩ :=
  ⟨rfl, Or.inl rfl, rfl, by decide, by decide,
    login_empty_game_type exampleEnv .missing exampleHeap exampleFleet exampleClient
      { exampleLoginReq with GameType := "" } "1.2.3.4" "" [2] rfl (Or.inl rfl) rfl
      (by decide) (by decide)⟩

/-- C17: without usable affinity, with a non-empty gameType that no fleet server
supports, handleLoginRequest hands the client exactly one frame, the LoginResp of
code 3 and message "No game server available", produces no other event (no dial, no
write to a game server) and leaves the client and the game servers unchanged. The
response is assumed to marshal and to fit a frame. -/
theorem login_no_server (env : Env) (reply : RedisReply) (heap : Heap)
    (servers : ServerMap) (client : Client) (loginReq : LoginReq) (clientIP : String)
    (id : String) (data : List Byte)
    (hkv : GetPlayerGameServer reply = some id)
    (hno : id = "" ∨ GetServerByID servers id = none)
    (hgt : loginReq.GameType ≠ "")
    (hsup : ∀ e ∈ servers, loginReq.GameType ∉ (heap.obj e.2).GameTypes)
    (hm : env.marshalLoginResp ⟨loginReq.Loginname, 3, "No game server available", none⟩ =
      some data)
    (hfit : HeaderLength + data.length < 4294967296) :
    ∃ frame, Pack 0x11002 client.SessionID data = some frame ∧
      handleLoginRequest env reply heap servers client loginReq clientIP =
        some ⟨heap, client, loginReq,
          [Event.wsLoginResp client.Conn
            ⟨loginReq.Loginname, 3, "No game server available", none⟩ frame]⟩ := by
  obtain ⟨frame, hp, hs⟩ := sendLoginResponse_sent env client loginReq.Loginname 3
    "No game server available" data hm hfit
  refine ⟨frame, hp, ?_⟩
  have hsel : SelectServerByLoad heap servers loginReq.GameType = none :=
    (SelectServerByLoad_eq_none_iff heap servers loginReq.GameType).mpr
      (fun e he hg => absurd hg (hsup e he))
  have ht := loginTarget_no_affinity heap servers id loginReq.GameType hno
  rw [if_neg hgt, hsel] at ht
  rw [handleLoginRequest_rejected env reply heap servers client loginReq clientIP id 3
    "No game server available" hkv ht, hs]
  rfl

/-- Instance of the missing server: a request for game type zz on the example fleet. -/
theorem login_no_server_witness :
    GetPlayerGameServer .missing = some "" ∧
    (("" : String) = "" ∨ GetServerByID exampleFleet "" = none) ∧
    ({ exampleLoginReq with GameType := "zz" } : LoginReq).GameType ≠ "" ∧
    (∀ e ∈ exampleFleet, ({ exampleLoginReq with GameType := "zz" } : LoginReq).GameType ∉
      (exampleHeap.obj e.2).GameTypes) ∧
    exampleEnv.marshalLoginResp
      ⟨({ exampleLoginReq with GameType := "zz" } : LoginReq).Loginname, 3,
        "No game server available", none⟩ = some [3] ∧
    HeaderLength + ([3] : List Byte).length < 4294967296 ∧
    ∃ frame, Pack 0x11002 exampleClient.SessionID [3] = some frame ∧
      handleLoginRequest exampleEnv .missing exampleHeap exampleFleet exampleClient
          { exampleLoginReq with GameType := "zz" } "1.2.3.4" =
        some ⟨exampleHeap, exampleClient, { exampleLoginReq with GameType := "zz" },
          [Event.wsLoginResp exampleClient.Conn
            ⟨({ exampleLoginReq with GameType := "zz" } : LoginReq).Loginname, 3,
              "No game server available", none⟩ frame]⟩ :=
  ⟨rfl, Or.inl rfl, by decide, by decide, by decide, by decide,
    login_no_server exampleEnv .missing exampleHeap exampleFleet exampleClient
      { exampleLoginReq with GameType := "zz" } "1.2.3.4" "" [3] rfl (Or.inl rfl)
      (by decide) (by decide) (by decide) (by decide)⟩

theorem writeLogin_write_failed (env : Env) (heap : Heap) (client : Client)
    (loginReq : LoginReq) (clientIP : String) (target : Ptr) (conn : ConnPtr)
    (events : List Event) (data tcpData respData : List Byte)
    (hreq : env.marshalLoginReq { loginReq with ClientIp := clientIP } = some data)
    (hpack : Pack 0x11001 client.SessionID data = some tcpData)
    (hw : env.tcpWrite conn tcpData = false)
    (hm : env.marshalLoginResp
      ⟨loginReq.Loginname, 6, "Failed to communicate with game server", none⟩ = some respData)
    (hfit : HeaderLength + respData.length < 4294967296) :
    ∃ frame, Pack 0x11002 client.SessionID respData = some frame ∧
      writeLogin env heap client loginReq clientIP target conn events =
        some ⟨heap, client, { loginReq with ClientIp := clientIP },
          events ++ [Event.tcpWrite target conn tcpData,
            Event.wsLoginResp client.Conn
              ⟨loginReq.Loginname, 6, "Failed to communicate with game server", none⟩
              frame]⟩ := by
  obtain ⟨frame, hp, hs⟩ := sendLoginResponse_sent env client loginReq.Loginname 6
    "Failed to communicate with game server" respData hm hfit
  refine ⟨frame, hp, ?_⟩
  unfold writeLogin
  simp only
  rw [hreq]
  simp only
  rw [hpack]
  simp only
  rw [hw]
  simp only [Bool.false_eq_true, if_false]
  rw [hs]
  rfl

/-- C18: once a target is chosen, if its conn is absent and dialing fails the client
is handed the LoginResp of code 4 and message "Failed to connect to game server" and
nothing else happens but the dial; if the write of the LoginReq frame fails, on the
existing conn or on a freshly dialed one, the client is handed the LoginResp of code
6; in both cases the client is unchanged. After any return the client is either
unchanged or bound to the target, the latter only when the LoginReq frame was
written to the target without error. The responses are assumed to marshal and to
fit a frame. -/
theorem login_backend_failures (env : Env) (reply : RedisReply) (heap : Heap)
    (servers : ServerMap) (client : Client) (loginReq : LoginReq) (clientIP : String)
    (id : String) (target : Ptr) (hkv : GetPlayerGameServer reply = some id)
    (ht : loginTarget heap servers id loginReq.GameType = .ok (some target)) :
    (∀ respData, (heap.obj target).Conn = none → env.connect target = none →
      env.marshalLoginResp
        ⟨loginReq.Loginname, 4, "Failed to connect to game server", none⟩ = some respData →
      HeaderLength + respData.length < 4294967296 →
      ∃ frame, Pack 0x11002 client.SessionID respData = some frame ∧
        handleLoginRequest env reply heap servers client loginReq clientIP =
          some ⟨heap, client, loginReq,
            [Event.connect target,
              Event.wsLoginResp client.Conn
                ⟨loginReq.Loginname, 4, "Failed to connect to game server", none⟩ frame]⟩) ∧
    (∀ conn data tcpData respData,
      env.marshalLoginReq { loginReq with ClientIp := clientIP } = some data →
      Pack 0x11001 client.SessionID data = some tcpData →
      env.tcpWrite conn tcpData = false →
      env.marshalLoginResp
        ⟨loginReq.Loginname, 6, "Failed to communicate with game server", none⟩ =
          some respData →
      HeaderLength + respData.length < 4294967296 →
      ∃ frame, Pack 0x11002 client.SessionID respData = some frame ∧
        ((heap.obj target).Conn = some conn →
          handleLoginRequest env reply heap servers client loginReq clientIP =
            some ⟨heap, client, { loginReq with ClientIp := clientIP },
              [Event.tcpWrite target conn tcpData,
                Event.wsLoginResp client.Conn
                  ⟨loginReq.Loginname, 6, "Failed to communicate with game server", none⟩
                  frame]⟩) ∧
        ((heap.obj target).Conn = none → env.connect target = some conn →
          handleLoginRequest env reply heap servers client loginReq clientIP =
            some ⟨heap.set target { heap.obj target with Conn := some conn }, client,
              { loginReq with ClientIp := clientIP },
              [Event.connect target, Event.tcpWrite target conn tcpData,
                Event.wsLoginResp client.Conn
                  ⟨loginReq.Loginname, 6, "Failed to communicate with game server", none⟩
                  frame]⟩)) ∧
    (∀ r, handleLoginRequest env reply heap servers client loginReq clientIP = some r →
      r.client = client ∨
        (r.client = { client with GameServer := some target } ∧
          ∃ conn data frame,
            env.marshalLoginReq { loginReq with ClientIp := clientIP } = some data ∧
            Pack 0x11001 client.SessionID data = some frame ∧
            Event.tcpWrite target conn frame ∈ r.events ∧
            env.tcpWrite conn frame = true)) := by
  have hh := handleLoginRequest_target env reply heap servers client loginReq clientIP id
    target hkv ht
  rw [hh]
  refine ⟨?_, ?_, ?_⟩
  · intro respData hconn hdial hm hfit
    obtain ⟨frame, hp, hs⟩ := sendLoginResponse_sent env client loginReq.Loginname 4
      "Failed to connect to game server" respData hm hfit
    refine ⟨frame, hp, ?_⟩
    unfold forwardLogin
    rw [hconn]
    simp only
    rw [hdial]
    simp only
    rw [hs]
    rfl
  · intro conn data tcpData respData hreq hpack hw hm hfit
    obtain ⟨frame, hp, -⟩ := sendLoginResponse_sent env client loginReq.Loginname 6
      "Failed to communicate with game server" respData hm hfit
    refine ⟨frame, hp, ?_, ?_⟩
    · intro hconn
      obtain ⟨frame2, hp2, hwl⟩ := writeLogin_write_failed env heap client loginReq clientIP
        target conn [] data tcpData respData hreq hpack hw hm hfit
      rw [hp] at hp2
      cases hp2
      unfold forwardLogin
      rw [hconn]
      simp only
      rw [hwl]
      rfl
    · intro hconn hdial
      obtain ⟨frame2, hp2, hwl⟩ := writeLogin_write_failed env
        (heap.set target { heap.obj target with Conn := some conn }) client loginReq clientIP
        target conn [Event.connect target] data tcpData respData hreq hpack hw hm hfit
      rw [hp] at hp2
      cases hp2
      unfold forwardLogin
      rw [hconn]
      simp only
      rw [hdial]
      simp only
      rw [hwl]
      rfl
  · intro r hr
    exact forwardLogin_client env heap client loginReq clientIP target r hr

/-- Instance of the backend failures: no KV record, game type gt, so that the target
is the least loaded server B of the example fleet. -/
theorem login_backend_failures_witness :
    GetPlayerGameServer .missing = some "" ∧
    loginTarget exampleHeap exampleFleet "" exampleLoginReq.GameType = .ok (some 1) ∧
    (∃ frame, Pack 0x11002 exampleClient.SessionID [4] = some frame ∧
      handleLoginRequest { exampleEnv with connect := fun _ => none } .missing exampleHeap
          exampleFleet exampleClient exampleLoginReq "1.2.3.4" =
        some ⟨exampleHeap, exampleClient, exampleLoginReq,
          [Event.connect 1,
            Event.wsLoginResp exampleClient.Conn
              ⟨exampleLoginReq.Loginname, 4, "Failed to connect to game server", none⟩
              frame]⟩) :=
  ⟨rfl, rfl,
    (login_backend_failures { exampleEnv with connect := fun _ => none } .missing exampleHeap
      exampleFleet exampleClient exampleLoginReq "1.2.3.4" "" 1 rfl rfl).1 [4]
      (by decide) rfl (by decide) (by decide)⟩

/-- The ways `handleLoginRequest` returns: with a LoginResp of code 1, 2 or 3 and
nothing else, or through `forwardLogin` on the chosen target. -/
theorem handleLoginRequest_cases (env : Env) (reply : RedisReply) (heap : Heap)
    (servers : ServerMap) (client : Client) (loginReq : LoginReq) (clientIP : String)
    (r : LoginResult)
    (h : handleLoginRequest env reply heap servers client loginReq clientIP = some r) :
    (∃ code message sent, (code = 1 ∨ code = 2 ∨ code = 3) ∧
      sendLoginResponse env client loginReq.Loginname code message = some sent ∧
      r.heap = heap ∧ r.client = client ∧ r.loginReq = loginReq ∧ r.events = sent) ∨
    (∃ id target, GetPlayerGameServer reply = some id ∧
      loginTarget heap servers id loginReq.GameType = .ok (some target) ∧
      forwardLogin env heap client loginReq clientIP target = some r) := by
  cases hkv : GetPlayerGameServer reply with
  | none =>
    unfold handleLoginRequest at h
    rw [hkv] at h
    simp only [Option.map_eq_some'] at h
    obtain ⟨sent, hs, rfl⟩ := h
    exact Or.inl ⟨1, _, sent, Or.inl rfl, hs, rfl, rfl, rfl, rfl⟩
  | some id =>
    cases ht : loginTarget heap servers id loginReq.GameType with
    | error e =>
      obtain ⟨code, message⟩ := e
      rw [handleLoginRequest_rejected env reply heap servers client loginReq clientIP id code
        message hkv ht] at h
      simp only [Option.map_eq_some'] at h
      obtain ⟨sent, hs, rfl⟩ := h
      have hcode : code = 2 ∨ code = 3 := by
        by_cases hno : id = "" ∨ GetServerByID servers id = none
        · rw [loginTarget_no_affinity heap servers id loginReq.GameType hno] at ht
          split at ht
          · simp only [Except.error.injEq, Prod.mk.injEq] at ht
            exact Or.inl ht.1.symm
          · split at ht
            · simp only [Except.error.injEq, Prod.mk.injEq] at ht
              exact Or.inr ht.1.symm
            · cases ht
        · rw [not_or] at hno
          obtain ⟨p, hp⟩ := Option.ne_none_iff_exists'.mp hno.2
          rw [loginTarget_affinity heap servers id loginReq.GameType p hno.1 hp] at ht
          cases ht
      exact Or.inl ⟨code, message, sent, Or.inr hcode, hs, rfl, rfl, rfl, rfl⟩
    | ok t =>
      cases t with
      | none => exact absurd ht (loginTarget_ne_nil heap servers id loginReq.GameType)
      | some target =>
        rw [handleLoginRequest_target env reply heap servers client loginReq clientIP id
          target hkv ht] at h
        exact Or.inr ⟨id, target, rfl, ht, h⟩

/-- C19: every frame that handleLoginRequest writes to a game server is
Pack(0x11001, client.SessionID, data) with data the marshalled request whose
clientIp is the gateway-derived IP and whose loginname, token, gameType and version
are the received ones; and the client, the game servers and the events after the
call do not depend on the clientIp the client supplied. -/
theorem login_stamps_client_ip (env : Env) (reply : RedisReply) (heap : Heap)
    (servers : ServerMap) (client : Client) (loginReq : LoginReq) (clientIP : String)
    (r : LoginResult)
    (h : handleLoginRequest env reply heap servers client loginReq clientIP = some r) :
    (∀ server conn frame, Event.tcpWrite server conn frame ∈ r.events →
      ∃ data, env.marshalLoginReq ⟨loginReq.Loginname, loginReq.Token, loginReq.GameType,
          loginReq.Version, clientIP⟩ = some data ∧
        Pack 0x11001 client.SessionID data = some frame) ∧
    (∀ supplied : String, ∃ r2,
      handleLoginRequest env reply heap servers client
        { loginReq with ClientIp := supplied } clientIP = some r2 ∧
      r2.events = r.events ∧ r2.client = r.client ∧ r2.heap = r.heap) := by
  constructor
  · intro server conn frame hmem
    rcases handleLoginRequest_cases env reply heap servers client loginReq clientIP r h with
      ⟨code, message, sent, -, hs, -, -, -, hev⟩ | ⟨id, target, -, -, hf⟩
    · rw [hev] at hmem
      rcases sendLoginResponse_events _ _ _ _ _ _ hs with rfl | ⟨f, rfl⟩
      · cases hmem
      · rw [List.mem_singleton] at hmem
        cases hmem
    · rcases forwardLogin_events env heap client loginReq clientIP target r hf _ hmem with
        h1 | ⟨c, d, f, hm, hp, h2⟩ | ⟨c, m, f, -, h3⟩
      · cases h1
      · simp only [Event.tcpWrite.injEq] at h2
        obtain ⟨-, -, rfl⟩ := h2
        exact ⟨d, hm, hp⟩
      · cases h3
  · intro supplied
    unfold handleLoginRequest at h ⊢
    cases hkv : GetPlayerGameServer reply with
    | none =>
      rw [hkv] at h
      simp only [Option.map_eq_some'] at h ⊢
      obtain ⟨sent, hs, rfl⟩ := h
      exact ⟨_, ⟨sent, hs, rfl⟩, rfl, rfl, rfl⟩
    | some id =>
      rw [hkv] at h
      simp only at h ⊢
      cases ht : loginTarget heap servers id loginReq.GameType with
      | error e =>
        rw [ht] at h
        simp only [Option.map_eq_some'] at h ⊢
        obtain ⟨sent, hs, rfl⟩ := h
        exact ⟨_, ⟨sent, hs, rfl⟩, rfl, rfl, rfl⟩
      | ok t =>
        rw [ht] at h
        cases t with
        | none => cases h
        | some target =>
          simp only at h ⊢
          unfold forwardLogin at h ⊢
          cases hc : (heap.obj target).Conn with
          | none =>
            rw [hc] at h
            simp only at h ⊢
            cases hd : env.connect target with
            | none =>
              rw [hd] at h
              simp only [Option.map_eq_some'] at h ⊢
              obtain ⟨sent, hs, rfl⟩ := h
              exact ⟨_, ⟨sent, hs, rfl⟩, rfl, rfl, rfl⟩
            | some conn =>
              rw [hd] at h
              exact ⟨r, h, rfl, rfl, rfl⟩
          | some conn =>
            rw [hc] at h
            exact ⟨r, h, rfl, rfl, rfl⟩

/-- Instance of the stamping: the example request, which carries the client IP
6.6.6.6, handled for a client whose gateway-derived IP is 1.2.3.4. -/
theorem login_stamps_client_ip_witness :
    handleLoginRequest exampleEnv .missing exampleHeap exampleFleet exampleClient
        exampleLoginReq "1.2.3.4" =
      some ⟨exampleHeap.set 1 { exampleHeap.obj 1 with Conn := some 7 },
        { exampleClient with GameServer := some 1 },
        { exampleLoginReq with ClientIp := "1.2.3.4" },
        [Event.connect 1, Event.tcpWrite 1 7
          ([0, 0, 0, 41, 0, 1, 16, 1, 65, 66] ++ List.replicate 30 0 ++ [10])]⟩ ∧
    ((∀ server conn frame, Event.tcpWrite server conn frame ∈
        [Event.connect 1, Event.tcpWrite 1 7
          ([0, 0, 0, 41, 0, 1, 16, 1, 65, 66] ++ List.replicate 30 0 ++ [10])] →
      ∃ data, exampleEnv.marshalLoginReq ⟨exampleLoginReq.Loginname, exampleLoginReq.Token,
          exampleLoginReq.GameType, exampleLoginReq.Version, "1.2.3.4"⟩ = some data ∧
        Pack 0x11001 exampleClient.SessionID data = some frame) ∧
    (∀ supplied : String, ∃ r2,
      handleLoginRequest exampleEnv .missing exampleHeap exampleFleet exampleClient
        { exampleLoginReq with ClientIp := supplied } "1.2.3.4" = some r2 ∧
      r2.events = [Event.connect 1, Event.tcpWrite 1 7
          ([0, 0, 0, 41, 0, 1, 16, 1, 65, 66] ++ List.replicate 30 0 ++ [10])] ∧
      r2.client = { exampleClient with GameServer := some 1 } ∧
      r2.heap = exampleHeap.set 1 { exampleHeap.obj 1 with Conn := some 7 })) :=
  ⟨rfl,
    login_stamps_client_ip exampleEnv .missing exampleHeap exampleFleet exampleClient
      exampleLoginReq "1.2.3.4" _ rfl⟩

/-! ## Binding invariant -/

theorem GetClient_RemoveClient_some (reg : ClientManager) (s k : List Byte) (c : ClientPtr)
    (h : (reg.RemoveClient s).GetClient k = some c) : reg.GetClient k = some c := by
  rw [GetClient_RemoveClient] at h
  split at h
  · cases h
  · exact h

/-- Effect of `handleLoginResponse` on the clients: the registry only loses entries,
and a client object is unchanged unless it is the one registered under the
sessionID of the frame and the code is 0, in which case it is bound to the sender. -/
theorem handleLoginResponse_spec (env : Env) (clientObj : ClientPtr → Client)
    (registry : ClientManager) (gs : Ptr) (loginResp : LoginResp) (sessionID : List Byte)
    (r : ClientsResult)
    (h : handleLoginResponse env clientObj registry gs loginResp sessionID = some r) :
    (∀ k c, r.registry.GetClient k = some c → registry.GetClient k = some c) ∧
    (∀ q, r.clientObj q = clientObj q ∨
      (registry.GetClient sessionID = some q ∧ loginResp.Code = 0 ∧
        r.clientObj q = { clientObj q with GameServer := some gs })) := by
  unfold handleLoginResponse at h
  cases hg : registry.GetClient sessionID with
  | none =>
    rw [hg] at h
    cases h
    exact ⟨fun _ _ hk => hk, fun _ => Or.inl rfl⟩
  | some c =>
    rw [hg] at h
    simp only at h
    cases hm : env.marshalLoginResp loginResp with
    | none =>
      rw [hm] at h
      cases h
      exact ⟨fun _ _ hk => hk, fun _ => Or.inl rfl⟩
    | some data =>
      rw [hm] at h
      simp only at h
      cases hp : Pack 0x11002 sessionID data with
      | none => rw [hp] at h; cases h
      | some msgData =>
        rw [hp] at h
        simp only at h
        split at h
        · split at h
          · next hcode =>
            cases h
            refine ⟨fun _ _ hk => hk, ?_⟩
            intro q
            by_cases hq : q = c
            · right
              subst hq
              refine ⟨rfl, hcode, ?_⟩
              simp only [if_true]
            · left
              simp only [if_neg hq]
          · cases h
            exact ⟨fun k c2 hk => GetClient_RemoveClient_some _ _ _ _ hk, fun _ => Or.inl rfl⟩
        · cases h
          exact ⟨fun _ _ hk => hk, fun _ => Or.inl rfl⟩

theorem handleKickPlayerNotify_spec (env : Env) (clientObj : ClientPtr → Client)
    (registry : ClientManager) (kickNotify : KickPlayerNotify) (r : ClientsResult)
    (h : handleKickPlayerNotify env clientObj registry kickNotify = some r) :
    (∀ k c, r.registry.GetClient k = some c → registry.GetClient k = some c) ∧
    r.clientObj = clientObj := by
  unfold handleKickPlayerNotify at h
  cases hg : registry.GetClient kickNotify.SessionId with
  | none =>
    rw [hg] at h
    cases h
    exact ⟨fun _ _ hk => hk, rfl⟩
  | some c =>
    rw [hg] at h
    simp only at h
    cases hm : env.marshalKick kickNotify with
    | none =>
      rw [hm] at h
      cases h
      exact ⟨fun k c2 hk => GetClient_RemoveClient_some _ _ _ _ hk, rfl⟩
    | some data =>
      rw [hm] at h
      simp only at h
      cases hp : Pack 10001 kickNotify.SessionId data with
      | none => rw [hp] at h; cases h
      | some msgData =>
        rw [hp] at h
        cases h
        exact ⟨fun k c2 hk => GetClient_RemoveClient_some _ _ _ _ hk, rfl⟩

theorem disconnect_spec (env : Env) (heap : Heap) (clientObj : ClientPtr → Client)
    (registry : ClientManager) (c : ClientPtr) (r : ClientsResult)
    (h : disconnect env heap clientObj registry c = some r) :
    (∀ k c2, r.registry.GetClient k = some c2 → registry.GetClient k = some c2) ∧
    r.clientObj = clientObj := by
  unfold disconnect at h
  cases hb : (clientObj c).GameServer with
  | none =>
    rw [hb] at h
    cases h
    exact ⟨fun k c2 hk => GetClient_RemoveClient_some _ _ _ _ hk, rfl⟩
  | some gs =>
    rw [hb] at h
    simp only [Option.map_eq_some'] at h
    obtain ⟨sent, -, rfl⟩ := h
    exact ⟨fun k c2 hk => GetClient_RemoveClient_some _ _ _ _ hk, rfl⟩

/-- One step keeps the two facts on which the binding rests: every bound client is
justified, by `W` (a login request of its own, written to its server without error)
or by a LoginResp of code 0 received from its server, and every registered client
is registered under its own sessionID at an allocated address. `W` is the
justification before the step and `W2` the one after it: what held before still
holds, and a login request handled by this step that binds the client after a
write without error justifies the binding. -/
theorem Gateway.step_invariant (g g2 : Gateway) (i : Input) (hstep : g.step i = some g2)
    (W W2 : ClientPtr → Ptr → List Byte → Prop)
    (hmono : ∀ c S sid, W c S sid → W2 c S sid)
    (hnew : ∀ env reply c loginReq clientIP r S conn data frame,
      i = .loginRequest env reply c loginReq clientIP →
      handleLoginRequest env reply g.heap g.servers (g.clientObj c) loginReq clientIP =
        some r →
      r.client = { g.clientObj c with GameServer := some S } →
      env.marshalLoginReq { loginReq with ClientIp := clientIP } = some data →
      Pack 0x11001 (g.clientObj c).SessionID data = some frame →
      env.tcpWrite conn frame = true →
      Event.tcpWrite S conn frame ∈ r.events → W2 c S (g.clientObj c).SessionID)
    (hA : ∀ c S, (g.clientObj c).GameServer = some S →
      W c S (g.clientObj c).SessionID ∨
      (∃ resp, resp.Code = 0 ∧ (S, (g.clientObj c).SessionID, resp) ∈ g.received))
    (hB : ∀ k c, g.registry.GetClient k = some c →
      (g.clientObj c).SessionID = k ∧ c < g.nextClient) :
    (∀ c S, (g2.clientObj c).GameServer = some S →
      W2 c S (g2.clientObj c).SessionID ∨
      (∃ resp, resp.Code = 0 ∧ (S, (g2.clientObj c).SessionID, resp) ∈ g2.received)) ∧
    (∀ k c, g2.registry.GetClient k = some c →
      (g2.clientObj c).SessionID = k ∧ c < g2.nextClient) := by
  have mono : ∀ (c : ClientPtr) (S : Ptr) (sid : List Byte)
      (rc : List (Ptr × List Byte × LoginResp)),
      (g.clientObj c).SessionID = sid →
      (∀ x ∈ g.received, x ∈ rc) → (g.clientObj c).GameServer = some S →
      W2 c S sid ∨ (∃ resp, resp.Code = 0 ∧ (S, sid, resp) ∈ rc) := by
    intro c S sid rc hsid hrc hb
    rcases hA c S hb with hw | ⟨resp, hc, hm⟩
    · exact Or.inl (hsid ▸ hmono c S _ hw)
    · exact Or.inr ⟨resp, hc, hrc _ (hsid ▸ hm)⟩
  cases i with
  | connect conn sessionID =>
    simp only [Gateway.step, Option.some.injEq] at hstep
    subst hstep
    constructor
    · intro c S hb
      simp only at hb ⊢
      by_cases hc : c = g.nextClient
      · rw [if_pos hc] at hb
        cases hb
      · rw [if_neg hc] at hb ⊢
        exact mono c S _ _ rfl (fun _ h => h) hb
    · intro k c hk
      simp only at hk ⊢
      rw [GetClient_AddClient] at hk
      by_cases hks : k = sessionID
      · rw [if_pos hks] at hk
        cases hk
        simp only [if_true]
        exact ⟨hks.symm, Nat.lt_succ_self _⟩
      · rw [if_neg hks] at hk
        obtain ⟨h1, h2⟩ := hB k c hk
        have hne : c ≠ g.nextClient := Nat.ne_of_lt h2
        rw [if_neg hne]
        exact ⟨h1, Nat.lt_succ_of_lt h2⟩
  | loginRequest env reply c0 loginReq clientIP =>
    simp only [Gateway.step, Option.map_eq_some'] at hstep
    obtain ⟨r, hr, rfl⟩ := hstep
    have hclient : r.client = g.clientObj c0 ∨
        ∃ target, r.client = { g.clientObj c0 with GameServer := some target } ∧
          W2 c0 target (g.clientObj c0).SessionID := by
      rcases handleLoginRequest_cases env reply g.heap g.servers (g.clientObj c0) loginReq
        clientIP r hr with ⟨_, _, _, -, -, -, hc, -, -⟩ | ⟨id, target, -, -, hf⟩
      · exact Or.inl hc
      · rcases forwardLogin_client env g.heap (g.clientObj c0) loginReq clientIP target r hf
          with hc | ⟨hc, conn, data, frame, hmar, hp, hm, hwr⟩
        · exact Or.inl hc
        · exact Or.inr ⟨target, hc,
            hnew env reply c0 loginReq clientIP r target conn data frame rfl hr hc hmar hp
              hwr hm⟩
    constructor
    · intro c S hb
      simp only at hb ⊢
      by_cases hc : c = c0
      · subst hc
        rw [if_pos rfl] at hb ⊢
        rcases hclient with hcl | ⟨target, hcl, hw⟩
        · rw [hcl] at hb ⊢
          exact mono c S _ _ rfl (fun _ h => h) hb
        · rw [hcl] at hb ⊢
          simp only [Option.some.injEq] at hb
          subst hb
          exact Or.inl hw
      · rw [if_neg hc] at hb ⊢
        exact mono c S _ _ rfl (fun _ h => h) hb
    · intro k c hk
      simp only at hk ⊢
      obtain ⟨h1, h2⟩ := hB k c hk
      refine ⟨?_, h2⟩
      by_cases hc : c = c0
      · subst hc
        rw [if_pos rfl]
        rcases hclient with hcl | ⟨target, hcl, -⟩
        · rw [hcl]; exact h1
        · rw [hcl]; exact h1
      · rw [if_neg hc]; exact h1
  | loginResp env gs sessionID resp =>
    simp only [Gateway.step, Option.map_eq_some'] at hstep
    obtain ⟨r, hr, rfl⟩ := hstep
    obtain ⟨hreg, hobj⟩ := handleLoginResponse_spec env g.clientObj g.registry gs resp
      sessionID r hr
    constructor
    · intro c S hb
      simp only at hb ⊢
      rcases hobj c with hc | ⟨hget, hcode, hc⟩
      · rw [hc] at hb ⊢
        exact mono c S _ _ rfl (fun _ h => List.mem_cons_of_mem _ h) hb
      · rw [hc] at hb ⊢
        simp only [Option.some.injEq] at hb
        subst hb
        right
        refine ⟨resp, hcode, ?_⟩
        rw [(hB sessionID c hget).1]
        exact List.mem_cons_self _ _
    · intro k c hk
      simp only at hk ⊢
      obtain ⟨h1, h2⟩ := hB k c (hreg k c hk)
      refine ⟨?_, h2⟩
      rcases hobj c with hc | ⟨-, -, hc⟩
      · rw [hc]; exact h1
      · rw [hc]; exact h1
  | kick env kickNotify =>
    simp only [Gateway.step, Option.map_eq_some'] at hstep
    obtain ⟨r, hr, rfl⟩ := hstep
    obtain ⟨hreg, hobj⟩ := handleKickPlayerNotify_spec env g.clientObj g.registry kickNotify
      r hr
    constructor
    · intro c S hb
      simp only [hobj] at hb ⊢
      exact mono c S _ _ rfl (fun _ h => h) hb
    · intro k c hk
      simp only [hobj] at hk ⊢
      exact hB k c (hreg k c hk)
  | disconnect env c0 =>
    simp only [Gateway.step, Option.map_eq_some'] at hstep
    obtain ⟨r, hr, rfl⟩ := hstep
    obtain ⟨hreg, hobj⟩ := disconnect_spec env g.heap g.clientObj g.registry c0 r hr
    constructor
    · intro c S hb
      simp only [hobj] at hb ⊢
      exact mono c S _ _ rfl (fun _ h => h) hb
    · intro k c hk
      simp only [hobj] at hk ⊢
      exact hB k c (hreg k c hk)
  | discovery dial now services =>
    simp only [Gateway.step, Option.some.injEq] at hstep
    subst hstep
    exact ⟨fun c S hb => mono c S _ _ rfl (fun _ h => h) hb, hB⟩

/-- A step only adds events. -/
theorem Gateway.step_events (g g2 : Gateway) (i : Input) (hstep : g.step i = some g2) :
    ∀ e ∈ g.events, e ∈ g2.events := by
  intro e he
  cases i with
  | connect conn sessionID =>
    simp only [Gateway.step, Option.some.injEq] at hstep
    subst hstep
    exact he
  | loginRequest env reply c0 loginReq clientIP =>
    simp only [Gateway.step, Option.map_eq_some'] at hstep
    obtain ⟨r, -, rfl⟩ := hstep
    exact List.mem_append_left _ he
  | loginResp env gs sessionID resp =>
    simp only [Gateway.step, Option.map_eq_some'] at hstep
    obtain ⟨r, -, rfl⟩ := hstep
    exact List.mem_append_left _ he
  | kick env kickNotify =>
    simp only [Gateway.step, Option.map_eq_some'] at hstep
    obtain ⟨r, -, rfl⟩ := hstep
    exact List.mem_append_left _ he
  | disconnect env c0 =>
    simp only [Gateway.step, Option.map_eq_some'] at hstep
    obtain ⟨r, -, rfl⟩ := hstep
    exact List.mem_append_left _ he
  | discovery dial now services =>
    simp only [Gateway.step, Option.some.injEq] at hstep
    subst hstep
    exact he

theorem Gateway.run_append (xs ys : List Input) : ∀ g : Gateway,
    Gateway.run (xs ++ ys) g = (Gateway.run xs g).bind (Gateway.run ys) := by
  induction xs with
  | nil =>
    intro g
    rfl
  | cons i rest ih =>
    intro g
    simp only [List.cons_append, Gateway.run]
    cases hs : g.step i with
    | none => rfl
    | some g1 =>
      simp only [Option.some_bind]
      exact ih g1

/-- Invariant of the runs from a fresh start. A client bound to S is justified by a
login request of its own in the run, handled in the state the run had reached, that
bound it to S after its LoginReq frame was written to S without error, or by a
LoginResp of code 0 received from S; and every registered client is registered
under its own sessionID at an allocated address. -/
theorem Gateway.run_invariant (heap : Heap) (servers : ServerMap) (inputs : List Input) :
    ∀ g : Gateway, Gateway.run inputs (Gateway.initial heap servers) = some g →
    (∀ c S, (g.clientObj c).GameServer = some S →
      (∃ pre post env reply loginReq clientIP g1 r conn data frame,
        inputs = pre ++ Input.loginRequest env reply c loginReq clientIP :: post ∧
        Gateway.run pre (Gateway.initial heap servers) = some g1 ∧
        handleLoginRequest env reply g1.heap g1.servers (g1.clientObj c) loginReq clientIP =
          some r ∧
        r.client = { g1.clientObj c with GameServer := some S } ∧
        (g1.clientObj c).SessionID = (g.clientObj c).SessionID ∧
        env.marshalLoginReq { loginReq with ClientIp := clientIP } = some data ∧
        Pack 0x11001 (g.clientObj c).SessionID data = some frame ∧
        env.tcpWrite conn frame = true ∧
        Event.tcpWrite S conn frame ∈ r.events ∧ Event.tcpWrite S conn frame ∈ g.events) ∨
      (∃ resp, resp.Code = 0 ∧ (S, (g.clientObj c).SessionID, resp) ∈ g.received)) ∧
    (∀ k c, g.registry.GetClient k = some c →
      (g.clientObj c).SessionID = k ∧ c < g.nextClient) := by
  induction inputs using List.reverseRecOn with
  | nil =>
    intro g hrun
    simp only [Gateway.run, Option.some.injEq] at hrun
    subst hrun
    refine ⟨?_, ?_⟩
    · intro c S h
      cases h
    · intro k c h
      cases h
  | append_singleton hist i ih =>
    intro g2 hrun
    rw [Gateway.run_append, Option.bind_eq_some] at hrun
    obtain ⟨g, hg, hstep⟩ := hrun
    simp only [Gateway.run, Option.bind_eq_some] at hstep
    obtain ⟨g3, hstep, h3⟩ := hstep
    simp only [Option.some.injEq] at h3
    subst h3
    obtain ⟨hA, hB⟩ := ih g hg
    refine Gateway.step_invariant g g3 i hstep
      (fun c S sid => ∃ pre post env reply loginReq clientIP g1 r conn data frame,
        hist = pre ++ Input.loginRequest env reply c loginReq clientIP :: post ∧
        Gateway.run pre (Gateway.initial heap servers) = some g1 ∧
        handleLoginRequest env reply g1.heap g1.servers (g1.clientObj c) loginReq clientIP =
          some r ∧
        r.client = { g1.clientObj c with GameServer := some S } ∧
        (g1.clientObj c).SessionID = sid ∧
        env.marshalLoginReq { loginReq with ClientIp := clientIP } = some data ∧
        Pack 0x11001 sid data = some frame ∧
        env.tcpWrite conn frame = true ∧
        Event.tcpWrite S conn frame ∈ r.events ∧ Event.tcpWrite S conn frame ∈ g.events)
      (fun c S sid => ∃ pre post env reply loginReq clientIP g1 r conn data frame,
        hist ++ [i] = pre ++ Input.loginRequest env reply c loginReq clientIP :: post ∧
        Gateway.run pre (Gateway.initial heap servers) = some g1 ∧
        handleLoginRequest env reply g1.heap g1.servers (g1.clientObj c) loginReq clientIP =
          some r ∧
        r.client = { g1.clientObj c with GameServer := some S } ∧
        (g1.clientObj c).SessionID = sid ∧
        env.marshalLoginReq { loginReq with ClientIp := clientIP } = some data ∧
        Pack 0x11001 sid data = some frame ∧
        env.tcpWrite conn frame = true ∧
        Event.tcpWrite S conn frame ∈ r.events ∧ Event.tcpWrite S conn frame ∈ g3.events)
      ?_ ?_ hA hB
    · rintro c S sid ⟨pre, post, env, reply, loginReq, clientIP, g1, r, conn, data, frame,
        hh, hpre, hr, hcl, hsid, hm, hp, hw, he1, he2⟩
      refine ⟨pre, post ++ [i], env, reply, loginReq, clientIP, g1, r, conn, data, frame,
        ?_, hpre, hr, hcl, hsid, hm, hp, hw, he1, Gateway.step_events g g3 i hstep _ he2⟩
      rw [hh, List.append_assoc, List.cons_append]
    · intro env reply c loginReq clientIP r S conn data frame hi hr hcl hm hp hw he
      refine ⟨hist, [], env, reply, loginReq, clientIP, g, r, conn, data, frame,
        by rw [hi], hg, hr, hcl, rfl, hm, hp, hw, he, ?_⟩
      subst hi
      simp only [Gateway.step, hr, Option.map_some', Option.some.injEq] at hstep
      subst hstep
      exact List.mem_append_right _ he

/-- C20 (amended): in every state the gateway reaches from a fresh start by steps
that handle a WebSocket upgrade, a client login request, an upstream LoginResp, a
kick notice, a client disconnect or a discovery reconciliation, a client bound to
server S is justified in one of two ways. Either an earlier step of the run handled
a login request of that client and bound it to S after the LoginReq frame carrying
its sessionID had been written to S without error, which is the tentative binding
of handleLoginRequest; or a LoginResp with code 0 for its sessionID was received
from S. -/
theorem binding_invariant (heap : Heap) (servers : ServerMap) (inputs : List Input)
    (g : Gateway) (hrun : Gateway.run inputs (Gateway.initial heap servers) = some g)
    (c : ClientPtr) (S : Ptr) (hb : (g.clientObj c).GameServer = some S) :
    (∃ pre post env reply loginReq clientIP g1 r conn data frame,
      inputs = pre ++ Input.loginRequest env reply c loginReq clientIP :: post ∧
      Gateway.run pre (Gateway.initial heap servers) = some g1 ∧
      handleLoginRequest env reply g1.heap g1.servers (g1.clientObj c) loginReq clientIP =
        some r ∧
      r.client = { g1.clientObj c with GameServer := some S } ∧
      (g1.clientObj c).SessionID = (g.clientObj c).SessionID ∧
      env.marshalLoginReq { loginReq with ClientIp := clientIP } = some data ∧
      Pack 0x11001 (g.clientObj c).SessionID data = some frame ∧
      env.tcpWrite conn frame = true ∧
      Event.tcpWrite S conn frame ∈ r.events ∧ Event.tcpWrite S conn frame ∈ g.events) ∨
    (∃ resp, resp.Code = 0 ∧ (S, (g.clientObj c).SessionID, resp) ∈ g.received) :=
  (Gateway.run_invariant heap servers inputs g hrun).1 c S hb

/-- Instance of the invariant: a client connects, logs in and the chosen server B
answers with code 0. -/
theorem binding_invariant_witness :
    ∃ g, Gateway.run
        [.connect 100 [65, 66], .loginRequest exampleEnv .missing 0 exampleLoginReq "1.2.3.4",
          .loginResp exampleEnv 1 [65, 66] ⟨"u1", 0, "ok", none⟩]
        (Gateway.initial exampleHeap exampleFleet) = some g ∧
      (g.clientObj 0).GameServer = some 1 ∧
      ((∃ pre post env reply loginReq clientIP g1 r conn data frame,
        [Input.connect 100 [65, 66],
          .loginRequest exampleEnv .missing 0 exampleLoginReq "1.2.3.4",
          .loginResp exampleEnv 1 [65, 66] ⟨"u1", 0, "ok", none⟩] =
          pre ++ Input.loginRequest env reply 0 loginReq clientIP :: post ∧
        Gateway.run pre (Gateway.initial exampleHeap exampleFleet) = some g1 ∧
        handleLoginRequest env reply g1.heap g1.servers (g1.clientObj 0) loginReq clientIP =
          some r ∧
        r.client = { g1.clientObj 0 with GameServer := some 1 } ∧
        (g1.clientObj 0).SessionID = (g.clientObj 0).SessionID ∧
        env.marshalLoginReq { loginReq with ClientIp := clientIP } = some data ∧
        Pack 0x11001 (g.clientObj 0).SessionID data = some frame ∧
        env.tcpWrite conn frame = true ∧
        Event.tcpWrite 1 conn frame ∈ r.events ∧ Event.tcpWrite 1 conn frame ∈ g.events) ∨
      (∃ resp, resp.Code = 0 ∧ (1, (g.clientObj 0).SessionID, resp) ∈ g.received)) :=
  ⟨_, rfl, rfl,
    binding_invariant exampleHeap exampleFleet
      [.connect 100 [65, 66], .loginRequest exampleEnv .missing 0 exampleLoginReq "1.2.3.4",
        .loginResp exampleEnv 1 [65, 66] ⟨"u1", 0, "ok", none⟩] _ rfl 0 1 rfl⟩

/-- C20 as stated fails: after a client has connected and its login request has
been written to server B, the client is bound to B although no LoginResp has been
received at all. -/
theorem binding_before_response :
    ∃ g, Gateway.run
        [.connect 100 [65, 66], .loginRequest exampleEnv .missing 0 exampleLoginReq "1.2.3.4"]
        (Gateway.initial exampleHeap exampleFleet) = some g ∧
      (g.clientObj 0).GameServer = some 1 ∧ g.received = [] :=
  ⟨_, rfl, rfl, rfl⟩

/-! ## Complete frames, termination and verbatim relay -/

/-- C29: for every buffer whose length prefix L is at least 40, Unpack returns a
frame if and only if the buffer holds at least L bytes; then the three slices it
takes lie within the buffered bytes; and with fewer than L bytes it returns the
need-more error. It never panics on such a buffer. -/
theorem Unpack_succeeds_iff_complete (buffer : List Byte) (L : U32)
    (hL : bigEndianUint32 (buffer.take 4) = some L) (h40 : 40 ≤ L.val) :
    ((∃ msgID sessionID data rest, Unpack buffer = (.ok msgID sessionID data, rest)) ↔
      L.val ≤ buffer.length) ∧
    (L.val ≤ buffer.length →
      slice buffer 4 8 = some ((buffer.take 8).drop 4) ∧
      slice buffer 8 40 = some ((buffer.take 40).drop 8) ∧
      slice buffer 40 L.val = some ((buffer.take L.val).drop 40)) ∧
    (buffer.length < L.val →
      Unpack buffer = (.err "buffer too short for full message", buffer)) ∧
    (Unpack buffer).1 ≠ .panic := by
  refine ⟨⟨?_, ?_⟩, ?_, ?_, ?_⟩
  · rintro ⟨m, s, d, rest, h⟩
    obtain ⟨L2, hL2, -, hlen, -⟩ := Unpack_ok_inv buffer m s d rest h
    rw [hL] at hL2
    cases hL2
    exact hlen
  · intro hlen
    obtain ⟨m, -, hu⟩ := Unpack_of_complete buffer L hL hlen h40
    exact ⟨m, _, _, _, hu⟩
  · intro hlen
    refine ⟨?_, ?_, ?_⟩
    · unfold slice; rw [if_pos ⟨by omega, by omega⟩]
    · unfold slice; rw [if_pos ⟨by omega, by omega⟩]
    · unfold slice; rw [if_pos ⟨by omega, by omega⟩]
  · intro hlt
    exact Unpack_of_incomplete buffer L hL hlt
  · by_cases hlen : L.val ≤ buffer.length
    · obtain ⟨m, -, hu⟩ := Unpack_of_complete buffer L hL hlen h40
      rw [hu]
      simp
    · rw [Unpack_of_incomplete buffer L hL (by omega)]
      simp

/-- Instance on a complete 43-byte frame. -/
theorem Unpack_succeeds_iff_complete_witness :
    bigEndianUint32 (([0, 0, 0, 43, 0, 0, 0, 5, 65, 66] ++ List.replicate 30 0 ++
      [1, 2, 3] : List Byte).take 4) = some 43 ∧ 40 ≤ (43 : U32).val ∧
    (Unpack ([0, 0, 0, 43, 0, 0, 0, 5, 65, 66] ++ List.replicate 30 0 ++ [1, 2, 3])).1 ≠
      .panic :=
  ⟨by decide, by decide,
    (Unpack_succeeds_iff_complete
      ([0, 0, 0, 43, 0, 0, 0, 5, 65, 66] ++ List.replicate 30 0 ++ [1, 2, 3]) 43
      (by decide) (by decide)).2.2.2⟩

theorem Drained.andThen_ne_fuel (d : Drained) (k : List Byte → Drained)
    (hd : d ≠ .fuel) (hk : ∀ b, k b ≠ .fuel) : d.andThen k ≠ .fuel := by
  cases d with
  | done fs b =>
    simp only [Drained.andThen]
    cases hkb : k b with
    | done fs2 b2 => simp
    | panic => simp
    | fuel => exact absurd hkb (hk b)
  | panic => simp [Drained.andThen]
  | fuel => exact absurd rfl hd

theorem drain_ne_fuel (n : Nat) : ∀ buffer : List Byte, buffer.length = n →
    drain buffer ≠ .fuel := by
  induction n using Nat.strong_induction_on with
  | _ n ih =>
    intro buffer hn
    rcases Unpack_cases buffer with ⟨-, hu⟩ | ⟨L, -, -, hu⟩ | ⟨L, -, -, -, hu⟩ |
      ⟨L, m, -, hlen, h40, -, hu⟩
    · rw [drain_err buffer buffer _ hu]; simp
    · rw [drain_err buffer buffer _ hu]; simp
    · rw [drain_panic buffer buffer hu]; simp
    · rw [drain_ok buffer _ _ _ _ hu]
      simp only [Drained.andThen]
      have := ih (buffer.drop L.val).length (by simp only [List.length_drop]; omega)
        (buffer.drop L.val) rfl
      cases hd : drain (buffer.drop L.val) with
      | done fs b => simp
      | panic => simp
      | fuel => exact absurd hd this

theorem drain_done_bound (n : Nat) : ∀ (buffer : List Byte) (frames : List Frame)
    (rest : List Byte), buffer.length = n → drain buffer = .done frames rest →
    40 * frames.length + rest.length ≤ buffer.length := by
  induction n using Nat.strong_induction_on with
  | _ n ih =>
    intro buffer frames rest hn hd
    rcases Unpack_cases buffer with ⟨-, hu⟩ | ⟨L, -, -, hu⟩ | ⟨L, -, -, -, hu⟩ |
      ⟨L, m, -, hlen, h40, -, hu⟩
    · rw [drain_err buffer buffer _ hu] at hd
      cases hd
      simp
    · rw [drain_err buffer buffer _ hu] at hd
      cases hd
      simp
    · rw [drain_panic buffer buffer hu] at hd
      cases hd
    · rw [drain_ok buffer _ _ _ _ hu] at hd
      simp only [Drained.andThen] at hd
      cases hr : drain (buffer.drop L.val) with
      | done fs2 r2 =>
        rw [hr] at hd
        simp only [Drained.done.injEq] at hd
        obtain ⟨rfl, rfl⟩ := hd
        have := ih (buffer.drop L.val).length (by simp only [List.length_drop]; omega)
          (buffer.drop L.val) fs2 r2 rfl hr
        simp only [List.length_drop] at this
        simp only [List.singleton_append, List.length_cons]
        omega
      | panic => rw [hr] at hd; cases hd
      | fuel => rw [hr] at hd; cases hd

/-- C30: every successful Unpack removes at least 40 bytes from the buffer; the
inner loop of HandleGameServerMessage stops within its budget of |buffer| / 40
successful iterations followed by one failing call, whatever larger budget it is
given; and when it stops on an error it has decoded at most |buffer| / 40 frames. -/
theorem drain_terminates (buffer : List Byte) :
    (∀ msgID sessionID data rest, Unpack buffer = (.ok msgID sessionID data, rest) →
      rest.length + 40 ≤ buffer.length) ∧
    drainLoop (buffer.length / 40 + 1) buffer ≠ .fuel ∧
    (∀ n, buffer.length / 40 < n → drainLoop n buffer = drain buffer) ∧
    (∀ frames rest, drain buffer = .done frames rest →
      frames.length ≤ buffer.length / 40 ∧
      40 * frames.length + rest.length ≤ buffer.length) := by
  refine ⟨?_, drain_ne_fuel _ buffer rfl, fun n hn => drainLoop_eq_drain n buffer hn, ?_⟩
  · intro m s d rest h
    obtain ⟨L, -, h40, hlen, -, -, -, hr⟩ := Unpack_ok_inv buffer m s d rest h
    rw [hr, List.length_drop]
    omega
  · intro frames rest hd
    have := drain_done_bound _ buffer frames rest rfl hd
    exact ⟨by omega, this⟩

theorem putUint32_of_bigEndian (l : List Byte) (v : U32) (hl : l.length = 4)
    (h : bigEndianUint32 l = some v) : putUint32 v.val = l := by
  match l, hl with
  | [b0, b1, b2, b3], _ =>
    simp only [bigEndianUint32, Option.some.injEq] at h
    subst h
    have h0 := b0.isLt
    have h1 := b1.isLt
    have h2 := b2.isLt
    have h3 := b3.isLt
    simp only [putUint32, toByte, List.cons.injEq, and_true]
    refine ⟨?_, ?_, ?_, ?_⟩ <;> apply Fin.ext <;> simp only <;> omega

theorem trimRightNul_pad (l : List Byte) :
    trimRightNul l ++ List.replicate (l.length - (trimRightNul l).length) 0 = l := by
  induction l using List.reverseRecOn with
  | nil => rfl
  | append_singleton l a ih =>
    by_cases ha : a = 0
    · subst ha
      have ht : trimRightNul (l ++ [0]) = trimRightNul l := by
        unfold trimRightNul
        rw [List.rdropWhile_concat_pos _ _ _ (by simp)]
      have hle := trimRightNul_length_le l
      rw [ht, List.length_append, List.length_singleton,
        show l.length + 1 - (trimRightNul l).length =
          (l.length - (trimRightNul l).length) + 1 by omega,
        List.replicate_succ', ← List.append_assoc, ih]
    · have ht : trimRightNul (l ++ [a]) = l ++ [a] := by
        unfold trimRightNul
        rw [List.rdropWhile_concat_neg _ _ _ (by simpa using ha)]
      rw [ht]
      simp

theorem Pack_Unpack_frame (f : List Byte) (L : U32)
    (hL : bigEndianUint32 (f.take 4) = some L) (hsize : L.val = f.length)
    (h40 : 40 ≤ f.length) :
    ∃ msgID, bigEndianUint32 ((f.take 8).drop 4) = some msgID ∧
      Unpack f = (.ok msgID (trimRightNul ((f.take 40).drop 8)) (f.drop 40), []) ∧
      Pack msgID (trimRightNul ((f.take 40).drop 8)) (f.drop 40) = some f := by
  obtain ⟨msgID, hm, hu⟩ := Unpack_of_complete f L hL (by omega) (by omega)
  refine ⟨msgID, hm, ?_, ?_⟩
  · rw [hu, hsize, List.take_length, List.drop_length]
  · have hlt := L.isLt
    have hfit : HeaderLength + (f.drop 40).length < 4294967296 := by
      simp only [HeaderLength, List.length_drop]; omega
    rw [pack_eq msgID _ _ hfit]
    have hsidlen : ((f.take 40).drop 8).length = 32 := by
      simp only [List.length_drop, List.length_take]; omega
    have htl := trimRightNul_length_le ((f.take 40).drop 8)
    have h1 : putUint32 (HeaderLength + (f.drop 40).length) = f.take 4 := by
      have : HeaderLength + (f.drop 40).length = L.val := by
        simp only [HeaderLength, List.length_drop]; omega
      rw [this]
      exact putUint32_of_bigEndian _ L (by simp only [List.length_take]; omega) hL
    have h2 : putUint32 msgID.val = (f.take 8).drop 4 :=
      putUint32_of_bigEndian _ msgID (by simp only [List.length_drop, List.length_take]; omega) hm
    have h3 : (trimRightNul ((f.take 40).drop 8)).take 32 ++
        List.replicate (32 - (trimRightNul ((f.take 40).drop 8)).length) 0 =
        (f.take 40).drop 8 := by
      rw [List.take_of_length_le (by omega)]
      have := trimRightNul_pad ((f.take 40).drop 8)
      rw [hsidlen] at this
      exact this
    rw [h1, h2, h3]
    congr 1
    have e1 : (f.take 8).drop 4 = (f.drop 4).take 4 := by
      rw [List.drop_take]
    have e2 : (f.take 40).drop 8 = (f.drop 8).take 32 := by
      rw [List.drop_take]
    rw [e1, e2]
    have a1 : (f.drop 8).take 32 ++ f.drop 40 = f.drop 8 := by
      have := List.take_append_drop 32 (f.drop 8)
      rw [List.drop_drop] at this
      simpa using this
    have a2 : (f.drop 4).take 4 ++ f.drop 8 = f.drop 4 := by
      have := List.take_append_drop 4 (f.drop 4)
      rw [List.drop_drop] at this
      simpa using this
    rw [a1, a2, List.take_append_drop]

/-- C27: for every well-formed frame f (at least 40 bytes, length prefix equal to
its size), Unpack decodes f completely and Pack of the decoded msgID, sessionID and
payload is f again, whatever bytes the sessionID field holds; and when the msgID is
neither 0x11002 nor 0x10001, forwardToClient and the upstream dispatch write exactly
f to the WebSocket of the client registered under the decoded sessionID, and write
nothing when no client is registered. -/
theorem relay_verbatim (f : List Byte) (L : U32)
    (hL : bigEndianUint32 (f.take 4) = some L) (hsize : L.val = f.length)
    (h40 : 40 ≤ f.length) :
    ∃ msgID sessionID data, Unpack f = (.ok msgID sessionID data, []) ∧
      Pack msgID sessionID data = some f ∧
      ∀ (clientObj : ClientPtr → Client) (registry : ClientManager),
        (∀ c, registry.GetClient sessionID = some c →
          forwardToClient clientObj registry msgID sessionID data =
            some [Event.wsWrite (clientObj c).Conn f]) ∧
        (registry.GetClient sessionID = none →
          forwardToClient clientObj registry msgID sessionID data = some []) ∧
        (msgID ≠ 0x11002 → msgID ≠ 0x10001 → ∀ (env : Env) (dec : Decoder) (gs : Ptr),
          dispatchUpstream env dec clientObj registry gs ⟨msgID, sessionID, data⟩ =
            (forwardToClient clientObj registry msgID sessionID data).map
              fun sent => ⟨clientObj, registry, sent⟩) := by
  obtain ⟨msgID, -, hu, hp⟩ := Pack_Unpack_frame f L hL hsize h40
  refine ⟨msgID, _, _, hu, hp, fun clientObj registry => ⟨?_, ?_, ?_⟩⟩
  · intro c hc
    simp only [forwardToClient, hp, hc]
  · intro hc
    simp only [forwardToClient, hp, hc]
  · intro h1 h2 env dec gs
    simp only [dispatchUpstream, if_neg h1, if_neg h2]

/-- Instance on a 43-byte frame whose sessionID field holds an interior NUL byte,
relayed to the client registered under that sessionID. -/
theorem relay_verbatim_witness :
    bigEndianUint32 (([0, 0, 0, 43, 0, 0, 0, 5, 65, 0, 66] ++ List.replicate 29 0 ++
      [1, 2, 3] : List Byte).take 4) = some 43 ∧
    (43 : U32).val = ([0, 0, 0, 43, 0, 0, 0, 5, 65, 0, 66] ++ List.replicate 29 0 ++
      [1, 2, 3] : List Byte).length ∧
    ∃ msgID sessionID data,
      Unpack ([0, 0, 0, 43, 0, 0, 0, 5, 65, 0, 66] ++ List.replicate 29 0 ++ [1, 2, 3]) =
        (.ok msgID sessionID data, []) ∧
      Pack msgID sessionID data =
        some ([0, 0, 0, 43, 0, 0, 0, 5, 65, 0, 66] ++ List.replicate 29 0 ++ [1, 2, 3]) :=
  ⟨by decide, by decide,
    match relay_verbatim
      ([0, 0, 0, 43, 0, 0, 0, 5, 65, 0, 66] ++ List.replicate 29 0 ++ [1, 2, 3]) 43
      (by decide) (by decide) (by decide) with
    | ⟨m, s, d, hu, hp, _⟩ => ⟨m, s, d, hu, hp⟩⟩

/-! ## The stub and the frames of the gateway -/

theorem stubLoop_of_incomplete (n : Nat) (dataBuffer : List Byte) (L : U32)
    (h40 : HeaderLength ≤ dataBuffer.length)
    (hL : bigEndianUint32 (dataBuffer.take 4) = some L)
    (hlt : dataBuffer.length < L.val + 4) :
    stubLoop (n + 1) dataBuffer = .done [] dataBuffer := by
  unfold stubLoop
  rw [if_neg (by omega), hL]
  simp only
  rw [if_pos hlt]

theorem stubDrain_packed (msgID : U32) (sessionID data frame : List Byte)
    (hfit : HeaderLength + data.length < 4294967296)
    (hp : Pack msgID sessionID data = some frame) (hs : sessionID.length ≤ 32) :
    stubDrain frame = .done [] frame := by
  rw [pack_eq msgID sessionID data hfit] at hp
  have hp := Option.some.inj hp
  have hlen : frame.length = HeaderLength + data.length := by
    rw [← hp]
    simp only [List.length_append, putUint32_length, List.length_take,
      List.length_replicate, HeaderLength]
    omega
  have hL : bigEndianUint32 (frame.take 4) = some ⟨HeaderLength + data.length, hfit⟩ := by
    rw [← hp, take_four_putUint32]
    exact bigEndianUint32_putUint32_nat _ hfit []
  exact stubLoop_of_incomplete _ frame _ (by omega) hL (by simp only; omega)

/-- C28: fed exactly the 43 bytes of Pack(0x11001, "AB", [1, 2, 3]), from which
Unpack extracts that message and leaves nothing, the framing loop of the stub
extracts no message and consumes no byte; given four more bytes it extracts a message
whose payload has swallowed them. The same holds for every frame of Pack with a
sessionID of at most 32 bytes and 40 + |payload| below 2^32: the stub extracts
nothing from it. -/
theorem stub_misses_gateway_frame :
    Pack 0x11001 [65, 66] [1, 2, 3] =
      some ([0, 0, 0, 43, 0, 1, 16, 1, 65, 66] ++ List.replicate 30 0 ++ [1, 2, 3]) ∧
    Unpack ([0, 0, 0, 43, 0, 1, 16, 1, 65, 66] ++ List.replicate 30 0 ++ [1, 2, 3]) =
      (.ok 0x11001 [65, 66] [1, 2, 3], []) ∧
    stubDrain ([0, 0, 0, 43, 0, 1, 16, 1, 65, 66] ++ List.replicate 30 0 ++ [1, 2, 3]) =
      .done [] ([0, 0, 0, 43, 0, 1, 16, 1, 65, 66] ++ List.replicate 30 0 ++ [1, 2, 3]) ∧
    stubDrain ([0, 0, 0, 43, 0, 1, 16, 1, 65, 66] ++ List.replicate 30 0 ++ [1, 2, 3] ++
        [0, 0, 0, 40]) =
      .done [⟨0x11001, [65, 66], [1, 2, 3, 0, 0, 0, 40]⟩] [] ∧
    ∀ (msgID : U32) (sessionID data frame : List Byte), sessionID.length ≤ 32 →
      HeaderLength + data.length < 4294967296 → Pack msgID sessionID data = some frame →
      stubDrain frame = .done [] frame :=
  ⟨by decide, by decide, by decide, by decide,
    fun msgID sessionID data frame hs hfit hp =>
      stubDrain_packed msgID sessionID data frame hfit hp hs⟩

/-! ## Upstream dispatch of LoginResp and kick frames -/

theorem dispatch_loginResp_registered (env : Env) (dec : Decoder)
    (clientObj : ClientPtr → Client) (registry : ClientManager) (gs : Ptr) (frame : Frame)
    (loginResp : LoginResp) (data : List Byte) (c : ClientPtr)
    (hid : frame.msgID = 0x11002)
    (hdec : dec.unmarshalLoginResp frame.data = some loginResp)
    (hm : env.marshalLoginResp loginResp = some data)
    (hfit : HeaderLength + data.length < 4294967296)
    (hc : registry.GetClient frame.sessionID = some c) :
    ∃ sent, Pack 0x11002 frame.sessionID data = some sent ∧
      dispatchUpstream env dec clientObj registry gs frame =
        if env.wsWrite (clientObj c).Conn sent then
          if loginResp.Code = 0 then
            some ⟨fun q => if q = c then { clientObj c with GameServer := some gs }
                else clientObj q,
              registry, [Event.wsLoginResp (clientObj c).Conn loginResp sent]⟩
          else
            some ⟨clientObj, registry.RemoveClient frame.sessionID,
              [Event.wsLoginResp (clientObj c).Conn loginResp sent,
                Event.wsClose (clientObj c).Conn]⟩
        else
          some ⟨clientObj, registry,
            [Event.wsLoginResp (clientObj c).Conn loginResp sent]⟩ := by
  obtain ⟨sent, hs⟩ := Pack_isSome 0x11002 frame.sessionID data hfit
  refine ⟨sent, hs, ?_⟩
  simp only [dispatchUpstream, if_pos hid, hdec, handleLoginResponse, hc, hm, hs]

/-- C21 (as stated, refuted): a LoginResp with code 7 arrives from server 1 for the
registered sessionID "AB" while the WebSocket write to the client fails. The handler
hands the frame to the WebSocket and returns: the WebSocket is not closed and the
client is still registered. -/
theorem loginResp_write_failure :
    (dispatchUpstream brokenWsEnv exampleDecoder exampleClientObj exampleRegistry 1
        ⟨0x11002, [65, 66], [7]⟩).map (fun r => (r.registry.GetClient [65, 66], r.events)) =
      some (some 0, [Event.wsLoginResp 100 ⟨"u1", 7, "msg", none⟩
        ([0, 0, 0, 41, 0, 1, 16, 2, 65, 66] ++ List.replicate 30 0 ++ [7])]) ∧
    exampleRegistry.GetClient [65, 66] = some 0 :=
  ⟨rfl, rfl⟩

/-- C21 (amended): for a LoginResp frame from server gs that the gateway can decode,
marshal again and fit in a frame: if the sessionID is not registered, nothing is sent
and nothing changes; if it is registered, the frame Pack(0x11002, sessionID, data) is
handed to the WebSocket of that client, and when that write succeeds, code 0 binds
the client to gs and leaves the registry unchanged, while any other code closes the
WebSocket and removes the sessionID from the registry, so that GetClient reports it
absent; when the write fails, the client is neither bound nor torn down. -/
theorem loginResp_dispatch (env : Env) (dec : Decoder) (clientObj : ClientPtr → Client)
    (registry : ClientManager) (gs : Ptr) (frame : Frame) (loginResp : LoginResp)
    (data : List Byte) (hid : frame.msgID = 0x11002)
    (hdec : dec.unmarshalLoginResp frame.data = some loginResp)
    (hm : env.marshalLoginResp loginResp = some data)
    (hfit : HeaderLength + data.length < 4294967296) :
    (registry.GetClient frame.sessionID = none →
      dispatchUpstream env dec clientObj registry gs frame =
        some ⟨clientObj, registry, []⟩) ∧
    (∀ c, registry.GetClient frame.sessionID = some c →
      ∃ sent r, Pack 0x11002 frame.sessionID data = some sent ∧
        dispatchUpstream env dec clientObj registry gs frame = some r ∧
        r.events.head? = some (Event.wsLoginResp (clientObj c).Conn loginResp sent) ∧
        (env.wsWrite (clientObj c).Conn sent = true → loginResp.Code = 0 →
          r.clientObj c = { clientObj c with GameServer := some gs } ∧
          (∀ q, q ≠ c → r.clientObj q = clientObj q) ∧
          r.registry = registry ∧ r.registry.GetClient frame.sessionID = some c ∧
          r.events = [Event.wsLoginResp (clientObj c).Conn loginResp sent]) ∧
        (env.wsWrite (clientObj c).Conn sent = true → loginResp.Code ≠ 0 →
          r.clientObj = clientObj ∧
          r.registry = registry.RemoveClient frame.sessionID ∧
          r.registry.GetClient frame.sessionID = none ∧
          r.events = [Event.wsLoginResp (clientObj c).Conn loginResp sent,
            Event.wsClose (clientObj c).Conn]) ∧
        (env.wsWrite (clientObj c).Conn sent = false →
          r.clientObj = clientObj ∧ r.registry = registry ∧
          r.events = [Event.wsLoginResp (clientObj c).Conn loginResp sent])) := by
  refine ⟨?_, ?_⟩
  · intro hc
    simp only [dispatchUpstream, if_pos hid, hdec, handleLoginResponse, hc]
  · intro c hc
    obtain ⟨sent, hs, hd⟩ := dispatch_loginResp_registered env dec clientObj registry gs
      frame loginResp data c hid hdec hm hfit hc
    by_cases hw : env.wsWrite (clientObj c).Conn sent = true
    · by_cases hcode : loginResp.Code = 0
      · rw [if_pos hw, if_pos hcode] at hd
        refine ⟨sent, _, hs, hd, rfl, ?_, ?_, ?_⟩
        · intro _ _
          refine ⟨by simp, ?_, rfl, hc, rfl⟩
          intro q hq
          simp [hq]
        · intro _ hne
          exact absurd hcode hne
        · intro hf
          rw [hw] at hf
          cases hf
      · rw [if_pos hw, if_neg hcode] at hd
        refine ⟨sent, _, hs, hd, rfl, ?_, ?_, ?_⟩
        · intro _ h0
          exact absurd h0 hcode
        · intro _ _
          refine ⟨rfl, rfl, ?_, rfl⟩
          simp only [GetClient_RemoveClient, if_true]
        · intro hf
          rw [hw] at hf
          cases hf
    · rw [if_neg hw] at hd
      refine ⟨sent, _, hs, hd, rfl, ?_, ?_, ?_⟩
      · intro h
        exact absurd h hw
      · intro h
        exact absurd h hw
      · intro _
        exact ⟨rfl, rfl, rfl⟩

/-- Instance: a LoginResp with code 0 from server 1 for the registered sessionID
"AB", in the environment where every call succeeds. -/
theorem loginResp_dispatch_witness :
    (⟨0x11002, [65, 66], [0]⟩ : Frame).msgID = 0x11002 ∧
    exampleDecoder.unmarshalLoginResp [0] = some ⟨"u1", 0, "msg", none⟩ ∧
    exampleEnv.marshalLoginResp ⟨"u1", 0, "msg", none⟩ = some [0] ∧
    ∃ sent r, Pack 0x11002 [65, 66] [0] = some sent ∧
      dispatchUpstream exampleEnv exampleDecoder exampleClientObj exampleRegistry 1
        ⟨0x11002, [65, 66], [0]⟩ = some r ∧
      r.events.head? = some (Event.wsLoginResp 100 ⟨"u1", 0, "msg", none⟩ sent) :=
  ⟨rfl, rfl, rfl,
    match (loginResp_dispatch exampleEnv exampleDecoder exampleClientObj exampleRegistry 1
      ⟨0x11002, [65, 66], [0]⟩ ⟨"u1", 0, "msg", none⟩ [0] rfl rfl rfl (by decide)).2 0 rfl with
    | ⟨sent, r, hs, hd, he, _⟩ => ⟨sent, r, hs, hd, he⟩⟩

/-- C22: a kick frame with msgID 0x10001 arrives from server 1 for the registered
sessionID "AB", its payload [11] being the encoding of the notice. The frame written
to the WebSocket of the client carries msgID 10001 (0x2711), not 0x10001; the
WebSocket is then closed and the client removed. In general the dispatch of a kick
frame writes Pack(10001, notice.SessionId, Marshal(notice)). -/
theorem kick_forwarded_with_decimal_id :
    (dispatchUpstream exampleEnv exampleDecoder exampleClientObj exampleRegistry 1
        ⟨0x10001, [65, 66], [11]⟩).map (fun r => (r.registry, r.events)) =
      some (⟨[]⟩, [Event.wsWrite 100
          ([0, 0, 0, 41, 0, 0, 39, 17, 65, 66] ++ List.replicate 30 0 ++ [11]),
        Event.wsClose 100]) ∧
    Unpack ([0, 0, 0, 41, 0, 0, 39, 17, 65, 66] ++ List.replicate 30 0 ++ [11]) =
      (.ok 10001 [65, 66] [11], []) ∧
    Pack 0x10001 [65, 66] [11] =
      some ([0, 0, 0, 41, 0, 1, 0, 1, 65, 66] ++ List.replicate 30 0 ++ [11]) ∧
    (10001 : U32) ≠ 0x10001 ∧
    ∀ (env : Env) (dec : Decoder) (clientObj : ClientPtr → Client)
      (registry : ClientManager) (gs : Ptr) (frame : Frame) (kickNotify : KickPlayerNotify)
      (data : List Byte) (c : ClientPtr), frame.msgID = 0x10001 →
      dec.unmarshalKick frame.data = some kickNotify →
      env.marshalKick kickNotify = some data →
      HeaderLength + data.length < 4294967296 →
      registry.GetClient kickNotify.SessionId = some c →
      ∃ sent, Pack 10001 kickNotify.SessionId data = some sent ∧
        dispatchUpstream env dec clientObj registry gs frame =
          some ⟨clientObj, registry.RemoveClient kickNotify.SessionId,
            [Event.wsWrite (clientObj c).Conn sent, Event.wsClose (clientObj c).Conn]⟩ := by
  refine ⟨rfl, by decide, by decide, by decide, ?_⟩
  intro env dec clientObj registry gs frame kickNotify data c hid hdec hm hfit hc
  obtain ⟨sent, hs⟩ := Pack_isSome 10001 kickNotify.SessionId data hfit
  refine ⟨sent, hs, ?_⟩
  have h1 : frame.msgID ≠ 0x11002 := by rw [hid]; decide
  simp only [dispatchUpstream, if_neg h1, if_pos hid, hdec, handleKickPlayerNotify, hc, hm, hs]

/-! ## Client relay and disconnect -/

/-- C23: for every client message that Unpack decodes with a msgID other than
0x11001: if the client is not bound, nothing is written and neither the client nor
the servers change; if it is bound to a server whose connection is open, exactly one
frame is written to that server, Pack(msgID, client.SessionID, payload) with the
received msgID and payload, and nothing else changes; if the connection of the bound
server is nil, the write panics and no byte is written. The sessionID field of the
received frame does not occur in the result. -/
theorem client_relay (env : Env) (dec : Decoder) (reply : RedisReply) (heap : Heap)
    (servers : ServerMap) (client : Client) (clientIP : String) (data : List Byte)
    (msgID : U32) (sessionID msgData rest : List Byte)
    (hu : Unpack data = (.ok msgID sessionID msgData, rest)) (hne : msgID ≠ 0x11001) :
    (client.GameServer = none →
      handleClientMessage env dec reply heap servers client clientIP data =
        some ⟨heap, client, []⟩) ∧
    (∀ gs conn, client.GameServer = some gs → (heap.obj gs).Conn = some conn →
      ∃ sent, Pack msgID client.SessionID msgData = some sent ∧
        handleClientMessage env dec reply heap servers client clientIP data =
          some ⟨heap, client, [Event.tcpWrite gs conn sent]⟩) ∧
    (∀ gs, client.GameServer = some gs → (heap.obj gs).Conn = none →
      handleClientMessage env dec reply heap servers client clientIP data = none) := by
  have hfit : HeaderLength + msgData.length < 4294967296 := by
    obtain ⟨L, -, h40, hlen, -, -, hd, -⟩ :=
      Unpack_ok_inv data msgID sessionID msgData rest hu
    have hL := L.isLt
    rw [hd]
    simp only [HeaderLength, List.length_drop, List.length_take]
    omega
  obtain ⟨sent, hs⟩ := Pack_isSome msgID client.SessionID msgData hfit
  refine ⟨?_, ?_, ?_⟩
  · intro hg
    simp only [handleClientMessage, hu, if_neg hne, hg]
  · intro gs conn hg hconn
    exact ⟨sent, hs, by simp only [handleClientMessage, hu, if_neg hne, hg, hs, hconn]⟩
  · intro gs hg hconn
    simp only [handleClientMessage, hu, if_neg hne, hg, hs, hconn]

/-- Instance: the client "AB" bound to server 0, whose connection 7 is open, sends a
frame with msgID 5 that names the sessionID "ZZ". -/
theorem client_relay_witness :
    Unpack ([0, 0, 0, 43, 0, 0, 0, 5, 90, 90] ++ List.replicate 30 0 ++ [1, 2, 3]) =
      (.ok 5 [90, 90] [1, 2, 3], []) ∧ (5 : U32) ≠ 0x11001 ∧
    ∃ sent, Pack 5 [65, 66] [1, 2, 3] = some sent ∧
      handleClientMessage exampleEnv exampleDecoder .missing saturatedHeap saturatedFleet
        (boundClientObj 0) "9.9.9.9"
        ([0, 0, 0, 43, 0, 0, 0, 5, 90, 90] ++ List.replicate 30 0 ++ [1, 2, 3]) =
        some ⟨saturatedHeap, boundClientObj 0, [Event.tcpWrite 0 7 sent]⟩ :=
  ⟨by decide, by decide,
    (client_relay exampleEnv exampleDecoder .missing saturatedHeap saturatedFleet
      (boundClientObj 0) "9.9.9.9"
      ([0, 0, 0, 43, 0, 0, 0, 5, 90, 90] ++ List.replicate 30 0 ++ [1, 2, 3])
      5 [90, 90] [1, 2, 3] [] (by decide) (by decide)).2.1 0 7 rfl rfl⟩

/-- C26 (as stated, refuted): the client "AB" is bound to server 0, whose connection
is not open, when its handler loop ends. The WebSocket is closed and the client is
removed, but no ConnClose frame is written although client.GameServer is set. -/
theorem disconnect_without_notice :
    (boundClientObj 0).GameServer = some 0 ∧ (exampleHeap.obj 0).Conn = none ∧
    (disconnect exampleEnv exampleHeap boundClientObj exampleRegistry 0).map
        (fun r => (r.registry, r.events)) =
      some (⟨[]⟩, [Event.wsClose 100]) :=
  ⟨rfl, rfl, rfl⟩

/-- C26 (amended): when the client handler loop ends, and ConnClose marshals to the
empty payload and the sessionID has at most 32 bytes: the WebSocket is closed and
the sessionID is no longer in the registry in every case; a ConnClose frame is
written, to the bound server, if and only if client.GameServer is set and the
connection of that server is open; that frame is exactly 40 bytes: length 40, msgID
0x10001, the sessionID NUL-padded to 32 bytes, and no payload. -/
theorem disconnect_teardown (env : Env) (heap : Heap) (clientObj : ClientPtr → Client)
    (registry : ClientManager) (c : ClientPtr) (hm : env.marshalConnClose = some [])
    (hs : (clientObj c).SessionID.length ≤ 32) :
    ∃ r, disconnect env heap clientObj registry c = some r ∧
      r.clientObj = clientObj ∧
      r.registry = registry.RemoveClient (clientObj c).SessionID ∧
      r.registry.GetClient (clientObj c).SessionID = none ∧
      r.events.head? = some (Event.wsClose (clientObj c).Conn) ∧
      ((∃ gs conn sent, Event.tcpWrite gs conn sent ∈ r.events) ↔
        ∃ gs conn, (clientObj c).GameServer = some gs ∧ (heap.obj gs).Conn = some conn) ∧
      (∀ gs conn, (clientObj c).GameServer = some gs → (heap.obj gs).Conn = some conn →
        r.events = [Event.wsClose (clientObj c).Conn,
          Event.tcpWrite gs conn (putUint32 40 ++ (putUint32 0x10001 ++
            ((clientObj c).SessionID ++
              List.replicate (32 - (clientObj c).SessionID.length) 0)))] ∧
        (putUint32 40 ++ (putUint32 0x10001 ++ ((clientObj c).SessionID ++
          List.replicate (32 - (clientObj c).SessionID.length) 0))).length = 40) ∧
      (((clientObj c).GameServer = none ∨
          ∃ gs, (clientObj c).GameServer = some gs ∧ (heap.obj gs).Conn = none) →
        r.events = [Event.wsClose (clientObj c).Conn]) := by
  have hp := pack_eq 0x10001 (clientObj c).SessionID [] (by decide)
  rw [List.take_of_length_le hs] at hp
  simp only [HeaderLength, List.length_nil, Nat.add_zero, List.append_nil] at hp
  have hget : (registry.RemoveClient (clientObj c).SessionID).GetClient
      (clientObj c).SessionID = none := by
    simp only [GetClient_RemoveClient, if_true]
  cases hg : (clientObj c).GameServer with
  | none =>
    refine ⟨⟨clientObj, registry.RemoveClient (clientObj c).SessionID,
      [Event.wsClose (clientObj c).Conn]⟩, ?_, rfl, rfl, hget, rfl, ?_, ?_, ?_⟩
    · simp only [disconnect, hg]
    · simp
    · intro gs conn h
      cases h
    · intro _
      rfl
  | some gs =>
    cases hconn : (heap.obj gs).Conn with
    | none =>
      refine ⟨⟨clientObj, registry.RemoveClient (clientObj c).SessionID,
        [Event.wsClose (clientObj c).Conn]⟩, ?_, rfl, rfl, hget, rfl, ?_, ?_, ?_⟩
      · simp only [disconnect, hg, sendConnCloseToGameServer, hconn, Option.map_some']
      · simp only [List.mem_singleton, reduceCtorEq, exists_false, Option.some.injEq,
          false_iff, not_exists, not_and]
        intro gs2 conn2 h2
        subst h2
        rw [hconn]
        simp
      · intro gs2 conn2 h2 h3
        cases h2
        rw [hconn] at h3
        cases h3
      · intro _
        rfl
    | some conn =>
      refine ⟨⟨clientObj, registry.RemoveClient (clientObj c).SessionID,
        [Event.wsClose (clientObj c).Conn, Event.tcpWrite gs conn
          (putUint32 40 ++ (putUint32 0x10001 ++ ((clientObj c).SessionID ++
            List.replicate (32 - (clientObj c).SessionID.length) 0)))]⟩,
        ?_, rfl, rfl, hget, rfl, ?_, ?_, ?_⟩
      · simp only [disconnect, hg, sendConnCloseToGameServer, hconn, hm, hp,
          Option.map_some']
        rfl
      · constructor
        · intro _
          exact ⟨gs, conn, rfl, hconn⟩
        · intro _
          exact ⟨gs, conn, _, List.mem_cons_of_mem _ (List.mem_singleton.mpr rfl)⟩
      · intro gs2 conn2 h2 h3
        cases h2
        rw [hconn] at h3
        cases h3
        refine ⟨rfl, ?_⟩
        simp only [List.length_append, putUint32_length, List.length_replicate]
        omega
      · rintro (h | ⟨gs2, h2, h3⟩)
        · cases h
        · cases h2
          rw [hconn] at h3
          cases h3

/-- Instance: the client "AB" bound to server 0, whose connection 7 is open. -/
theorem disconnect_teardown_witness :
    exampleEnv.marshalConnClose = some [] ∧ (boundClientObj 0).SessionID.length ≤ 32 ∧
    ∃ r, disconnect exampleEnv saturatedHeap boundClientObj exampleRegistry 0 = some r ∧
      r.clientObj = boundClientObj ∧
      r.registry = exampleRegistry.RemoveClient (boundClientObj 0).SessionID :=
  ⟨rfl, by decide,
    match disconnect_teardown exampleEnv saturatedHeap boundClientObj exampleRegistry 0 rfl
      (by decide) with
    | ⟨r, hd, hc, hr, _⟩ => ⟨r, hd, hc, hr⟩⟩

/-! ## Session IDs and the client IP -/

theorem encodeURL_length : encodeURL.length = 64 := by decide

set_option maxRecDepth 100000 in
theorem encodeURL_safe : ∀ c ∈ encodeURL, isURLSafe c = true := by decide

theorem base64Char_mem (v : Nat) : base64Char v ∈ encodeURL := by
  have hlt : v % 64 < encodeURL.length := by
    rw [encodeURL_length]
    exact Nat.mod_lt _ (by decide)
  unfold base64Char
  rw [List.getD_eq_getElem _ _ hlt]
  exact List.getElem_mem hlt

theorem rawURLEncode_mem (l : List Byte) : ∀ c ∈ rawURLEncode l, c ∈ encodeURL := by
  induction l using rawURLEncode.induct with
  | case1 b0 b1 b2 rest ih =>
    intro c hc
    simp only [rawURLEncode, List.mem_cons] at hc
    rcases hc with rfl | rfl | rfl | rfl | hc
    · exact base64Char_mem _
    · exact base64Char_mem _
    · exact base64Char_mem _
    · exact base64Char_mem _
    · exact ih c hc
  | case2 b0 b1 =>
    intro c hc
    simp only [rawURLEncode, List.mem_cons, List.not_mem_nil, or_false] at hc
    rcases hc with rfl | rfl | rfl
    · exact base64Char_mem _
    · exact base64Char_mem _
    · exact base64Char_mem _
  | case3 b0 =>
    intro c hc
    simp only [rawURLEncode, List.mem_cons, List.not_mem_nil, or_false] at hc
    rcases hc with rfl | rfl
    · exact base64Char_mem _
    · exact base64Char_mem _
  | case4 =>
    intro c hc
    simp [rawURLEncode] at hc

theorem rawURLEncode_length (l : List Byte) :
    (rawURLEncode l).length = (4 * l.length + 2) / 3 := by
  induction l using rawURLEncode.induct with
  | case1 b0 b1 b2 rest ih =>
    simp only [rawURLEncode, List.length_cons, ih]
    omega
  | case2 b0 b1 => simp [rawURLEncode]
  | case3 b0 => simp [rawURLEncode]
  | case4 => rfl

theorem trimRightNul_of_not_mem (l : List Byte) (h : (0 : Byte) ∉ l) :
    trimRightNul l = l := by
  unfold trimRightNul
  rw [List.rdropWhile_eq_self_iff]
  intro hl hlast
  apply h
  have hm := List.getLast_mem hl
  have h0 : l.getLast hl = 0 := by simpa using hlast
  rw [h0] at hm
  exact hm

theorem putUint64_length (v : Nat) : (putUint64 v).length = 8 := rfl

theorem generateSessionID_length (unixNano : Int) (random : List Byte) :
    (generateSessionID unixNano random).length = 32 := by
  unfold generateSessionID
  rw [rawURLEncode_length, List.length_append, goCopy_length, List.length_replicate,
    putUint64_length]

theorem generateSessionID_safe (unixNano : Int) (random : List Byte) :
    ∀ c ∈ generateSessionID unixNano random, isURLSafe c = true := fun c hc =>
  encodeURL_safe c (rawURLEncode_mem _ c hc)

/-- C24: for every timestamp and every random bytes, the ID generateSessionID
encodes is exactly 32 bytes long, every one of them in A-Z, a-z, 0-9, - or _; with
16 random bytes it is the unpadded URL-safe Base64 of the 8-byte big-endian
timestamp followed by those bytes; it holds no NUL, so trimming changes nothing; and
for every msgID and every payload that fits a frame, Pack stores it as the whole
32-byte sessionID field and Unpack returns it unchanged. -/
theorem generateSessionID_shape (unixNano : Int) (random : List Byte) :
    (generateSessionID unixNano random).length = 32 ∧
    (∀ c ∈ generateSessionID unixNano random, isURLSafe c = true) ∧
    (random.length = 16 → generateSessionID unixNano random =
      rawURLEncode (putUint64 (toUint64 unixNano) ++ random)) ∧
    (0 : Byte) ∉ generateSessionID unixNano random ∧
    trimRightNul (generateSessionID unixNano random) = generateSessionID unixNano random ∧
    ∀ (msgID : U32) (data : List Byte), HeaderLength + data.length < 4294967296 →
      ∃ frame, Pack msgID (generateSessionID unixNano random) data = some frame ∧
        slice frame 8 40 = some (generateSessionID unixNano random) ∧
        Unpack frame = (.ok msgID (generateSessionID unixNano random) data, []) := by
  have hlen := generateSessionID_length unixNano random
  have hsafe := generateSessionID_safe unixNano random
  have h0 : (0 : Byte) ∉ generateSessionID unixNano random := by
    intro h
    have := hsafe 0 h
    revert this
    decide
  have htrim := trimRightNul_of_not_mem _ h0
  refine ⟨hlen, hsafe, ?_, h0, htrim, ?_⟩
  · intro hr
    unfold generateSessionID
    rw [goCopy_same_length _ _ (by rw [List.length_replicate, hr])]
  · intro msgID data hfit
    generalize generateSessionID unixNano random = sid at hlen htrim
    have hp := pack_eq msgID sid data hfit
    rw [List.take_of_length_le (by omega), hlen] at hp
    simp only [Nat.sub_self, List.replicate_zero, List.append_nil] at hp
    refine ⟨_, hp, ?_, ?_⟩
    · have := slice_window (putUint32 (HeaderLength + data.length) ++ putUint32 msgID.val)
        sid data 8 40 rfl (by rw [hlen])
      simpa only [List.append_assoc] using this
    · have := Unpack_frame msgID sid data [] hlen (by simpa [HeaderLength] using hfit)
      rw [htrim, List.append_nil] at this
      exact this

/-- C25: getClientIP returns the first comma-separated element of X-Forwarded-For
when that header is non-empty, whatever X-Real-IP and the peer address are;
otherwise X-Real-IP when that is non-empty; otherwise the host part of the peer
address. The first element is the longest initial part of the header without a
comma: the header is that part alone or that part followed by a comma and more. -/
theorem getClientIP_precedence (headerGet : String → String) (splitHost : String → String)
    (remoteAddr : String) :
    (headerGet "X-Forwarded-For" ≠ "" →
      getClientIP headerGet splitHost remoteAddr = firstField (headerGet "X-Forwarded-For") ∧
      ∀ (headerGet2 : String → String) (splitHost2 : String → String) (remoteAddr2 : String),
        headerGet2 "X-Forwarded-For" = headerGet "X-Forwarded-For" →
        getClientIP headerGet2 splitHost2 remoteAddr2 =
          getClientIP headerGet splitHost remoteAddr) ∧
    (headerGet "X-Forwarded-For" = "" → headerGet "X-Real-IP" ≠ "" →
      getClientIP headerGet splitHost remoteAddr = headerGet "X-Real-IP") ∧
    (headerGet "X-Forwarded-For" = "" → headerGet "X-Real-IP" = "" →
      getClientIP headerGet splitHost remoteAddr = splitHost remoteAddr) ∧
    (∀ ip : String, (',' : Char) ∉ (firstField ip).data ∧
      ∃ rest, ip.data = (firstField ip).data ++ rest ∧ (rest = [] ∨ rest.head? = some ',')) ∧
    getClientIP (fun h => if h = "X-Forwarded-For" then "1.1.1.1, 2.2.2.2" else "3.3.3.3")
      (fun _ => "4.4.4.4") "4.4.4.4:80" = "1.1.1.1" := by
  refine ⟨?_, ?_, ?_, ?_, ?_⟩
  · intro h
    refine ⟨by simp only [getClientIP, if_pos h], ?_⟩
    intro headerGet2 splitHost2 remoteAddr2 h2
    simp only [getClientIP, h2, if_pos h]
  · intro h1 h2
    simp only [getClientIP, h1, if_pos h2, ne_eq, not_true_eq_false, if_false]
  · intro h1 h2
    simp only [getClientIP, h1, h2, ne_eq, not_true_eq_false, if_false]
  · intro ip
    refine ⟨?_, ip.data.dropWhile (fun c => c != ','), ?_, ?_⟩
    · intro hmem
      have := List.mem_takeWhile_imp hmem
      simp at this
    · simp only [firstField, List.takeWhile_append_dropWhile]
    · cases hd : ip.data.dropWhile (fun c => c != ',') with
      | nil => exact Or.inl rfl
      | cons a t =>
        right
        have := List.head_dropWhile_not (fun c => c != ',') ip.data (by rw [hd]; simp)
        simp only [hd, List.head_cons] at this
        simp only [List.head?_cons, Option.some.injEq]
        simpa using this
  · decide

end Gate
